import Mathlib

/-!
Arpeggiator LV2 plugin: a shallow embedding of `arpeggiator.c`.

The plugin state (`struct Arpeggiator`) is an explicit record that every
operation takes and returns.  Conventions of the embedding:

* `float`/`double` values (control ports, tempo, transport) are rationals;
  every arithmetic operation on them is followed by the rounding of its C type
  (`f32` for `float`, `f64` for `double`, round to nearest, ties to even), and
  conversions to integer types are written out (`toInt`, `toU8`, `toU32`).
  Infinities and NaN are not represented (a division by `0` gives `0`).
* `uint8_t`, `uint32_t` and `size_t` are naturals reduced modulo `2^8`,
  `2^32`, `2^64` where the C code can wrap; `int` is `Int` (the code keeps it
  far from its limits).
* C undefined behaviour that the code can reach (a read of `midi_notes` or
  `velocity_pattern` outside the array, `%` with divisor `0`) is the result
  `none`.
* The function-local `static int last_note_played` of `handleNoteOn` is a
  value threaded through the calls next to the instance state.
* Loops bounded by `NUM_VOICES` are recursive functions whose first argument
  is the number of iterations left; the per-sample loop recurses on the number
  of samples.
* The output port is the list of messages handed to
  `lv2_atom_sequence_append_event`, in call order; its capacity is the host's.
-/

namespace ArpLV2

/-- The number of voices, `#define NUM_VOICES 16`. -/
def NUM_VOICES : Nat := 16

/-- The modulus of `uint8_t`. -/
def U8 : Nat := 2 ^ 8

/-- The modulus of `uint32_t`. -/
def U32 : Nat := 2 ^ 32

/-- The modulus of `size_t` (64-bit target). -/
def SIZE : Nat := 2 ^ 64

/-- C conversion `(int)x` of a floating value: truncation toward zero. -/
def toInt (x : ℚ) : Int := Int.tdiv x.num (x.den : Int)

/-- C conversion `(uint8_t)x` of a floating value: truncate, keep the low 8 bits. -/
def toU8 (x : ℚ) : Nat := Int.toNat (toInt x % (U8 : Int))

/-- C conversion `(uint32_t)x` of a floating value: truncate, keep the low 32 bits. -/
def toU32 (x : ℚ) : Nat := Int.toNat (toInt x % (U32 : Int))

/-- Implicit conversion of an `int` to `uint8_t`. -/
def intToU8 (x : Int) : Nat := Int.toNat (x % (U8 : Int))

/-- Implicit conversion of an `int` to `size_t`. -/
def intToSize (x : Int) : Nat := Int.toNat (x % (SIZE : Int))

/-- The C operator `%` on `int`: truncated remainder, undefined for divisor `0`. -/
def cMod (a b : Int) : Option Int := if b = 0 then none else some (Int.tmod a b)

/-- The C library function `fmod` on doubles: the result `x - n * y`, with `n`
the quotient truncated toward zero, is exact. -/
def fmod (x y : ℚ) : ℚ := x - y * (toInt (x / y) : ℚ)

/-- Two to the power `e`, as a rational. -/
def pow2 (e : Int) : ℚ :=
  if 0 ≤ e then ((2 ^ e.toNat : Nat) : ℚ) else 1 / ((2 ^ (-e).toNat : Nat) : ℚ)

/-- The binary logarithm of `n`, rounded down, by at most `fuel` halvings. -/
def log2Fuel : Nat → Nat → Nat
  | 0, _ => 0
  | fuel + 1, n => if n < 2 then 0 else log2Fuel fuel (n / 2) + 1

/-- The binary exponent of a nonzero rational `x`: the `e` with
`2 ^ e ≤ |x| < 2 ^ (e + 1)`. -/
def binade (x : ℚ) : Int :=
  let e0 : Int := (log2Fuel x.num.natAbs x.num.natAbs : Int) - (log2Fuel x.den x.den : Int)
  if |x| < pow2 e0 then e0 - 1 else e0

/-- Rounding to the nearest integer, ties to the even one. -/
def roundEven (y : ℚ) : Int :=
  let f := ⌊y⌋
  let r := y - (f : ℚ)
  if r < 1 / 2 then f
  else if 1 / 2 < r then f + 1
  else if f % 2 = 0 then f else f + 1

/-- Round-to-nearest-even to a binary floating-point format with `prec`
significand bits and least normal exponent `emin` (IEEE 754 default rounding,
with gradual underflow; overflow to infinity is not represented). -/
def roundFloat (prec : Nat) (emin : Int) (x : ℚ) : ℚ :=
  if x = 0 then 0
  else
    let q := pow2 (max (binade x) emin - ((prec : Int) - 1))
    (roundEven (x / q) : ℚ) * q

/-- Rounding to `float` (IEEE 754 binary32). -/
def f32 (x : ℚ) : ℚ := roundFloat 24 (-126) x

/-- Rounding to `double` (IEEE 754 binary64). -/
def f64 (x : ℚ) : ℚ := roundFloat 53 (-1022) x

/-- The expression `self->samplerate * (60.0f / (self->bpm * (self->divisions /
2.0f)))` of `resetPhase` and of line 648: the three `float` operations are
rounded to `float`, the product with the `double` sample rate to `double`. -/
def stepFrames (samplerate bpm divisions : ℚ) : ℚ :=
  f64 (samplerate * f32 (60 / f32 (bpm * f32 (divisions / 2))))

/-- The expression `(uint32_t)(self->period * *self->note_length)` of
`handleNoteOff`: the period is converted to `float`, the product is rounded to
`float` and then truncated. -/
def noteOffThreshold (note_length : ℚ) (period : Nat) : Nat :=
  toU32 (f32 (f32 (period : ℚ) * note_length))

/-- A 3 byte MIDI event, `LV2_Atom_MIDI` (the bytes `msg[0..2]`). -/
structure LV2_Atom_MIDI where
  status : Nat
  note : Nat
  velocity : Nat
deriving DecidableEq, Repr

/-- The values the host has connected to the control ports (read through the
port pointers of `struct Arpeggiator`); `sync` is read through an `int*`. -/
structure Ports where
  changeBpm : ℚ
  arp_mode : ℚ
  latch_mode : ℚ
  changedDiv : ℚ
  sync : Int
  note_length : ℚ
  octaveSpreadParam : ℚ
  octaveModeParam : ℚ
  velocityPatternLengthParam : ℚ
  patternVel1Param : ℚ
  patternVel2Param : ℚ
  patternVel3Param : ℚ
  patternVel4Param : ℚ
  patternVel5Param : ℚ
  patternVel6Param : ℚ
  patternVel7Param : ℚ
  patternVel8Param : ℚ
deriving DecidableEq

/-- The mutable fields of `struct Arpeggiator`. -/
structure Arpeggiator where
  divisions : ℚ
  samplerate : ℚ
  prevSync : Int
  bpm : ℚ
  pos : Nat
  period : Nat
  h_wavelength : Nat
  midi_notes : List Nat
  noteoff_buffer : List (Nat × Nat)
  midi_index : Nat
  active_notes_index : Nat
  note_played : Int
  active_notes : Nat
  pattern_index : Nat
  octave_index : Int
  triggered : Bool
  octave_up : Bool
  arp_up : Bool
  latch_playing : Bool
  speed : ℚ
  prevSpeed : ℚ
  beatInMeasure : ℚ
  previous_latch : ℚ
  elapsed_len : ℚ
  previousOctaveMode : Int
deriving DecidableEq

/-- The state `instantiate` returns for sample rate `rate`: `calloc` zeroes
every field, then the listed fields are assigned (`arp_up` is `true`). -/
def instantiate (rate : ℚ) : Arpeggiator :=
  { divisions := 0, samplerate := rate, prevSync := 0, bpm := 0, pos := 0,
    period := 0, h_wavelength := 0,
    midi_notes := List.replicate NUM_VOICES 0,
    noteoff_buffer := List.replicate NUM_VOICES (0, 0),
    midi_index := 0, active_notes_index := 0, note_played := 0,
    active_notes := 0, pattern_index := 0, octave_index := 0,
    triggered := false, octave_up := false, arp_up := true,
    latch_playing := false, speed := 0, prevSpeed := 0, beatInMeasure := 0,
    previous_latch := 0, elapsed_len := 0, previousOctaveMode := 0 }

/-- The function `activate`. -/
def activate (p : Ports) (self : Arpeggiator) : Arpeggiator :=
  { self with bpm := p.changeBpm, divisions := p.changedDiv, pos := 0 }

/-- The function `createMidiEvent`: the three message bytes. -/
def createMidiEvent (status note velocity : Nat) : LV2_Atom_MIDI :=
  { status := status, note := note, velocity := velocity }

/-- The first `switch` of `octaveHandler` (lines 145-168): the octave state is
re-initialised when the octave mode differs from the previous one. -/
def octaveModeChange (p : Ports) (self : Arpeggiator) : Option Arpeggiator :=
  let octaveMode : Int := toInt p.octaveModeParam
  let spread : Int := toInt p.octaveSpreadParam
  if octaveMode ≠ self.previousOctaveMode then
    if octaveMode = 0 then
      (cMod self.note_played spread).bind fun r =>
        some { self with octave_index := r, previousOctaveMode := octaveMode }
    else if octaveMode = 1 then
      (cMod self.note_played spread).bind fun _ =>
        some { self with octave_index := spread, previousOctaveMode := octaveMode }
    else if octaveMode = 2 then
      (cMod self.note_played (toInt (p.octaveSpreadParam * 2))).bind fun r =>
        (if r > spread then
            cMod ((Int.natAbs (spread - (r - spread)) : Nat) : Int) spread
          else some r).bind fun r2 =>
        some { self with octave_index := r2, octave_up := !self.octave_up,
                         previousOctaveMode := octaveMode }
    else if octaveMode = 3 then
      some { self with octave_index := spread, octave_up := !self.octave_up,
                       previousOctaveMode := octaveMode }
    else
      some { self with previousOctaveMode := octaveMode }
  else
    some self

/-- The second part of `octaveHandler` (lines 170-212): the offset for this
note and the advance of the octave index. -/
def octaveAdvance (p : Ports) (self : Arpeggiator) : Option (Nat × Arpeggiator) :=
  let octaveMode : Int := toInt p.octaveModeParam
  let spread : Int := toInt p.octaveSpreadParam
  if p.octaveSpreadParam > 1 then
    if octaveMode = 0 then
      (cMod (self.octave_index + 1) spread).bind fun r =>
        some (intToU8 (12 * self.octave_index), { self with octave_index := r })
    else if octaveMode = 1 then
      let i := self.octave_index - 1
      some (intToU8 (12 * self.octave_index),
            { self with octave_index := if i < 0 then spread - 1 else i })
    else if octaveMode = 2 then
      if self.octave_up then
        let i := self.octave_index + 1
        some (intToU8 (12 * self.octave_index),
              { self with octave_index := i,
                          octave_up := if i ≥ spread - 1 then false else true })
      else
        let i := self.octave_index - 1
        some (intToU8 (12 * self.octave_index),
              { self with octave_index := i,
                          octave_up := if i ≤ 0 then true else false })
    else if octaveMode = 3 then
      if !self.octave_up then
        let i := self.octave_index - 1
        some (intToU8 (12 * self.octave_index),
              { self with octave_index := i,
                          octave_up := if i ≤ 0 then true else false })
      else
        (cMod (self.octave_index + 1) spread).bind fun i =>
          some (intToU8 (12 * self.octave_index),
                { self with octave_index := i,
                            octave_up := if i ≥ spread - 1 then false else true })
    else
      some (0, self)
  else
    some (0, { self with octave_index := 0 })

/-- The function `octaveHandler`: the returned `uint8_t` offset and the new state. -/
def octaveHandler (p : Ports) (self : Arpeggiator) : Option (Nat × Arpeggiator) :=
  (octaveModeChange p self).bind (octaveAdvance p)

/-- The array `velocity_pattern[8]` of the eight velocity ports; a read outside
the array is undefined. -/
def velocity_pattern (p : Ports) (i : Nat) : Option ℚ :=
  [p.patternVel1Param, p.patternVel2Param, p.patternVel3Param, p.patternVel4Param,
   p.patternVel5Param, p.patternVel6Param, p.patternVel7Param, p.patternVel8Param].get? i

/-- A read `self->midi_notes[i]` with an `int` index; outside `0..15` it is undefined. -/
def readNote (notes : List Nat) (i : Int) : Option Nat :=
  if 0 ≤ i ∧ i < (NUM_VOICES : Int) then some (notes.getD i.toNat 0) else none

/-- Lines 261-274 of `handleNoteOn`: the advance of the slot cursor
`note_played` after each scanned slot, by arpeggio mode. -/
def advanceCursor (p : Ports) (last_note_played : Int) (self : Arpeggiator) : Arpeggiator :=
  if p.arp_mode = 0 then
    { self with note_played := Int.tmod (self.note_played + 1) (NUM_VOICES : Int) }
  else if self.arp_up then
    let n := self.note_played + 1
    if n ≥ (NUM_VOICES : Int) - 1 then
      { self with arp_up := false,
                  note_played := if self.active_notes > 1 then last_note_played - 1
                                 else last_note_played }
    else
      { self with note_played := n }
  else
    let n := self.note_played - 1
    { self with note_played := n, arp_up := if n ≤ 0 then true else false }

/-- Lines 246-259 of `handleNoteOn`: the emission for the populated slot under
the cursor.  Returns the new state, the new `last_note_played` and the note-on. -/
def emitNoteOn (p : Ports) (slot : Nat) (self : Arpeggiator) :
    Option (Arpeggiator × Int × LV2_Atom_MIDI) :=
  (octaveHandler p self).bind fun (octave, s1) =>
  (velocity_pattern p s1.pattern_index).bind fun v =>
  let velocity := toU8 v
  let d := intToSize (toInt p.velocityPatternLengthParam)
  if d = 0 then none else
  let s2 := { s1 with pattern_index := (s1.pattern_index + 1) % SIZE % d }
  let midi_note := (slot + octave) % U8
  let onMsg := createMidiEvent 144 midi_note velocity
  let s3 := { s2 with
    noteoff_buffer := s2.noteoff_buffer.set s2.active_notes_index
      (midi_note, (s2.noteoff_buffer.getD s2.active_notes_index (0, 0)).2),
    active_notes_index := (s2.active_notes_index + 1) % NUM_VOICES }
  some (s3, s3.note_played, onMsg)

/-- The `while` loop of `handleNoteOn`; `fuel` is `NUM_VOICES - searched_voices`
and the loop is left as soon as `note_found` is set. -/
def handleNoteOnLoop (p : Ports) :
    Nat → Int → Arpeggiator → Option (Arpeggiator × Int × List LV2_Atom_MIDI)
  | 0, last_note_played, self => some (self, last_note_played, [])
  | fuel + 1, last_note_played, self =>
    (readNote self.midi_notes self.note_played).bind fun slot =>
    if slot > 0 ∧ slot < 128 then
      (emitNoteOn p slot self).bind fun (s, last, onMsg) =>
        some (advanceCursor p last s, last, [onMsg])
    else
      handleNoteOnLoop p fuel last_note_played (advanceCursor p last_note_played self)

/-- The function `handleNoteOn` (one trigger): the new state, the new value of
the static `last_note_played`, and the messages appended to the output. -/
def handleNoteOn (p : Ports) (last_note_played : Int) (self : Arpeggiator) :
    Option (Arpeggiator × Int × List LV2_Atom_MIDI) :=
  handleNoteOnLoop p NUM_VOICES last_note_played self

/-- The body of the `for` loop of `handleNoteOff` for one pending entry
`(pitch, elapsed)`: the entry afterwards and the note-off, if one is emitted. -/
def noteOffEntry (p : Ports) (period : Nat) (e : Nat × Nat) :
    (Nat × Nat) × List LV2_Atom_MIDI :=
  if e.1 > 0 then
    let elapsed := (e.2 + 1) % U32
    if elapsed > noteOffThreshold p.note_length period then
      ((0, 0), [createMidiEvent 128 (e.1 % U8) 0])
    else ((e.1, elapsed), [])
  else (e, [])

/-- The `for` loop of `handleNoteOff` over the pending entries, in index order. -/
def handleNoteOffLoop (p : Ports) (period : Nat) :
    List (Nat × Nat) → List (Nat × Nat) × List LV2_Atom_MIDI
  | [] => ([], [])
  | e :: rest =>
    let r := noteOffEntry p period e
    let rs := handleNoteOffLoop p period rest
    (r.1 :: rs.1, r.2 ++ rs.2)

/-- The function `handleNoteOff` (once per sample). -/
def handleNoteOff (p : Ports) (self : Arpeggiator) : Arpeggiator × List LV2_Atom_MIDI :=
  let r := handleNoteOffLoop p self.period self.noteoff_buffer
  ({ self with noteoff_buffer := r.1 }, r.2)

/-- A `time:Position` object received on the control port: the properties
`lv2_atom_object_get` finds with type `atom:Float`, if any. -/
structure TimePosition where
  beat : Option ℚ
  bpm : Option ℚ
  speed : Option ℚ
deriving DecidableEq

/-- The function `update_position`. -/
def update_position (self : Arpeggiator) (obj : TimePosition) : Arpeggiator :=
  let s1 := match obj.bpm with
    | some b => { self with bpm := b }
    | none => self
  let s2 := match obj.speed with
    | some v => { s1 with speed := v }
    | none => s1
  match obj.beat with
  | some b =>
    let frames_per_beat := f32 (f64 (s2.samplerate * f32 (60 / f32 (s2.bpm * s2.divisions))))
    let bar_beats := f32 (b * s2.divisions)
    let beat_beats := f32 (bar_beats - (Int.floor bar_beats : ℚ))
    { s2 with beatInMeasure := b, elapsed_len := f32 (beat_beats * frames_per_beat) }
  | none => s2

/-- The function `resetPhase`. -/
def resetPhase (self : Arpeggiator) : Nat :=
  toU32 (fmod (f64 (f64 (self.samplerate * f32 (60 / self.bpm)) * self.beatInMeasure))
              (stepFrames self.samplerate self.bpm self.divisions))

/-- An event of the `MIDI_in` sequence: whether its body type is the MIDI
event URID, and its message bytes. -/
structure InEvent where
  is_midi : Bool
  msg : LV2_Atom_MIDI
deriving DecidableEq

/-- The status nibble `LV2_MIDI_MSG_NOTE_ON`. -/
def LV2_MIDI_MSG_NOTE_ON : Nat := 0x90

/-- The status nibble `LV2_MIDI_MSG_NOTE_OFF`. -/
def LV2_MIDI_MSG_NOTE_OFF : Nat := 0x80

/-- The `while` loop of lines 583-590: store `midi_note` in the first slot that
holds 0, scanning from `find_free_voice`; `fuel` is `NUM_VOICES - find_free_voice`. -/
def findFreeVoice (midi_note : Nat) : Nat → Nat → List Nat → List Nat
  | 0, _, notes => notes
  | fuel + 1, find_free_voice, notes =>
    if notes.getD find_free_voice 0 = 0 then notes.set find_free_voice midi_note
    else findFreeVoice midi_note fuel (find_free_voice + 1) notes

/-- The `while` loop of lines 598-606: clear the first slot equal to
`note_to_find`, scanning from `search_note`; `fuel` is `NUM_VOICES - search_note`. -/
def searchNote (note_to_find : Nat) : Nat → Nat → List Nat → List Nat
  | 0, _, notes => notes
  | fuel + 1, search_note, notes =>
    if notes.getD search_note 0 = note_to_find then notes.set search_note 0
    else searchNote note_to_find fuel (search_note + 1) notes

/-- The `case LV2_MIDI_MSG_NOTE_ON` of the event loop of `run` (lines 566-591). -/
def noteOnCase (p : Ports) (midi_note : Nat) (self : Arpeggiator) : Arpeggiator :=
  let s1 :=
    if self.active_notes = 0 ∧ p.sync = 0 ∧ self.latch_playing = false then
      { self with pos := 0, octave_index := 0, pattern_index := 0, note_played := 0,
                  triggered := false }
    else self
  let s2 :=
    if s1.active_notes = 0 ∧ p.latch_mode = 1 then
      { s1 with latch_playing := true, midi_notes := List.replicate NUM_VOICES 0 }
    else s1
  { s2 with active_notes := (s2.active_notes + 1) % SIZE,
            midi_notes := findFreeVoice midi_note NUM_VOICES 0 s2.midi_notes }

/-- The `case LV2_MIDI_MSG_NOTE_OFF` of the event loop of `run` (lines 592-609). -/
def noteOffCase (p : Ports) (midi_note : Nat) (self : Arpeggiator) : Arpeggiator :=
  let s1 := { self with active_notes := (self.active_notes + SIZE - 1) % SIZE }
  if p.latch_mode = 0 then
    { s1 with latch_playing := false,
              midi_notes := searchNote midi_note NUM_VOICES 0 s1.midi_notes }
  else s1

/-- The body of the `LV2_ATOM_SEQUENCE_FOREACH` loop of `run` for one event. -/
def midiInEvent (p : Ports) (self : Arpeggiator) (ev : InEvent) : Arpeggiator :=
  if ev.is_midi then
    let status := ev.msg.status &&& 0xF0
    let midi_note := ev.msg.note % U8
    if status = LV2_MIDI_MSG_NOTE_ON then noteOnCase p midi_note self
    else if status = LV2_MIDI_MSG_NOTE_OFF then noteOffCase p midi_note self
    else self
  else self

/-- Lines 618-623 of `run`: a changed latch mode clears the slot table. -/
def latchChange (p : Ports) (self : Arpeggiator) : Arpeggiator :=
  if p.latch_mode ≠ self.previous_latch then
    { self with midi_notes := List.replicate NUM_VOICES 0, previous_latch := p.latch_mode }
  else self

/-- The part of `run` before the per-sample loop: the transport updates, the
MIDI input events in order, then the latch-mode change. -/
def runEvents (p : Ports) (control : List TimePosition) (midi_in : List InEvent)
    (self : Arpeggiator) : Arpeggiator :=
  latchChange p (midi_in.foldl (midiInEvent p) (control.foldl update_position self))

/-- Lines 627-649: tempo, phase resets, period and half period of one sample. -/
def sampleClock (p : Ports) (self : Arpeggiator) : Arpeggiator :=
  let s1 := if p.sync = 0 then { self with bpm := p.changeBpm } else self
  let s2 := if s1.speed ≠ s1.prevSpeed then
      { s1 with pos := resetPhase s1, prevSpeed := s1.speed } else s1
  let s3 := if p.sync ≠ s2.prevSync then
      { s2 with pos := resetPhase s2, prevSync := p.sync } else s2
  let s4 := if s3.divisions ≠ p.changedDiv then
      { s3 with divisions := p.changedDiv,
                pos := resetPhase { s3 with divisions := p.changedDiv } } else s3
  let period := toU32 (stepFrames s4.samplerate s4.bpm s4.divisions)
  { s4 with period := period, h_wavelength := toU32 (f32 (f32 (period : ℚ) / 2)) }

/-- The body of the per-sample loop of `run` (lines 626-664) for one sample:
the new state, the new `last_note_played`, and the messages appended. -/
def sampleStep (p : Ports) (last_note_played : Int) (self : Arpeggiator) :
    Option (Arpeggiator × Int × List LV2_Atom_MIDI) :=
  let s := sampleClock p self
  let r : Option (Arpeggiator × Int × List LV2_Atom_MIDI) :=
    if s.pos ≥ s.period then some ({ s with pos := 0 }, last_note_played, [])
    else if s.pos < s.h_wavelength ∧ s.triggered = false then
      (handleNoteOn p last_note_played s).bind fun (t, last, out) =>
        some ({ t with triggered := true }, last, out)
    else if s.pos > s.h_wavelength then
      some ({ s with triggered := false }, last_note_played, [])
    else some (s, last_note_played, [])
  r.bind fun (t, last, out) =>
    let off := handleNoteOff p t
    some ({ off.1 with pos := (off.1.pos + 1) % U32 }, last, out ++ off.2)

/-- The per-sample loop of `run` over `n` samples; the messages are kept per
sample, in sample order. -/
def runSamples (p : Ports) :
    Nat → Int → Arpeggiator → Option (Arpeggiator × Int × List (List LV2_Atom_MIDI))
  | 0, last_note_played, self => some (self, last_note_played, [])
  | n + 1, last_note_played, self =>
    (sampleStep p last_note_played self).bind fun (s, last, out) =>
      (runSamples p n last s).bind fun (t, last2, outs) =>
        some (t, last2, out :: outs)

/-- The function `run` for one block of `n_samples` samples: the new state, the
new `last_note_played`, and the content of the output sequence. -/
def run (p : Ports) (control : List TimePosition) (midi_in : List InEvent)
    (n_samples : Nat) (last_note_played : Int) (self : Arpeggiator) :
    Option (Arpeggiator × Int × List LV2_Atom_MIDI) :=
  (runSamples p n_samples last_note_played (runEvents p control midi_in self)).bind
    fun (s, last, outs) => some (s, last, outs.flatten)

/-- The test of lines 243-244 of `handleNoteOn`: the slot holds a pitch in `1..127`. -/
def populated (v : Nat) : Prop := 0 < v ∧ v < 128

instance (v : Nat) : Decidable (populated v) := by unfold populated; infer_instance

/-- The calls `handleNoteOn` makes at `n` successive triggers, with the messages
they append, in order. -/
def triggers (p : Ports) :
    Nat → Int → Arpeggiator → Option (Arpeggiator × Int × List LV2_Atom_MIDI)
  | 0, last_note_played, self => some (self, last_note_played, [])
  | n + 1, last_note_played, self =>
    (handleNoteOn p last_note_played self).bind fun (s, last, out) =>
      (triggers p n last s).bind fun (t, last2, outs) => some (t, last2, out ++ outs)

/-- The slot table of the two-note scenario: 60 and 64 in slots 0 and 1. -/
def twoNotes : List Nat := [60, 64, 0, 0, 0, 0, 0, 0, 0, 0, 0, 0, 0, 0, 0, 0]

/-- Port values of the scenarios: 120 BPM, subdivision 4, sync off, arpeggio
mode 0, latch off, octave spread 1, a velocity pattern of length 2. -/
def scenarioPorts : Ports :=
  { changeBpm := 120, arp_mode := 0, latch_mode := 0, changedDiv := 4, sync := 0,
    note_length := 1 / 2, octaveSpreadParam := 1, octaveModeParam := 0,
    velocityPatternLengthParam := 2,
    patternVel1Param := 100, patternVel2Param := 80, patternVel3Param := 60,
    patternVel4Param := 40, patternVel5Param := 100, patternVel6Param := 80,
    patternVel7Param := 60, patternVel8Param := 40 }

/-- The activated plugin at 48 kHz. -/
def scenarioState : Arpeggiator := activate scenarioPorts (instantiate 48000)

/-- The activated plugin with 60 and 64 held in slots 0 and 1. -/
def twoNotesState : Arpeggiator := { scenarioState with midi_notes := twoNotes }

/-- The fields no part of `handleNoteOn` assigns. -/
def outsideSelector (s : Arpeggiator) :=
  (s.divisions, s.samplerate, s.prevSync, s.bpm, s.pos, s.period, s.h_wavelength,
   s.midi_notes, s.midi_index, s.active_notes, s.triggered, s.latch_playing, s.speed,
   s.prevSpeed, s.beatInMeasure, s.previous_latch, s.elapsed_len)

/-- The fields of the note selector that `octaveHandler` does not assign. -/
def selectorOutsideOctave (s : Arpeggiator) :=
  (s.noteoff_buffer, s.active_notes_index, s.note_played, s.pattern_index, s.arp_up)

/-- The fields of the note selector that the cursor advance does not assign. -/
def selectorOutsideCursor (s : Arpeggiator) :=
  (s.noteoff_buffer, s.active_notes_index, s.pattern_index, s.octave_index, s.octave_up,
   s.previousOctaveMode)

/-- The effect of a call of `handleNoteOn` that emits: the note-on is for a
populated slot, its velocity is read at the pattern cursor, the cursor advances
modulo the pattern length, and the pitch is written at the pending-buffer cursor. -/
def EmitEffect (p : Ports) (s t : Arpeggiator) (out : List LV2_Atom_MIDI) : Prop :=
  ∃ i oct v, i < NUM_VOICES ∧ populated (s.midi_notes.getD i 0) ∧
    velocity_pattern p s.pattern_index = some v ∧
    out = [createMidiEvent 144 ((s.midi_notes.getD i 0 + oct) % U8) (toU8 v)] ∧
    t.pattern_index =
      (s.pattern_index + 1) % SIZE % intToSize (toInt p.velocityPatternLengthParam) ∧
    t.noteoff_buffer = s.noteoff_buffer.set s.active_notes_index
      ((s.midi_notes.getD i 0 + oct) % U8,
       (s.noteoff_buffer.getD s.active_notes_index (0, 0)).2) ∧
    t.active_notes_index = (s.active_notes_index + 1) % NUM_VOICES

/-- The clock of the per-sample loop is steady: sync is off, no phase reset
fires, and the period computed in every sample is `P`. -/
def Steady (p : Ports) (P : Nat) (s : Arpeggiator) : Prop :=
  p.sync = 0 ∧ s.speed = s.prevSpeed ∧ s.prevSync = p.sync ∧ s.divisions = p.changedDiv ∧
    toU32 (stepFrames s.samplerate p.changeBpm p.changedDiv) = P

/-- The note-on messages (status 144) among the messages of one sample. -/
def noteOns (out : List LV2_Atom_MIDI) : List LV2_Atom_MIDI :=
  out.filter fun m => m.status = 144

/-- The slot table with the single pitch `q` held, in slot 0. -/
def oneNote (q : Nat) : List Nat := q :: List.replicate 15 0

/-- The selector part of the single-note invariant: the steady clock, the slot
table with `q` alone, a velocity cursor inside the pattern, the slot cursor at 0 or 1. -/
def OneNoteInv (p : Ports) (P q : Nat) (s : Arpeggiator) : Prop :=
  Steady p P s ∧ s.midi_notes = oneNote q ∧ s.pattern_index < 8 ∧
    (s.note_played = 0 ∨ s.note_played = 1)

/-- The samples in which the per-sample loop calls `handleNoteOn`, counted from
a sample that starts with `pos = 0` and the trigger flag clear, for a constant
period `P`: sample 0, then samples `P + 1`, `2 P + 1`, ... -/
def firesAt (P i : Nat) : Bool := decide (i = 0 ∨ (P < i ∧ (i - 1) % P = 0))

/-- The clock phase at the start of sample `i` (counted as for `firesAt`). -/
def PhaseAt (P i : Nat) (s : Arpeggiator) : Prop :=
  (i = 0 ∧ s.pos = 0 ∧ s.triggered = false) ∨
  ∃ k r, i = k * P + r ∧ 1 ≤ r ∧ r ≤ P ∧ s.pos = r ∧
    s.triggered = decide ((k = 0 ∨ 2 ≤ r) ∧ r ≤ P / 2 + 1)

/-- The note-on event for pitch 60 on channel 0 received by the scenarios. -/
def noteOn60 : InEvent :=
  { is_midi := true, msg := { status := 0x90, note := 60, velocity := 100 } }

/-- The fields of the held-note registry that the transport updates and the
per-sample loop do not assign. -/
def registryFields (s : Arpeggiator) :=
  (s.midi_notes, s.active_notes, s.latch_playing, s.previous_latch)

/-- The scenario ports with latch mode 1. -/
def latchPorts : Ports := { scenarioPorts with latch_mode := 1 }

/-- The note-on event for pitch 67 on channel 0. -/
def noteOn67 : InEvent :=
  { is_midi := true, msg := { status := 0x90, note := 67, velocity := 100 } }

/-- The note-off event for pitch 67 on channel 0. -/
def noteOff67 : InEvent :=
  { is_midi := true, msg := { status := 0x80, note := 67, velocity := 0 } }

/-- The note-off event for pitch 60 on channel 0. -/
def noteOff60 : InEvent :=
  { is_midi := true, msg := { status := 0x80, note := 60, velocity := 0 } }

/-- The number of non-empty slots of a slot table. -/
def nonEmptySlots (notes : List Nat) : Nat := (notes.filter fun v => v ≠ 0).length

/-- The pitches held after an input event: a note-on adds its pitch, a
note-off releases one occurrence of its pitch. -/
def heldAfter (held : List Nat) (ev : InEvent) : List Nat :=
  if ev.is_midi = true then
    if ev.msg.status &&& 0xF0 = LV2_MIDI_MSG_NOTE_ON then (ev.msg.note % U8) :: held
    else if ev.msg.status &&& 0xF0 = LV2_MIDI_MSG_NOTE_OFF then held.erase (ev.msg.note % U8)
    else held
  else held

/-- An event sequence in which every note-off releases a held pitch and never
more than 16 notes are held at once, starting with the pitches `held` held. -/
def Matched : List Nat → List InEvent → Prop
  | _, [] => True
  | held, ev :: rest =>
    (ev.is_midi = true → ev.msg.status &&& 0xF0 = LV2_MIDI_MSG_NOTE_OFF →
      ev.msg.note % U8 ∈ held) ∧
    (heldAfter held ev).length ≤ NUM_VOICES ∧ Matched (heldAfter held ev) rest

/-- The registry invariant for the held pitches `held`: the counter is their
number, the table has its 16 slots, and the non-empty slots hold exactly the
non-zero held pitches. -/
def RegInv (held : List Nat) (s : Arpeggiator) : Prop :=
  s.active_notes = held.length ∧ s.midi_notes.length = NUM_VOICES ∧
    (s.midi_notes.filter fun v => v ≠ 0).Perm (held.filter fun v => v ≠ 0)

instance (held : List Nat) (evs : List InEvent) : Decidable (Matched held evs) := by
  induction evs generalizing held with
  | nil => exact isTrue trivial
  | cons ev rest ih => unfold Matched; exact inferInstance

/-- The part of the state that decides the note-ons of arpeggio mode 0 under
octave mode 0: slot table, slot cursor, velocity cursor, octave index and
previous octave mode. -/
def upView (s : Arpeggiator) :=
  (s.midi_notes, s.note_played, s.pattern_index, s.octave_index, s.previousOctaveMode)

/-- The scenario ports in bounce mode (arpeggio mode 1). -/
def bouncePorts : Ports := { scenarioPorts with arp_mode := 1 }

/-- A channel-0 MIDI input event with status byte `st` and pitch `n`. -/
def midiEvent (st n : Nat) : InEvent :=
  { is_midi := true, msg := { status := st, note := n, velocity := 100 } }

/-- Bounce mode: 60, 62, 64, 65 received by the activated plugin. -/
def bounceHeld : Arpeggiator :=
  [midiEvent 0x90 60, midiEvent 0x90 62, midiEvent 0x90 64, midiEvent 0x90 65].foldl
    (midiInEvent bouncePorts) scenarioState

/-- Bounce mode: 60, 62, 64, 65 received, five triggers taken (the direction
flag is then descending), and the four notes released again. -/
def bounceReleased : Arpeggiator :=
  [midiEvent 0x80 60, midiEvent 0x80 62, midiEvent 0x80 64, midiEvent 0x80 65].foldl
    (midiInEvent bouncePorts)
    (((triggers bouncePorts 5 0 bounceHeld).map fun r => r.1).getD scenarioState)

/-- The scenario ports with octave mode 1 and spread 2. -/
def octavePorts : Ports := { scenarioPorts with octaveModeParam := 1, octaveSpreadParam := 2 }

/-- Octave mode 1: 60 received, one trigger taken, 60 released again. -/
def octaveReleased : Arpeggiator :=
  midiInEvent octavePorts
    (((triggers octavePorts 1 0 (midiInEvent octavePorts scenarioState noteOn60)).map
      fun r => r.1).getD scenarioState)
    noteOff60

/-- Successive calls of `octaveHandler`, the slot cursor being `c` at the call
for the head `c` of the list: the returned offset and the state after each call. -/
def octaveTrace (p : Ports) : List Int → Arpeggiator → Option (List (Nat × Arpeggiator))
  | [], _ => some []
  | c :: cs, s =>
    (octaveHandler p { s with note_played := c }).bind fun r =>
      (octaveTrace p cs r.2).bind fun tr => some (r :: tr)

/-- The octave state of the bounce modes 2 and 3 between calls, for spread `S`:
ascending with index in `0..S-2`, or descending with index in `1..S-1`. -/
def BounceInv (S : Int) (s : Arpeggiator) : Prop :=
  (s.octave_up = true ∧ 0 ≤ s.octave_index ∧ s.octave_index ≤ S - 2) ∨
  (s.octave_up = false ∧ 1 ≤ s.octave_index ∧ s.octave_index ≤ S - 1)

/-- The advance of index and direction flag of octave mode 2 (lines 186-194),
on the pair (index, ascending). -/
def bounceNext (S : Int) (x : Int × Bool) : Int × Bool :=
  if x.2 = true then (x.1 + 1, if x.1 + 1 ≥ S - 1 then false else true)
  else (x.1 - 1, if x.1 - 1 ≤ 0 then true else false)

/-- The offsets, indices and flags of `n` calls that follow `bounceNext`. -/
def bounceModel (S : Int) : Nat → Int × Bool → List (Nat × Int × Bool)
  | 0, _ => []
  | n + 1, x => (intToU8 (12 * x.1), bounceNext S x) :: bounceModel S n (bounceNext S x)

/-- Between two successive calls the direction flag changes exactly when the
index has reached 0 or `S - 1`. -/
def FlipsAtBoundary (S : Int) (u v : Arpeggiator) : Prop :=
  v.octave_up ≠ u.octave_up ↔ (v.octave_index = 0 ∨ v.octave_index = S - 1)

/-- The scenario ports with octave mode `mode` and octave spread `spread`. -/
def octaveSetting (mode spread : ℚ) : Ports :=
  { scenarioPorts with octaveModeParam := mode, octaveSpreadParam := spread }

/-- The scenario ports with a velocity-pattern length of 0. -/
def zeroLengthPorts : Ports := { scenarioPorts with velocityPatternLengthParam := 0 }

/-- Up mode: 60, 64, 67 received by the activated plugin. -/
def threeNotesState : Arpeggiator :=
  [midiEvent 0x90 60, midiEvent 0x90 64, midiEvent 0x90 67].foldl
    (midiInEvent scenarioPorts) scenarioState

/-- The activated plugin at a sample rate of 16 (a period of 4 samples). -/
def slowState : Arpeggiator := activate scenarioPorts (instantiate 16)

/-- Up mode with 60, 64, 67 held: the state after 16 triggers with no call of
`handleNoteOff` in between. -/
def fullPending : Arpeggiator :=
  ((triggers scenarioPorts 16 0 threeNotesState).map fun r => r.1).getD scenarioState

/-- The result of the next trigger in the state `fullPending`. -/
def fullPendingNext : Arpeggiator × Int × List LV2_Atom_MIDI :=
  (handleNoteOn scenarioPorts 0 fullPending).getD (fullPending, 0, [])

/-- Bounce mode: 60 received by the activated plugin. -/
def bounceOne : Arpeggiator := midiInEvent bouncePorts scenarioState noteOn60

/-- Note-ons for the sixteen pitches 60..75, then note-offs for 60..74. -/
def lastSlotEvents : List InEvent :=
  ((List.range 16).map fun i => midiEvent 0x90 (60 + i)) ++
    ((List.range 15).map fun i => midiEvent 0x80 (60 + i))

/-- Bounce mode: the events `lastSlotEvents` received by the activated plugin,
so that only slot 15 is populated. -/
def lastSlotOnly : Arpeggiator :=
  lastSlotEvents.foldl (midiInEvent bouncePorts) scenarioState

/-- Bounce mode: the pitches `a`, `b`, `c` received by the activated plugin. -/
def bounceThree (a b c : Nat) : Arpeggiator :=
  [midiEvent 0x90 a, midiEvent 0x90 b, midiEvent 0x90 c].foldl
    (midiInEvent bouncePorts) scenarioState

/-- Triggers of two instances `(a, b)` loaded in one process, in the order of the
schedule (`true`: a call of `handleNoteOn` on `a`, `false`: on `b`).  The
function-static `last_note_played` is one variable for both.  Returns the two
states, the static, and the messages of `a` and of `b`. -/
def interleaved (p : Ports) : List Bool → Int → Arpeggiator × Arpeggiator →
    Option ((Arpeggiator × Arpeggiator) × Int × List LV2_Atom_MIDI × List LV2_Atom_MIDI)
  | [], last_note_played, ab => some (ab, last_note_played, [], [])
  | true :: rest, last_note_played, (a, b) =>
    (handleNoteOn p last_note_played a).bind fun (a2, last, out) =>
      (interleaved p rest last (a2, b)).bind fun (ab, l, oa, ob) => some (ab, l, out ++ oa, ob)
  | false :: rest, last_note_played, (a, b) =>
    (handleNoteOn p last_note_played b).bind fun (b2, last, out) =>
      (interleaved p rest last (a, b2)).bind fun (ab, l, oa, ob) => some (ab, l, oa, out ++ ob)

/-- Octave mode 0 with spread 2 at a sample rate of 16: 60 and 64 received, ten
samples run (three triggers), then 60 and 64 released. -/
def playedReleased : Arpeggiator :=
  [midiEvent 0x80 60, midiEvent 0x80 64].foldl (midiInEvent (octaveSetting 0 2))
    (((run (octaveSetting 0 2) [] [midiEvent 0x90 60, midiEvent 0x90 64] 10 0 slowState).map
      fun r => r.1).getD slowState)

/-- The scenario ports with the first velocity port at 300. -/
def loudPorts : Ports := { scenarioPorts with patternVel1Param := 300 }

/-! ## Conversions -/

theorem toInt_of_nonneg {x : ℚ} (h : 0 ≤ x) : toInt x = ⌊x⌋ := by
  unfold toInt
  rw [Rat.floor_def, Int.tdiv_eq_ediv (Rat.num_nonneg.mpr h) (Int.natCast_nonneg _)]

theorem toInt_nonpos {x : ℚ} (h : x ≤ 0) : toInt x ≤ 0 := by
  unfold toInt
  have h1 : x.num ≤ 0 := Rat.num_nonpos.mpr h
  have : Int.tdiv x.num x.den = - Int.tdiv (-x.num) x.den := by simp
  rw [this]
  have := Int.tdiv_nonneg (a := -x.num) (b := x.den) (by omega) (Int.natCast_nonneg _)
  omega

theorem one_le_of_toInt {x : ℚ} (h : 1 ≤ toInt x) : 1 ≤ x := by
  rcases le_or_lt 0 x with h0 | h0
  · rw [toInt_of_nonneg h0] at h
    exact_mod_cast (Int.le_floor.mp h)
  · have := toInt_nonpos h0.le
    omega

theorem le_toInt_of_le {x : ℚ} {n : Nat} (h : (n : ℚ) ≤ x) : (n : Int) ≤ toInt x := by
  have h0 : 0 ≤ x := le_trans (by positivity) h
  rw [toInt_of_nonneg h0]
  exact Int.le_floor.mpr (by exact_mod_cast h)

theorem octaveModeChange_some (p : Ports) (s : Arpeggiator)
    (h : 1 ≤ toInt p.octaveSpreadParam) :
    ∃ t, octaveModeChange p s = some t ∧
      t = { s with octave_index := t.octave_index, octave_up := t.octave_up,
                   previousOctaveMode := t.previousOctaveMode } := by
  have h2 : toInt (p.octaveSpreadParam * 2) ≠ 0 := by
    have h1 := one_le_of_toInt h
    have : ((2 : Nat) : ℚ) ≤ p.octaveSpreadParam * 2 := by push_cast; linarith
    have := le_toInt_of_le this
    omega
  have h3 : toInt p.octaveSpreadParam ≠ 0 := by omega
  unfold octaveModeChange cMod
  simp only [h2, h3, if_false, Option.bind_some, Option.some_bind]
  split_ifs <;> simp

theorem octaveAdvance_some (p : Ports) (s : Arpeggiator)
    (h : 1 ≤ toInt p.octaveSpreadParam) :
    ∃ oct t, octaveAdvance p s = some (oct, t) ∧
      t = { s with octave_index := t.octave_index, octave_up := t.octave_up,
                   previousOctaveMode := t.previousOctaveMode } := by
  have h3 : toInt p.octaveSpreadParam ≠ 0 := by omega
  unfold octaveAdvance cMod
  simp only [h3, if_false, Option.bind_some, Option.some_bind]
  split_ifs <;> exact ⟨_, _, rfl, rfl⟩

theorem octaveHandler_some (p : Ports) (s : Arpeggiator)
    (h : 1 ≤ toInt p.octaveSpreadParam) :
    ∃ oct t, octaveHandler p s = some (oct, t) ∧
      t = { s with octave_index := t.octave_index, octave_up := t.octave_up,
                   previousOctaveMode := t.previousOctaveMode } := by
  obtain ⟨t1, h1, e1⟩ := octaveModeChange_some p s h
  obtain ⟨oct, t2, h2, e2⟩ := octaveAdvance_some p t1 h
  refine ⟨oct, t2, ?_, ?_⟩
  · simp [octaveHandler, h1, h2]
  · rw [e2, e1]

/-! ## Floating-point rounding -/

theorem pow2_eq (e : Int) : pow2 e = (2 : ℚ) ^ e := by
  unfold pow2
  rcases le_or_lt 0 e with h | h
  · obtain ⟨n, rfl⟩ := Int.eq_ofNat_of_zero_le h
    simp
  · obtain ⟨n, rfl⟩ := Int.eq_negSucc_of_lt_zero h
    have : ¬ (0 : Int) ≤ Int.negSucc n := by omega
    rw [if_neg this, zpow_negSucc]
    have e1 : (-(Int.negSucc n)).toNat = n + 1 := by rw [Int.neg_negSucc]; rfl
    rw [e1]
    push_cast
    rw [one_div]

theorem log2Fuel_spec : ∀ (fuel n : Nat), n ≤ fuel → 0 < n →
    2 ^ log2Fuel fuel n ≤ n ∧ n < 2 ^ (log2Fuel fuel n + 1)
  | 0, n, h, h0 => by omega
  | fuel + 1, n, h, h0 => by
    unfold log2Fuel
    by_cases h2 : n < 2
    · rw [if_pos h2]
      exact ⟨by simpa using h0, by simpa using h2⟩
    · rw [if_neg h2]
      obtain ⟨a, b⟩ := log2Fuel_spec fuel (n / 2) (by omega) (by omega)
      constructor
      · rw [pow_succ]; omega
      · rw [pow_succ]; omega

theorem abs_eq_natAbs_div (x : ℚ) : |x| = (x.num.natAbs : ℚ) / (x.den : ℚ) := by
  calc |x| = |(x.num : ℚ) / (x.den : ℚ)| := by rw [Rat.num_div_den]
    _ = |(x.num : ℚ)| / (x.den : ℚ) := by rw [abs_div, Nat.abs_cast]
    _ = (x.num.natAbs : ℚ) / (x.den : ℚ) := by
      rw [← Int.cast_abs, Int.abs_eq_natAbs, Int.cast_natCast]

theorem binade_le (x : ℚ) (hx : x ≠ 0) : (2 : ℚ) ^ binade x ≤ |x| := by
  unfold binade
  simp only []
  split_ifs with h
  · have hn : 0 < x.num.natAbs := Int.natAbs_pos.mpr (Rat.num_ne_zero.mpr hx)
    obtain ⟨a1, -⟩ := log2Fuel_spec _ _ (le_refl _) hn
    obtain ⟨-, b2⟩ := log2Fuel_spec _ _ (le_refl _) x.den_pos
    rw [abs_eq_natAbs_div]
    have hd : (0 : ℚ) < x.den := by exact_mod_cast x.den_pos
    rw [le_div_iff₀ hd]
    have e : ((log2Fuel x.num.natAbs x.num.natAbs : Int) - (log2Fuel x.den x.den : Int) - 1)
        = (log2Fuel x.num.natAbs x.num.natAbs : Int) - ((log2Fuel x.den x.den + 1 : Nat) : Int) := by
      push_cast; ring
    rw [e, zpow_sub₀ (by norm_num), zpow_natCast, zpow_natCast, div_mul_eq_mul_div,
      div_le_iff₀ (by positivity)]
    have a1' : ((2 : ℚ) ^ log2Fuel x.num.natAbs x.num.natAbs) ≤ (x.num.natAbs : ℚ) := by
      exact_mod_cast a1
    have b2' : (x.den : ℚ) ≤ (2 : ℚ) ^ (log2Fuel x.den x.den + 1) := by
      exact_mod_cast b2.le
    exact mul_le_mul a1' b2' (by positivity) (by positivity)
  · rw [← pow2_eq]
    exact not_lt.mp h

theorem roundEven_intCast (k : Int) : roundEven (k : ℚ) = k := by
  unfold roundEven
  simp

theorem quantum_exp_le (prec : Nat) (emin : Int) (x : ℚ) (hx : x ≠ 0) (K : Int)
    (h1 : |x| < (2 : ℚ) ^ (K + (prec : Int))) (h2 : emin - ((prec : Int) - 1) ≤ K) :
    max (binade x) emin - ((prec : Int) - 1) ≤ K := by
  have hb := lt_of_le_of_lt (binade_le x hx) h1
  have hlt : binade x < K + (prec : Int) := (zpow_lt_zpow_iff_right₀ (by norm_num)).mp hb
  rcases le_total (binade x) emin with h | h
  · rw [max_eq_right h]; exact h2
  · rw [max_eq_left h]; omega

theorem roundFloat_exact (prec : Nat) (emin : Int) (x : ℚ) (m K : Int)
    (hxm : x = (m : ℚ) * (2 : ℚ) ^ K)
    (h1 : |x| < (2 : ℚ) ^ (K + (prec : Int))) (h2 : emin - ((prec : Int) - 1) ≤ K) :
    roundFloat prec emin x = x := by
  unfold roundFloat
  by_cases hx : x = 0
  · rw [if_pos hx, hx]
  · rw [if_neg hx]
    simp only []
    have hc := quantum_exp_le prec emin x hx K h1 h2
    generalize max (binade x) emin - ((prec : Int) - 1) = c at hc
    rw [pow2_eq]
    obtain ⟨d, hd⟩ := Int.eq_ofNat_of_zero_le (show 0 ≤ K - c by omega)
    have hK : K = c + d := by omega
    have hq : x / (2 : ℚ) ^ c = ((m * 2 ^ d : Int) : ℚ) := by
      rw [hxm, hK, zpow_add₀ (by norm_num), zpow_natCast]
      push_cast
      field_simp
      ring
    rw [hq, roundEven_intCast, hxm, hK, zpow_add₀ (by norm_num), zpow_natCast]
    push_cast
    ring

theorem f32_natCast (P : Nat) (h : P < 2 ^ 24) : f32 (P : ℚ) = P := by
  apply roundFloat_exact 24 (-126) _ P 0 (by simp)
  · rw [Nat.abs_cast]
    have e : (2 : ℚ) ^ ((0 : Int) + ((24 : Nat) : Int)) = 16777216 := by norm_num
    rw [e]
    have h' : P < 16777216 := by norm_num at h; exact h
    exact_mod_cast h'
  · norm_num

theorem f32_natCast_half (P : Nat) (h : P < 2 ^ 24) : f32 ((P : ℚ) / 2) = (P : ℚ) / 2 := by
  apply roundFloat_exact 24 (-126) _ P (-1) (by simp [div_eq_mul_inv])
  · rw [abs_div, Nat.abs_cast]
    have e : (2 : ℚ) ^ ((-1 : Int) + ((24 : Nat) : Int)) = 8388608 := by norm_num
    rw [e]
    have h' : P < 16777216 := by norm_num at h; exact h
    have h2 : (P : ℚ) < 16777216 := by exact_mod_cast h'
    rw [abs_of_pos (by norm_num : (0 : ℚ) < 2)]
    linarith
  · norm_num

theorem rounding_examples :
    f32 (7 / 10) = 11744051 / 16777216 ∧
    noteOffThreshold (11744051 / 16777216) 12000 = 8400 ∧
    toU32 (stepFrames 48000 125 4) = 11519 ∧
    toU32 (stepFrames 48000 120 4) = 12000 ∧
    resetPhase { instantiate 48000 with bpm := 120, divisions := 3, beatInMeasure := 2 }
      = 15999 := by
  refine ⟨by decide!, by decide!, by decide!, by decide!, by decide!⟩

/-! ## The note selector -/

theorem velocity_pattern_some (p : Ports) {i : Nat} (h : i < 8) :
    ∃ v, velocity_pattern p i = some v := by
  unfold velocity_pattern
  rw [List.get?_eq_getElem?]
  exact ⟨_, List.getElem?_eq_getElem (l := [p.patternVel1Param, p.patternVel2Param,
    p.patternVel3Param, p.patternVel4Param, p.patternVel5Param, p.patternVel6Param,
    p.patternVel7Param, p.patternVel8Param]) (by simpa using h)⟩

theorem intToSize_of_small {n : Int} (h1 : 1 ≤ n) (h8 : n ≤ 8) :
    intToSize n = n.toNat ∧ 1 ≤ n.toNat ∧ n.toNat ≤ 8 := by
  unfold intToSize SIZE
  have : n % ((2 ^ 64 : Nat) : Int) = n := Int.emod_eq_of_lt (by omega) (by norm_num; omega)
  rw [this]; omega

theorem emitNoteOn_some (p : Ports) (slot : Nat) (s : Arpeggiator)
    (hs : 1 ≤ toInt p.octaveSpreadParam)
    (hv1 : 1 ≤ toInt p.velocityPatternLengthParam)
    (hv8 : toInt p.velocityPatternLengthParam ≤ 8)
    (hpi : s.pattern_index < 8) :
    ∃ oct s1 v, octaveHandler p s = some (oct, s1) ∧
      velocity_pattern p s.pattern_index = some v ∧
      emitNoteOn p slot s = some
        ({ s1 with
            pattern_index :=
              (s.pattern_index + 1) % (toInt p.velocityPatternLengthParam).toNat,
            noteoff_buffer := s.noteoff_buffer.set s.active_notes_index
              ((slot + oct) % U8, (s.noteoff_buffer.getD s.active_notes_index (0, 0)).2),
            active_notes_index := (s.active_notes_index + 1) % NUM_VOICES },
         s.note_played, createMidiEvent 144 ((slot + oct) % U8) (toU8 v)) := by
  obtain ⟨oct, s1, h1, e1⟩ := octaveHandler_some p s hs
  obtain ⟨v, hv⟩ := velocity_pattern_some p hpi
  obtain ⟨hd, hd1, hd8⟩ := intToSize_of_small hv1 hv8
  refine ⟨oct, s1, v, h1, hv, ?_⟩
  have hpi1 : s1.pattern_index = s.pattern_index := by rw [e1]
  have hnb : s1.noteoff_buffer = s.noteoff_buffer := by rw [e1]
  have hai : s1.active_notes_index = s.active_notes_index := by rw [e1]
  have hnp : s1.note_played = s.note_played := by rw [e1]
  have hne : (toInt p.velocityPatternLengthParam).toNat ≠ 0 := by omega
  have hsz : (s.pattern_index + 1) % SIZE = s.pattern_index + 1 :=
    Nat.mod_eq_of_lt (by unfold SIZE; omega)
  simp [emitNoteOn, h1, hpi1, hv, hd, hne, hnb, hai, hnp, hsz]

theorem readNote_natCast (notes : List Nat) {c : Nat} (h : c < NUM_VOICES) :
    readNote notes (c : Int) = some (notes.getD c 0) := by
  unfold readNote
  have : (0 : Int) ≤ c ∧ (c : Int) < (NUM_VOICES : Int) := ⟨by omega, by exact_mod_cast h⟩
  simp [this]

theorem advanceCursor_up (p : Ports) (last : Int) (s : Arpeggiator) (c : Nat)
    (hmode : p.arp_mode = 0) (hc : s.note_played = c) :
    advanceCursor p last s = { s with note_played := (((c + 1) % NUM_VOICES : Nat) : Int) } := by
  unfold advanceCursor
  simp only [hmode, if_true, hc]
  congr 1

theorem handleNoteOnLoop_skip (p : Ports) (last : Int) (s : Arpeggiator) (fuel c : Nat)
    (hmode : p.arp_mode = 0) (hc : s.note_played = c) (hc16 : c < NUM_VOICES)
    (hnp : ¬ populated (s.midi_notes.getD c 0)) :
    handleNoteOnLoop p (fuel + 1) last s =
      handleNoteOnLoop p fuel last
        { s with note_played := (((c + 1) % NUM_VOICES : Nat) : Int) } := by
  rw [handleNoteOnLoop, hc, readNote_natCast _ hc16]
  unfold populated at hnp
  simp only [Option.some_bind, hnp, if_false]
  rw [advanceCursor_up p last s c hmode hc]

theorem handleNoteOnLoop_skips (p : Ports) (last : Int) (hmode : p.arp_mode = 0) :
    ∀ (k fuel c : Nat) (s : Arpeggiator), s.note_played = c → c < NUM_VOICES →
      (∀ j, j < k → ¬ populated (s.midi_notes.getD ((c + j) % NUM_VOICES) 0)) →
      handleNoteOnLoop p (fuel + k) last s =
        handleNoteOnLoop p fuel last
          { s with note_played := (((c + k) % NUM_VOICES : Nat) : Int) }
  | 0, fuel, c, s, hc, hc16, _ => by
    have : (c + 0) % NUM_VOICES = c := Nat.mod_eq_of_lt hc16
    rw [this, ← hc]; rfl
  | k + 1, fuel, c, s, hc, hc16, h => by
    have h0 : ¬ populated (s.midi_notes.getD c 0) := by
      have := h 0 (by omega)
      rwa [Nat.add_zero, Nat.mod_eq_of_lt hc16] at this
    have e : fuel + (k + 1) = (fuel + k) + 1 := by omega
    rw [e, handleNoteOnLoop_skip p last s (fuel + k) c hmode hc hc16 h0]
    have hlt : (c + 1) % NUM_VOICES < NUM_VOICES := Nat.mod_lt _ (by unfold NUM_VOICES; omega)
    rw [handleNoteOnLoop_skips p last hmode k fuel ((c + 1) % NUM_VOICES) _ rfl hlt]
    · have : ((c + 1) % NUM_VOICES + k) % NUM_VOICES = (c + (k + 1)) % NUM_VOICES := by
        unfold NUM_VOICES; omega
      rw [this]
    · intro j hj
      have := h (j + 1) (by omega)
      have e2 : ((c + 1) % NUM_VOICES + j) % NUM_VOICES = (c + (j + 1)) % NUM_VOICES := by
        unfold NUM_VOICES; omega
      rw [e2]; exact this

theorem handleNoteOnLoop_found (p : Ports) (last : Int) (s : Arpeggiator) (fuel c : Nat)
    (hc : s.note_played = c) (hc16 : c < NUM_VOICES)
    (hpop : populated (s.midi_notes.getD c 0)) :
    handleNoteOnLoop p (fuel + 1) last s =
      (emitNoteOn p (s.midi_notes.getD c 0) s).bind fun (t, l, onMsg) =>
        some (advanceCursor p l t, l, [onMsg]) := by
  rw [handleNoteOnLoop, hc, readNote_natCast _ hc16]
  unfold populated at hpop
  simp only [Option.some_bind, hpop, and_self, if_true]

theorem handleNoteOn_up_none (p : Ports) (last : Int) (s : Arpeggiator) (c : Nat)
    (hmode : p.arp_mode = 0) (hc : s.note_played = c) (hc16 : c < NUM_VOICES)
    (h : ∀ i, i < NUM_VOICES → ¬ populated (s.midi_notes.getD i 0)) :
    handleNoteOn p last s = some (s, last, []) := by
  have hk := handleNoteOnLoop_skips p last hmode NUM_VOICES 0 c s hc hc16
    (fun j _ => h _ (Nat.mod_lt _ (by unfold NUM_VOICES; omega)))
  have e : (c + NUM_VOICES) % NUM_VOICES = c := by
    rw [Nat.add_mod_right]; exact Nat.mod_eq_of_lt hc16
  rw [e, ← hc] at hk
  unfold handleNoteOn
  rw [Nat.zero_add] at hk
  rw [hk]; rfl

theorem handleNoteOn_up_found (p : Ports) (last : Int) (s : Arpeggiator) (c k : Nat)
    (hmode : p.arp_mode = 0) (hc : s.note_played = c) (hc16 : c < NUM_VOICES)
    (hk : k < NUM_VOICES)
    (hskip : ∀ j, j < k → ¬ populated (s.midi_notes.getD ((c + j) % NUM_VOICES) 0))
    (hpop : populated (s.midi_notes.getD ((c + k) % NUM_VOICES) 0))
    (hs : 1 ≤ toInt p.octaveSpreadParam)
    (hv1 : 1 ≤ toInt p.velocityPatternLengthParam)
    (hv8 : toInt p.velocityPatternLengthParam ≤ 8)
    (hpi : s.pattern_index < 8) :
    ∃ oct s1 v,
      octaveHandler p { s with note_played := (((c + k) % NUM_VOICES : Nat) : Int) }
        = some (oct, s1) ∧
      velocity_pattern p s.pattern_index = some v ∧
      handleNoteOn p last s = some
        ({ s1 with
            pattern_index :=
              (s.pattern_index + 1) % (toInt p.velocityPatternLengthParam).toNat,
            noteoff_buffer := s.noteoff_buffer.set s.active_notes_index
              ((s.midi_notes.getD ((c + k) % NUM_VOICES) 0 + oct) % U8,
               (s.noteoff_buffer.getD s.active_notes_index (0, 0)).2),
            active_notes_index := (s.active_notes_index + 1) % NUM_VOICES,
            note_played := ((((c + k) % NUM_VOICES + 1) % NUM_VOICES : Nat) : Int) },
         (((c + k) % NUM_VOICES : Nat) : Int),
         [createMidiEvent 144 ((s.midi_notes.getD ((c + k) % NUM_VOICES) 0 + oct) % U8)
            (toU8 v)]) := by
  have hj : (c + k) % NUM_VOICES < NUM_VOICES := Nat.mod_lt _ (by unfold NUM_VOICES; omega)
  obtain ⟨f, hf⟩ : ∃ f, NUM_VOICES = (f + 1) + k := ⟨NUM_VOICES - 1 - k, by omega⟩
  have h1 := handleNoteOnLoop_skips p last hmode k (f + 1) c s hc hc16 hskip
  obtain ⟨oct, s1, v, ho, hv, he⟩ := emitNoteOn_some p
    (s.midi_notes.getD ((c + k) % NUM_VOICES) 0)
    { s with note_played := (((c + k) % NUM_VOICES : Nat) : Int) } hs hv1 hv8 hpi
  refine ⟨oct, s1, v, ho, hv, ?_⟩
  have h2 := handleNoteOnLoop_found p last
    { s with note_played := (((c + k) % NUM_VOICES : Nat) : Int) } f
    ((c + k) % NUM_VOICES) rfl hj hpop
  have h0 : handleNoteOn p last s = handleNoteOnLoop p (f + 1 + k) last s := by
    rw [← hf]; rfl
  rw [h0, h1, h2]
  simp only [] at he ⊢
  rw [he]
  simp only [Option.some_bind]
  have hnp : s1.note_played = (((c + k) % NUM_VOICES : Nat) : Int) := by
    obtain ⟨oct2, s2, ho2, e1⟩ := octaveHandler_some p
      { s with note_played := (((c + k) % NUM_VOICES : Nat) : Int) } hs
    rw [ho] at ho2
    obtain ⟨-, rfl⟩ := Prod.mk.inj (Option.some.inj ho2)
    rw [e1]
  rw [advanceCursor_up p _ _ ((c + k) % NUM_VOICES) hmode]
  · exact hnp

theorem octaveHandler_frame (p : Ports) (s t : Arpeggiator) (oct : Nat)
    (hs : 1 ≤ toInt p.octaveSpreadParam) (h : octaveHandler p s = some (oct, t)) :
    t = { s with octave_index := t.octave_index, octave_up := t.octave_up,
                 previousOctaveMode := t.previousOctaveMode } := by
  obtain ⟨oct2, s2, ho2, e1⟩ := octaveHandler_some p s hs
  rw [h] at ho2
  obtain ⟨-, rfl⟩ := Prod.mk.inj (Option.some.inj ho2)
  exact e1

theorem octaveHandler_of_not_gt (p : Ports) (s t : Arpeggiator) (oct : Nat)
    (hs : ¬ p.octaveSpreadParam > 1) (h : octaveHandler p s = some (oct, t)) : oct = 0 := by
  unfold octaveHandler at h
  cases hm : octaveModeChange p s with
  | none => rw [hm] at h; simp at h
  | some s1 =>
    rw [hm] at h
    simp only [Option.some_bind, octaveAdvance, hs, if_false] at h
    exact ((Prod.mk.inj (Option.some.inj h)).1).symm

theorem toInt_one : toInt 1 = 1 := by decide!

theorem handleNoteOn_twoNotes (p : Ports) (last : Int) (s : Arpeggiator) (c : Nat)
    (hmode : p.arp_mode = 0) (hsp : p.octaveSpreadParam = 1)
    (hv1 : 1 ≤ toInt p.velocityPatternLengthParam)
    (hv8 : toInt p.velocityPatternLengthParam ≤ 8)
    (hn : s.midi_notes = twoNotes) (hpi : s.pattern_index < 8)
    (hc : s.note_played = c) (hc3 : c < 3) :
    ∃ t l v, handleNoteOn p last s
        = some (t, l, [createMidiEvent 144 (if c = 1 then 64 else 60) v]) ∧
      t.midi_notes = twoNotes ∧ t.pattern_index < 8 ∧
      t.note_played = ((if c = 1 then 2 else 1 : Nat) : Int) := by
  have hs : 1 ≤ toInt p.octaveSpreadParam := by rw [hsp, toInt_one]
  have hngt : ¬ p.octaveSpreadParam > 1 := by rw [hsp]; simp
  have hlen : (toInt p.velocityPatternLengthParam).toNat ≤ 8 := by omega
  have hlen1 : 0 < (toInt p.velocityPatternLengthParam).toNat := by omega
  have hmod : (s.pattern_index + 1) % (toInt p.velocityPatternLengthParam).toNat < 8 :=
    lt_of_lt_of_le (Nat.mod_lt _ hlen1) hlen
  have key : ∀ k, k < NUM_VOICES →
      (∀ j, j < k → ¬ populated (s.midi_notes.getD ((c + j) % NUM_VOICES) 0)) →
      populated (s.midi_notes.getD ((c + k) % NUM_VOICES) 0) →
      ∃ t l v, handleNoteOn p last s
        = some (t, l, [createMidiEvent 144 (s.midi_notes.getD ((c + k) % NUM_VOICES) 0) v]) ∧
      t.midi_notes = twoNotes ∧ t.pattern_index < 8 ∧
      t.note_played = ((((c + k) % NUM_VOICES + 1) % NUM_VOICES : Nat) : Int) := by
    intro k hk hskip hpop
    obtain ⟨oct, s1, v, ho, -, hh⟩ := handleNoteOn_up_found p last s c k hmode hc
      (by unfold NUM_VOICES; omega) hk hskip hpop hs hv1 hv8 hpi
    have h0 := octaveHandler_of_not_gt p _ _ _ hngt ho
    have hf := octaveHandler_frame p _ _ _ hs ho
    have hlt : s.midi_notes.getD ((c + k) % NUM_VOICES) 0 < U8 := by
      have := hpop.2; unfold U8; omega
    have hm : s1.midi_notes = twoNotes := by rw [hf]; exact hn
    rw [h0, Nat.add_zero, Nat.mod_eq_of_lt hlt] at hh
    exact ⟨_, _, _, hh, hm, hmod, rfl⟩
  have hc' : c = 0 ∨ c = 1 ∨ c = 2 := by omega
  rcases hc' with rfl | rfl | rfl
  · have := key 0 (by decide) (by intro j hj; omega) (by rw [hn]; decide)
    rw [hn] at this
    exact this
  · have := key 0 (by decide) (by intro j hj; omega) (by rw [hn]; decide)
    rw [hn] at this
    exact this
  · have := key 14 (by decide)
      (by intro j hj; rw [hn]; interval_cases j <;> decide) (by rw [hn]; decide)
    rw [hn] at this
    exact this

theorem triggers_twoNotes (p : Ports)
    (hmode : p.arp_mode = 0) (hsp : p.octaveSpreadParam = 1)
    (hv1 : 1 ≤ toInt p.velocityPatternLengthParam)
    (hv8 : toInt p.velocityPatternLengthParam ≤ 8) :
    ∀ (n : Nat) (last : Int) (s : Arpeggiator) (c : Nat),
      s.midi_notes = twoNotes → s.pattern_index < 8 → s.note_played = c → c < 3 →
      ∃ t l out, triggers p n last s = some (t, l, out) ∧
        out.map (fun m => (m.status, m.note)) =
          (List.range n).map fun i => (144, if (i + c) % 2 = 0 then 60 else 64)
  | 0, last, s, c, _, _, _, _ => ⟨s, last, [], rfl, rfl⟩
  | n + 1, last, s, c, hn, hpi, hc, hc3 => by
    obtain ⟨t, l, v, h1, hn1, hpi1, hc1⟩ :=
      handleNoteOn_twoNotes p last s c hmode hsp hv1 hv8 hn hpi hc hc3
    obtain ⟨u, l2, out, h2, hout⟩ := triggers_twoNotes p hmode hsp hv1 hv8 n l t
      (if c = 1 then 2 else 1) hn1 hpi1 hc1 (by split <;> omega)
    refine ⟨u, l2, createMidiEvent 144 (if c = 1 then 64 else 60) v :: out, ?_, ?_⟩
    · rw [triggers, h1]
      simp only [Option.some_bind, h2, List.singleton_append]
    · rw [List.map_cons, hout, List.range_succ_eq_map, List.map_cons, List.map_map]
      have hc' : c = 0 ∨ c = 1 ∨ c = 2 := by omega
      congr 1
      · rcases hc' with rfl | rfl | rfl <;> rfl
      · apply List.map_congr_left
        intro i _
        simp only [Function.comp, Prod.mk.injEq, true_and]
        have e : ∀ a b : Nat, a % 2 = b % 2 →
            (if a % 2 = 0 then 60 else 64) = (if b % 2 = 0 then 60 else 64) := by
          intro a b h; rw [h]
        rcases hc' with rfl | rfl | rfl
        · apply e; simp
        · apply e; simp; omega
        · apply e; simp

/-! ## Frame lemmas of the note selector -/

theorem octaveModeChange_kept (p : Ports) (s t : Arpeggiator)
    (h : octaveModeChange p s = some t) :
    outsideSelector t = outsideSelector s ∧
      selectorOutsideOctave t = selectorOutsideOctave s := by
  unfold octaveModeChange at h
  simp only [] at h
  split_ifs at h <;> simp only [Option.bind_eq_some, Option.some.injEq] at h <;>
    first
    | (subst h; exact ⟨rfl, rfl⟩)
    | (obtain ⟨_, _, rfl⟩ := h; exact ⟨rfl, rfl⟩)
    | (obtain ⟨_, _, _, _, rfl⟩ := h; exact ⟨rfl, rfl⟩)

theorem octaveAdvance_kept (p : Ports) (s t : Arpeggiator) (oct : Nat)
    (h : octaveAdvance p s = some (oct, t)) :
    outsideSelector t = outsideSelector s ∧
      selectorOutsideOctave t = selectorOutsideOctave s := by
  unfold octaveAdvance at h
  simp only [] at h
  split_ifs at h <;>
    simp only [Option.bind_eq_some, Option.some.injEq, Prod.mk.injEq] at h <;>
    first
    | (obtain ⟨-, rfl⟩ := h; exact ⟨rfl, rfl⟩)
    | (obtain ⟨_, _, -, rfl⟩ := h; exact ⟨rfl, rfl⟩)

theorem octaveHandler_kept (p : Ports) (s t : Arpeggiator) (oct : Nat)
    (h : octaveHandler p s = some (oct, t)) :
    outsideSelector t = outsideSelector s ∧
      selectorOutsideOctave t = selectorOutsideOctave s := by
  unfold octaveHandler at h
  cases hm : octaveModeChange p s with
  | none => rw [hm] at h; simp at h
  | some s1 =>
    rw [hm] at h
    obtain ⟨a1, b1⟩ := octaveModeChange_kept p s s1 hm
    obtain ⟨a2, b2⟩ := octaveAdvance_kept p s1 t oct h
    exact ⟨a2.trans a1, b2.trans b1⟩

theorem advanceCursor_kept (p : Ports) (last : Int) (s : Arpeggiator) :
    outsideSelector (advanceCursor p last s) = outsideSelector s ∧
      selectorOutsideCursor (advanceCursor p last s) = selectorOutsideCursor s := by
  unfold advanceCursor
  simp only []
  split_ifs <;> exact ⟨rfl, rfl⟩

theorem emitNoteOn_eq_some (p : Ports) (slot : Nat) (s t : Arpeggiator) (l : Int)
    (m : LV2_Atom_MIDI) (h : emitNoteOn p slot s = some (t, l, m)) :
    ∃ oct s1 v, octaveHandler p s = some (oct, s1) ∧
      velocity_pattern p s.pattern_index = some v ∧
      intToSize (toInt p.velocityPatternLengthParam) ≠ 0 ∧
      m = createMidiEvent 144 ((slot + oct) % U8) (toU8 v) ∧
      l = s.note_played ∧
      t = { s1 with
            pattern_index := (s.pattern_index + 1) % SIZE
              % intToSize (toInt p.velocityPatternLengthParam),
            noteoff_buffer := s.noteoff_buffer.set s.active_notes_index
              ((slot + oct) % U8, (s.noteoff_buffer.getD s.active_notes_index (0, 0)).2),
            active_notes_index := (s.active_notes_index + 1) % NUM_VOICES } := by
  unfold emitNoteOn at h
  simp only [Option.bind_eq_some] at h
  obtain ⟨⟨oct, s1⟩, ho, v, hv, h⟩ := h
  obtain ⟨-, hk⟩ := octaveHandler_kept p s s1 oct ho
  simp only [selectorOutsideOctave, Prod.mk.injEq] at hk
  obtain ⟨k1, k2, k3, k4, -⟩ := hk
  simp only [k4] at hv
  refine ⟨oct, s1, v, ho, hv, ?_⟩
  split_ifs at h with hd
  simp only [Option.some.injEq, Prod.mk.injEq] at h
  obtain ⟨rfl, rfl, rfl⟩ := h
  refine ⟨hd, rfl, k3, ?_⟩
  simp only [k1, k2, k4]

theorem readNote_eq_some (notes : List Nat) (i : Int) (v : Nat)
    (h : readNote notes i = some v) :
    ∃ c : Nat, i = c ∧ c < NUM_VOICES ∧ v = notes.getD c 0 := by
  unfold readNote at h
  split_ifs at h with hi
  refine ⟨i.toNat, by omega, by omega, ?_⟩
  exact (Option.some.inj h).symm

theorem handleNoteOnLoop_cases (p : Ports) :
    ∀ (fuel : Nat) (last : Int) (s t : Arpeggiator) (l : Int) (out : List LV2_Atom_MIDI),
      handleNoteOnLoop p fuel last s = some (t, l, out) →
      outsideSelector t = outsideSelector s ∧
        ((out = [] ∧ l = last ∧ selectorOutsideCursor t = selectorOutsideCursor s) ∨
          EmitEffect p s t out)
  | 0, last, s, t, l, out, h => by
    simp only [handleNoteOnLoop, Option.some.injEq, Prod.mk.injEq] at h
    obtain ⟨rfl, rfl, rfl⟩ := h
    exact ⟨rfl, Or.inl ⟨rfl, rfl, rfl⟩⟩
  | fuel + 1, last, s, t, l, out, h => by
    rw [handleNoteOnLoop] at h
    simp only [Option.bind_eq_some] at h
    obtain ⟨slot, hr, h⟩ := h
    obtain ⟨c, hc, hc16, rfl⟩ := readNote_eq_some _ _ _ hr
    obtain ⟨ka, kc⟩ := advanceCursor_kept p last s
    split_ifs at h with hpop
    · simp only [Option.bind_eq_some] at h
      obtain ⟨⟨s3, l3, m⟩, he, h⟩ := h
      simp only [Option.some.injEq, Prod.mk.injEq] at h
      obtain ⟨rfl, rfl, rfl⟩ := h
      obtain ⟨oct, s1, v, ho, hv, -, rfl, -, rfl⟩ := emitNoteOn_eq_some p _ s s3 l3 m he
      obtain ⟨k1, -⟩ := octaveHandler_kept p s s1 oct ho
      obtain ⟨a1, c1⟩ := advanceCursor_kept p l3
        { s1 with
            pattern_index := (s.pattern_index + 1) % SIZE
              % intToSize (toInt p.velocityPatternLengthParam),
            noteoff_buffer := s.noteoff_buffer.set s.active_notes_index
              ((s.midi_notes.getD c 0 + oct) % U8,
               (s.noteoff_buffer.getD s.active_notes_index (0, 0)).2),
            active_notes_index := (s.active_notes_index + 1) % NUM_VOICES }
      refine ⟨a1.trans k1, Or.inr ⟨c, oct, v, hc16, hpop, hv, rfl, ?_, ?_, ?_⟩⟩
      · exact congrArg (fun x => x.2.2.1) c1
      · exact congrArg (fun x => x.1) c1
      · exact congrArg (fun x => x.2.1) c1
    · obtain ⟨a, b⟩ := handleNoteOnLoop_cases p fuel last _ t l out h
      refine ⟨a.trans ka, ?_⟩
      rcases b with ⟨b1, b2, b3⟩ | ⟨i, oct, v, e1, e2, e3, e4, e5, e6, e7⟩
      · exact Or.inl ⟨b1, b2, b3.trans kc⟩
      · have km : (advanceCursor p last s).midi_notes = s.midi_notes :=
          congrArg (fun x => x.2.2.2.2.2.2.2.1) ka
        have kp : (advanceCursor p last s).pattern_index = s.pattern_index :=
          congrArg (fun x => x.2.2.1) kc
        have kb : (advanceCursor p last s).noteoff_buffer = s.noteoff_buffer :=
          congrArg (fun x => x.1) kc
        have ki : (advanceCursor p last s).active_notes_index = s.active_notes_index :=
          congrArg (fun x => x.2.1) kc
        rw [km] at e2 e4 e6
        rw [kp] at e3 e5
        rw [kb, ki] at e6
        rw [ki] at e7
        exact Or.inr ⟨i, oct, v, e1, e2, e3, e4, e5, e6, e7⟩

theorem handleNoteOn_cases (p : Ports) (last : Int) (s t : Arpeggiator) (l : Int)
    (out : List LV2_Atom_MIDI) (h : handleNoteOn p last s = some (t, l, out)) :
    outsideSelector t = outsideSelector s ∧
      ((out = [] ∧ l = last ∧ selectorOutsideCursor t = selectorOutsideCursor s) ∨
        EmitEffect p s t out) :=
  handleNoteOnLoop_cases p NUM_VOICES last s t l out h

/-! ## The per-sample loop -/

theorem toU32_natCast_div_two (P : Nat) (h : P < U32) : toU32 ((P : ℚ) / 2) = P / 2 := by
  unfold toU32
  rw [toInt_of_nonneg (by positivity)]
  have : ⌊(P : ℚ) / 2⌋ = ((P / 2 : Nat) : Int) := by
    have := Rat.floor_intCast_div_natCast (P : Int) 2
    simpa using this
  rw [this]
  have h2 : ((P / 2 : Nat) : Int) % (U32 : Int) = ((P / 2 : Nat) : Int) :=
    Int.emod_eq_of_lt (by omega) (by have : P / 2 < U32 := by omega
                                     exact_mod_cast this)
  rw [h2]
  exact Int.toNat_natCast _

theorem halfPeriod_eq (P : Nat) (h : P < 2 ^ 24) :
    toU32 (f32 (f32 (P : ℚ) / 2)) = P / 2 := by
  rw [f32_natCast P h, f32_natCast_half P h]
  exact toU32_natCast_div_two P (by unfold U32; omega)

theorem sampleClock_steady (p : Ports) (P : Nat) (s : Arpeggiator) (h : Steady p P s)
    (hP : P < 2 ^ 24) :
    sampleClock p s = { s with bpm := p.changeBpm, period := P, h_wavelength := P / 2 } := by
  obtain ⟨h1, h2, h3, h4, h5⟩ := h
  unfold sampleClock
  simp only [h1, if_true, h2, ne_eq, not_true_eq_false, if_false, h3.symm ▸ h1, h4, h5,
    halfPeriod_eq P hP]

theorem handleNoteOffLoop_status (p : Ports) (P : Nat) :
    ∀ buf : List (Nat × Nat), ∀ m ∈ (handleNoteOffLoop p P buf).2, m.status = 128
  | [], m, hm => by simp [handleNoteOffLoop] at hm
  | e :: rest, m, hm => by
    simp only [handleNoteOffLoop, List.mem_append] at hm
    rcases hm with hm | hm
    · unfold noteOffEntry at hm
      simp only [] at hm
      split_ifs at hm <;> simp at hm
      rw [hm]; rfl
    · exact handleNoteOffLoop_status p P rest m hm

theorem noteOns_handleNoteOff (p : Ports) (s : Arpeggiator) :
    noteOns (handleNoteOff p s).2 = [] := by
  unfold noteOns
  rw [List.filter_eq_nil_iff]
  intro m hm
  have := handleNoteOffLoop_status p s.period s.noteoff_buffer m hm
  simp [this]

theorem handleNoteOn_oneNote (p : Ports) (last : Int) (s : Arpeggiator) (q c : Nat)
    (hmode : p.arp_mode = 0) (hsp : p.octaveSpreadParam = 1)
    (hv1 : 1 ≤ toInt p.velocityPatternLengthParam)
    (hv8 : toInt p.velocityPatternLengthParam ≤ 8)
    (hq : populated q)
    (hn : s.midi_notes = oneNote q) (hpi : s.pattern_index < 8)
    (hc : s.note_played = c) (hc2 : c < 2) :
    ∃ t l v, handleNoteOn p last s = some (t, l, [createMidiEvent 144 q (toU8 v)]) ∧
      velocity_pattern p s.pattern_index = some v ∧
      t.pattern_index < 8 ∧ t.note_played = 1 ∧
      t.noteoff_buffer = s.noteoff_buffer.set s.active_notes_index
        (q, (s.noteoff_buffer.getD s.active_notes_index (0, 0)).2) ∧
      t.active_notes_index = (s.active_notes_index + 1) % NUM_VOICES ∧
      outsideSelector t = outsideSelector s := by
  have hs : 1 ≤ toInt p.octaveSpreadParam := by rw [hsp, toInt_one]
  have hngt : ¬ p.octaveSpreadParam > 1 := by rw [hsp]; simp
  have hlen : (toInt p.velocityPatternLengthParam).toNat ≤ 8 := by omega
  have hlen1 : 0 < (toInt p.velocityPatternLengthParam).toNat := by omega
  have hmod : (s.pattern_index + 1) % (toInt p.velocityPatternLengthParam).toNat < 8 :=
    lt_of_lt_of_le (Nat.mod_lt _ hlen1) hlen
  have hq8 : q < U8 := by have := hq.2; unfold U8; omega
  have key : ∀ k, k < NUM_VOICES → (c + k) % NUM_VOICES = 0 →
      (∀ j, j < k → ¬ populated (s.midi_notes.getD ((c + j) % NUM_VOICES) 0)) →
      ∃ t l v, handleNoteOn p last s = some (t, l, [createMidiEvent 144 q (toU8 v)]) ∧
      velocity_pattern p s.pattern_index = some v ∧
      t.pattern_index < 8 ∧ t.note_played = 1 ∧
      t.noteoff_buffer = s.noteoff_buffer.set s.active_notes_index
        (q, (s.noteoff_buffer.getD s.active_notes_index (0, 0)).2) ∧
      t.active_notes_index = (s.active_notes_index + 1) % NUM_VOICES ∧
      outsideSelector t = outsideSelector s := by
    intro k hk hk0 hskip
    have hget : s.midi_notes.getD ((c + k) % NUM_VOICES) 0 = q := by rw [hk0, hn]; rfl
    obtain ⟨oct, s1, v, ho, hv, hh⟩ := handleNoteOn_up_found p last s c k hmode hc
      (by unfold NUM_VOICES; omega) hk hskip (by rw [hget]; exact hq) hs hv1 hv8 hpi
    have h0 := octaveHandler_of_not_gt p _ _ _ hngt ho
    rw [hget, h0, Nat.add_zero, Nat.mod_eq_of_lt hq8, hk0] at hh
    obtain ⟨ka, -⟩ := handleNoteOn_cases p last s _ _ _ hh
    exact ⟨_, _, _, hh, hv, hmod, rfl, rfl, rfl, ka⟩
  have hc' : c = 0 ∨ c = 1 := by omega
  rcases hc' with rfl | rfl
  · exact key 0 (by decide) (by decide) (by intro j hj; omega)
  · refine key 15 (by decide) (by decide) ?_
    intro j hj
    rw [hn]
    have : ∀ i, 1 ≤ i → i < 16 → (oneNote q).getD i 0 = 0 := by
      intro i h1 h16
      interval_cases i <;> rfl
    have h1 : 1 ≤ (1 + j) % NUM_VOICES := by unfold NUM_VOICES; omega
    rw [this ((1 + j) % NUM_VOICES) h1 (Nat.mod_lt _ (by decide))]
    unfold populated; omega

theorem sampleStep_quiet (p : Ports) (P : Nat) (last : Int) (s : Arpeggiator)
    (hS : Steady p P s) (hP : P < 2 ^ 24)
    (hq : ¬ (s.pos < P ∧ s.pos < P / 2 ∧ s.triggered = false)) :
    sampleStep p last s = some
      ({ s with bpm := p.changeBpm, period := P, h_wavelength := P / 2,
                pos := ((if P ≤ s.pos then 0 else s.pos) + 1) % U32,
                triggered := (if s.pos < P ∧ P / 2 < s.pos then false else s.triggered),
                noteoff_buffer := (handleNoteOffLoop p P s.noteoff_buffer).1 },
       last, (handleNoteOffLoop p P s.noteoff_buffer).2) := by
  unfold sampleStep
  rw [sampleClock_steady p P s hS hP]
  simp only [ge_iff_le, gt_iff_lt]
  by_cases h1 : P ≤ s.pos
  · have h2 : ¬ (s.pos < P ∧ P / 2 < s.pos) := by omega
    simp only [h1, if_true, h2, if_false, Option.some_bind, handleNoteOff, List.nil_append]
  · have h3 : ¬ (s.pos < P / 2 ∧ s.triggered = false) := fun h => hq ⟨by omega, h.1, h.2⟩
    by_cases h4 : P / 2 < s.pos
    · have h2 : s.pos < P ∧ P / 2 < s.pos := ⟨by omega, h4⟩
      simp only [h1, if_false, h3, h4, if_true, h2, and_self, Option.some_bind,
        handleNoteOff, List.nil_append]
    · have h2 : ¬ (s.pos < P ∧ P / 2 < s.pos) := fun h => h4 h.2
      simp only [h1, if_false, h3, h4, and_false, Option.some_bind, handleNoteOff,
        List.nil_append]

theorem sampleStep_fire (p : Ports) (P : Nat) (last : Int) (s t : Arpeggiator) (l : Int)
    (out : List LV2_Atom_MIDI)
    (hS : Steady p P s) (hP : P < 2 ^ 24)
    (hf : s.pos < P ∧ s.pos < P / 2 ∧ s.triggered = false)
    (hon : handleNoteOn p last
      { s with bpm := p.changeBpm, period := P, h_wavelength := P / 2 } = some (t, l, out)) :
    sampleStep p last s = some
      ({ t with triggered := true, pos := (t.pos + 1) % U32,
                noteoff_buffer := (handleNoteOffLoop p t.period t.noteoff_buffer).1 },
       l, out ++ (handleNoteOffLoop p t.period t.noteoff_buffer).2) := by
  unfold sampleStep
  rw [sampleClock_steady p P s hS hP]
  have h1 : ¬ P ≤ s.pos := by omega
  have hc : s.pos < P / 2 ∧ s.triggered = false := ⟨hf.2.1, hf.2.2⟩
  simp only [ge_iff_le]
  rw [if_neg h1, if_pos hc, hon]
  simp only [Option.some_bind, handleNoteOff]

theorem outsideSelector_eq (s t : Arpeggiator) (h : outsideSelector t = outsideSelector s) :
    t.divisions = s.divisions ∧ t.samplerate = s.samplerate ∧ t.prevSync = s.prevSync ∧
    t.bpm = s.bpm ∧ t.pos = s.pos ∧ t.period = s.period ∧
    t.h_wavelength = s.h_wavelength ∧ t.midi_notes = s.midi_notes ∧
    t.midi_index = s.midi_index ∧ t.active_notes = s.active_notes ∧
    t.triggered = s.triggered ∧ t.latch_playing = s.latch_playing ∧ t.speed = s.speed ∧
    t.prevSpeed = s.prevSpeed ∧ t.beatInMeasure = s.beatInMeasure ∧
    t.previous_latch = s.previous_latch ∧ t.elapsed_len = s.elapsed_len := by
  simpa only [outsideSelector, Prod.mk.injEq] using h

theorem noteOns_append (a b : List LV2_Atom_MIDI) :
    noteOns (a ++ b) = noteOns a ++ noteOns b := by
  unfold noteOns; exact List.filter_append _ _

theorem noteOns_handleNoteOffLoop (p : Ports) (P : Nat) (buf : List (Nat × Nat)) :
    noteOns (handleNoteOffLoop p P buf).2 = [] := by
  unfold noteOns
  rw [List.filter_eq_nil_iff]
  intro m hm
  have := handleNoteOffLoop_status p P buf m hm
  simp [this]

theorem sampleStep_oneNote_fire (p : Ports) (P q : Nat) (last : Int) (s : Arpeggiator)
    (hmode : p.arp_mode = 0) (hsp : p.octaveSpreadParam = 1)
    (hv1 : 1 ≤ toInt p.velocityPatternLengthParam)
    (hv8 : toInt p.velocityPatternLengthParam ≤ 8)
    (hq : populated q) (hP : P < 2 ^ 24) (hI : OneNoteInv p P q s)
    (hf : s.pos < P ∧ s.pos < P / 2 ∧ s.triggered = false) :
    ∃ t l out v, sampleStep p last s = some (t, l, out) ∧ OneNoteInv p P q t ∧
      t.period = P ∧
      t.pos = (s.pos + 1) % U32 ∧ t.triggered = true ∧
      velocity_pattern p s.pattern_index = some v ∧
      noteOns out = [createMidiEvent 144 q (toU8 v)] := by
  obtain ⟨hS, hn, hpi, hc⟩ := hI
  have hc' : ∃ c : Nat, s.note_played = c ∧ c < 2 := by
    rcases hc with h | h
    · exact ⟨0, h, by decide⟩
    · exact ⟨1, h, by decide⟩
  obtain ⟨c, hc1, hc2⟩ := hc'
  obtain ⟨t, l, v, hon, hv, hpi', hnp, -, -, hk⟩ := handleNoteOn_oneNote p last
    { s with bpm := p.changeBpm, period := P, h_wavelength := P / 2 } q c hmode hsp hv1 hv8
    hq hn hpi hc1 hc2
  have hstep := sampleStep_fire p P last s t l _ hS hP hf hon
  obtain ⟨e1, e2, e3, -, e5, e6, -, e8, -, -, -, -, e13, e14, -, -, -⟩ :=
    outsideSelector_eq _ _ hk
  refine ⟨_, l, _, v, hstep, ⟨?_, ?_, hpi', Or.inr hnp⟩, e6, ?_, rfl, hv, ?_⟩
  · obtain ⟨s1, s2, s3, s4, s5⟩ := hS
    exact ⟨s1, by show t.speed = t.prevSpeed; rw [e13, e14]; exact s2,
      by show t.prevSync = p.sync; rw [e3]; exact s3,
      by show t.divisions = p.changedDiv; rw [e1]; exact s4,
      by show toU32 (stepFrames t.samplerate _ _) = P; rw [e2]; exact s5⟩
  · show t.midi_notes = oneNote q
    rw [e8]; exact hn
  · show (t.pos + 1) % U32 = (s.pos + 1) % U32
    rw [e5]
  · rw [noteOns_append, noteOns_handleNoteOffLoop, List.append_nil]
    rfl

theorem sampleStep_oneNote_quiet (p : Ports) (P q : Nat) (last : Int) (s : Arpeggiator)
    (hP : P < 2 ^ 24) (hI : OneNoteInv p P q s)
    (hf : ¬ (s.pos < P ∧ s.pos < P / 2 ∧ s.triggered = false)) :
    ∃ t out, sampleStep p last s = some (t, last, out) ∧ OneNoteInv p P q t ∧
      t.period = P ∧
      t.pos = ((if P ≤ s.pos then 0 else s.pos) + 1) % U32 ∧
      t.triggered = (if s.pos < P ∧ P / 2 < s.pos then false else s.triggered) ∧
      noteOns out = [] := by
  obtain ⟨hS, hn, hpi, hc⟩ := hI
  refine ⟨_, _, sampleStep_quiet p P last s hS hP hf, ⟨?_, hn, hpi, hc⟩, rfl, rfl, rfl,
    noteOns_handleNoteOffLoop p P _⟩
  exact hS

theorem firesAt_decomp (P k r : Nat) (hr1 : 1 ≤ r) (hrP : r ≤ P) :
    firesAt P (k * P + r) = decide (1 ≤ k ∧ r = 1) := by
  unfold firesAt
  have h1 : (k * P + r - 1) % P = r - 1 := by
    have : k * P + r - 1 = (r - 1) + P * k := by rw [Nat.mul_comm]; omega
    rw [this, Nat.add_mul_mod_self_left, Nat.mod_eq_of_lt (by omega)]
  have h2 : P < k * P + r ↔ 1 ≤ k := by
    constructor
    · intro h
      by_contra hk
      have : k = 0 := by omega
      subst this
      omega
    · intro h
      have : P ≤ k * P := Nat.le_mul_of_pos_left P (by omega)
      omega
  rw [h1]
  apply decide_eq_decide.mpr
  rw [h2]
  constructor
  · rintro (h | ⟨ha, hb⟩)
    · omega
    · exact ⟨ha, by omega⟩
  · rintro ⟨ha, hb⟩
    exact Or.inr ⟨ha, by omega⟩

theorem sampleStep_phase (p : Ports) (P q i : Nat) (last : Int) (s : Arpeggiator)
    (hmode : p.arp_mode = 0) (hsp : p.octaveSpreadParam = 1)
    (hv1 : 1 ≤ toInt p.velocityPatternLengthParam)
    (hv8 : toInt p.velocityPatternLengthParam ≤ 8)
    (hq : populated q) (hP4 : 4 ≤ P) (hP24 : P < 2 ^ 24)
    (hI : OneNoteInv p P q s) (hph : PhaseAt P i s) :
    ∃ t l out, sampleStep p last s = some (t, l, out) ∧ OneNoteInv p P q t ∧
      t.period = P ∧ PhaseAt P (i + 1) t ∧
      (noteOns out).map (fun m => (m.status, m.note))
        = if firesAt P i then [(144, q)] else [] := by
  have hP : P + 1 < U32 := by unfold U32; omega
  have hPU := hP24
  rcases hph with ⟨rfl, hpos, htr⟩ | ⟨k, r, rfl, hr1, hrP, hpos, htr⟩
  · obtain ⟨t, l, out, v, hst, hI', hper, hp', ht', -, hout⟩ :=
      sampleStep_oneNote_fire p P q last s hmode hsp hv1 hv8 hq hPU hI
        ⟨by omega, by omega, htr⟩
    refine ⟨t, l, out, hst, hI', hper, Or.inr ⟨0, 1, by omega, le_refl _, by omega, ?_, ?_⟩, ?_⟩
    · rw [hp', hpos]; exact Nat.mod_eq_of_lt (by omega)
    · rw [ht']; symm; apply decide_eq_true; exact ⟨Or.inl rfl, by omega⟩
    · rw [hout]; rfl
  · rw [firesAt_decomp P k r hr1 hrP]
    by_cases hfire : 1 ≤ k ∧ r = 1
    · obtain ⟨hk, rfl⟩ := hfire
      have htr' : s.triggered = false := by
        rw [htr]; apply decide_eq_false; omega
      obtain ⟨t, l, out, v, hst, hI', hper, hp', ht', -, hout⟩ :=
        sampleStep_oneNote_fire p P q last s hmode hsp hv1 hv8 hq hPU hI
          ⟨by omega, by omega, htr'⟩
      refine ⟨t, l, out, hst, hI', hper, Or.inr ⟨k, 2, by omega, by omega, by omega, ?_, ?_⟩, ?_⟩
      · rw [hp', hpos]; exact Nat.mod_eq_of_lt (by omega)
      · rw [ht']; symm; apply decide_eq_true; exact ⟨Or.inr (le_refl _), by omega⟩
      · rw [hout]; simp [hk]; exact ⟨rfl, rfl⟩
    · have hkr : k = 0 ∨ 2 ≤ r := by omega
      have hq' : ¬ (s.pos < P ∧ s.pos < P / 2 ∧ s.triggered = false) := by
        rintro ⟨-, h2, h3⟩
        rw [htr] at h3
        have := of_decide_eq_false h3
        exact this ⟨hkr, by omega⟩
      obtain ⟨t, out, hst, hI', hper, hp', ht', hout⟩ :=
        sampleStep_oneNote_quiet p P q last s hPU hI hq'
      refine ⟨t, last, out, hst, hI', hper, ?_, ?_⟩
      · rcases Nat.lt_or_ge r P with hlt | hge
        · refine Or.inr ⟨k, r + 1, by omega, by omega, by omega, ?_, ?_⟩
          · rw [hp', hpos, if_neg (by omega)]; exact Nat.mod_eq_of_lt (by omega)
          · rw [ht', hpos, htr]
            by_cases h5 : P / 2 < r
            · rw [if_pos ⟨hlt, h5⟩]; symm; apply decide_eq_false; omega
            · rw [if_neg (fun h => h5 h.2)]
              apply decide_eq_decide.mpr
              constructor
              · intro _; exact ⟨Or.inr (by omega), by omega⟩
              · intro _; exact ⟨hkr, by omega⟩
        · have hrP' : r = P := by omega
          subst hrP'
          refine Or.inr ⟨k + 1, 1, by rw [Nat.succ_mul], le_refl _, by omega, ?_, ?_⟩
          · rw [hp', hpos, if_pos (le_refl _)]; exact Nat.mod_eq_of_lt (by omega)
          · rw [ht', hpos, if_neg (by omega), htr]
            apply decide_eq_decide.mpr
            constructor
            · intro h; omega
            · intro h; omega
      · rw [hout]; simp [hfire]

theorem runSamples_oneNote (p : Ports) (P q : Nat)
    (hmode : p.arp_mode = 0) (hsp : p.octaveSpreadParam = 1)
    (hv1 : 1 ≤ toInt p.velocityPatternLengthParam)
    (hv8 : toInt p.velocityPatternLengthParam ≤ 8)
    (hq : populated q) (hP4 : 4 ≤ P) (hP : P < 2 ^ 24) :
    ∀ (n i : Nat) (last : Int) (s : Arpeggiator), OneNoteInv p P q s → PhaseAt P i s →
      ∃ t l outs, runSamples p n last s = some (t, l, outs) ∧ outs.length = n ∧
        (0 < n → t.period = P) ∧
        ∀ j, j < n → (noteOns (outs.getD j [])).map (fun m => (m.status, m.note))
          = if firesAt P (i + j) then [(144, q)] else []
  | 0, i, last, s, _, _ =>
    ⟨s, last, [], rfl, rfl, fun h => absurd h (Nat.lt_irrefl 0),
      fun j hj => absurd hj (Nat.not_lt_zero j)⟩
  | n + 1, i, last, s, hI, hph => by
    obtain ⟨t, l, out, hst, hI', hper, hph', hout⟩ :=
      sampleStep_phase p P q i last s hmode hsp hv1 hv8 hq hP4 hP hI hph
    obtain ⟨u, l2, outs, hrun, hlen, hper2, houts⟩ :=
      runSamples_oneNote p P q hmode hsp hv1 hv8 hq hP4 hP n (i + 1) l t hI' hph'
    refine ⟨u, l2, out :: outs, ?_, by simp [hlen], ?_, ?_⟩
    · rw [runSamples, hst]
      simp only [Option.some_bind, hrun]
    · intro _
      cases n with
      | zero =>
        simp only [runSamples, Option.some.injEq, Prod.mk.injEq] at hrun
        rw [← hrun.1]; exact hper
      | succ m => exact hper2 (Nat.succ_pos m)
    · intro j hj
      cases j with
      | zero => simpa using hout
      | succ j =>
        have := houts j (by omega)
        have e : i + (j + 1) = i + 1 + j := by omega
        rw [e]
        simpa using this

theorem scenario_start :
    OneNoteInv scenarioPorts 12000 60 (runEvents scenarioPorts [] [noteOn60] scenarioState) ∧
      PhaseAt 12000 0 (runEvents scenarioPorts [] [noteOn60] scenarioState) := by
  refine ⟨⟨⟨rfl, ?_, ?_, ?_, ?_⟩, ?_, ?_, ?_⟩, Or.inl ⟨rfl, ?_, ?_⟩⟩
  all_goals decide!

/-! ## The note-off scheduler -/

theorem findFreeVoice_none (v : Nat) :
    ∀ (fuel k : Nat) (notes : List Nat),
      (∀ j, k ≤ j → j < k + fuel → notes.getD j 0 ≠ 0) →
      findFreeVoice v fuel k notes = notes
  | 0, _, _, _ => rfl
  | fuel + 1, k, notes, h => by
    rw [findFreeVoice, if_neg (h k (le_refl _) (by omega))]
    exact findFreeVoice_none v fuel (k + 1) notes (fun j h1 h2 => h j (by omega) (by omega))

theorem findFreeVoice_first (v : Nat) :
    ∀ (fuel k i : Nat) (notes : List Nat), k ≤ i → i < k + fuel →
      notes.getD i 0 = 0 → (∀ j, k ≤ j → j < i → notes.getD j 0 ≠ 0) →
      findFreeVoice v fuel k notes = notes.set i v
  | 0, k, i, _, h1, h2, _, _ => by omega
  | fuel + 1, k, i, notes, h1, h2, h0, hlt => by
    rw [findFreeVoice]
    by_cases hk : notes.getD k 0 = 0
    · rw [if_pos hk]
      have : i = k := by
        by_contra hne
        exact hlt k (le_refl _) (by omega) hk
      rw [this]
    · rw [if_neg hk]
      have hki : k ≠ i := fun e => hk (e ▸ h0)
      exact findFreeVoice_first v fuel (k + 1) i notes (by omega) (by omega) h0
        (fun j a b => hlt j (by omega) b)

theorem searchNote_none (v : Nat) :
    ∀ (fuel k : Nat) (notes : List Nat),
      (∀ j, k ≤ j → j < k + fuel → notes.getD j 0 ≠ v) →
      searchNote v fuel k notes = notes
  | 0, _, _, _ => rfl
  | fuel + 1, k, notes, h => by
    rw [searchNote, if_neg (h k (le_refl _) (by omega))]
    exact searchNote_none v fuel (k + 1) notes (fun j h1 h2 => h j (by omega) (by omega))

theorem searchNote_first (v : Nat) :
    ∀ (fuel k i : Nat) (notes : List Nat), k ≤ i → i < k + fuel →
      notes.getD i 0 = v → (∀ j, k ≤ j → j < i → notes.getD j 0 ≠ v) →
      searchNote v fuel k notes = notes.set i 0
  | 0, k, i, _, h1, h2, _, _ => by omega
  | fuel + 1, k, i, notes, h1, h2, h0, hlt => by
    rw [searchNote]
    by_cases hk : notes.getD k 0 = v
    · rw [if_pos hk]
      have : i = k := by
        by_contra hne
        exact hlt k (le_refl _) (by omega) hk
      rw [this]
    · rw [if_neg hk]
      have hki : k ≠ i := fun e => hk (e ▸ h0)
      exact searchNote_first v fuel (k + 1) i notes (by omega) (by omega) h0
        (fun j a b => hlt j (by omega) b)

theorem midiInEvent_noteOn (p : Ports) (self : Arpeggiator) (ev : InEvent) (q : Nat)
    (hmidi : ev.is_midi = true) (hst : ev.msg.status &&& 0xF0 = 0x90)
    (hnote : ev.msg.note = q) (hq : q < U8) :
    midiInEvent p self ev = noteOnCase p q self := by
  unfold midiInEvent LV2_MIDI_MSG_NOTE_ON
  simp only [hmidi, if_true, hst, hnote, Nat.mod_eq_of_lt hq]

theorem midiInEvent_noteOff (p : Ports) (self : Arpeggiator) (ev : InEvent) (q : Nat)
    (hmidi : ev.is_midi = true) (hst : ev.msg.status &&& 0xF0 = 0x80)
    (hnote : ev.msg.note = q) (hq : q < U8) :
    midiInEvent p self ev = noteOffCase p q self := by
  unfold midiInEvent LV2_MIDI_MSG_NOTE_ON LV2_MIDI_MSG_NOTE_OFF
  simp only [hmidi, if_true, hst, hnote, Nat.mod_eq_of_lt hq]
  rfl

theorem noteOnCase_midi_notes (p : Ports) (q : Nat) (self : Arpeggiator)
    (h : ¬ (self.active_notes = 0 ∧ p.latch_mode = 1)) :
    (noteOnCase p q self).midi_notes = findFreeVoice q NUM_VOICES 0 self.midi_notes := by
  unfold noteOnCase
  simp only []
  split_ifs <;> rfl

theorem noteOffCase_latch_off (p : Ports) (q : Nat) (self : Arpeggiator)
    (h : p.latch_mode = 0) :
    (noteOffCase p q self).midi_notes = searchNote q NUM_VOICES 0 self.midi_notes ∧
      (noteOffCase p q self).latch_playing = false := by
  unfold noteOffCase
  simp only [h, if_true, and_self]

theorem update_position_registry (s : Arpeggiator) (obj : TimePosition) :
    registryFields (update_position s obj) = registryFields s := by
  unfold update_position
  cases obj.bpm <;> cases obj.speed <;> cases obj.beat <;> rfl

theorem foldl_update_position_registry (control : List TimePosition) :
    ∀ s : Arpeggiator,
      registryFields (control.foldl update_position s) = registryFields s := by
  induction control with
  | nil => intro s; rfl
  | cons obj rest ih =>
    intro s
    rw [List.foldl_cons, ih, update_position_registry]

theorem midiInEvent_previous_latch (p : Ports) (s : Arpeggiator) (ev : InEvent) :
    (midiInEvent p s ev).previous_latch = s.previous_latch := by
  unfold midiInEvent noteOnCase noteOffCase
  simp only []
  split_ifs <;> rfl

theorem foldl_midiInEvent_previous_latch (p : Ports) (evs : List InEvent) :
    ∀ s : Arpeggiator, (evs.foldl (midiInEvent p) s).previous_latch = s.previous_latch := by
  induction evs with
  | nil => intro s; rfl
  | cons ev rest ih =>
    intro s
    rw [List.foldl_cons, ih, midiInEvent_previous_latch]

theorem latchChange_same (p : Ports) (s : Arpeggiator) (h : s.previous_latch = p.latch_mode) :
    latchChange p s = s := by
  unfold latchChange
  rw [if_neg (by rw [h]; simp)]

theorem sampleStep_registry (p : Ports) (last : Int) (s t : Arpeggiator) (l : Int)
    (out : List LV2_Atom_MIDI) (h : sampleStep p last s = some (t, l, out)) :
    registryFields t = registryFields s := by
  have hc : registryFields (sampleClock p s) = registryFields s := by
    unfold sampleClock
    simp only []
    split_ifs <;> rfl
  unfold sampleStep at h
  simp only [Option.bind_eq_some] at h
  obtain ⟨⟨u, l1, o1⟩, hr, h⟩ := h
  simp only [Option.some.injEq, Prod.mk.injEq] at h
  obtain ⟨rfl, -, -⟩ := h
  have hu : registryFields u = registryFields (sampleClock p s) := by
    split_ifs at hr
    · simp only [Option.some.injEq, Prod.mk.injEq] at hr
      obtain ⟨rfl, -, -⟩ := hr; rfl
    · simp only [Option.bind_eq_some, Option.some.injEq, Prod.mk.injEq] at hr
      obtain ⟨⟨w, l2, o2⟩, hw, rfl, -, -⟩ := hr
      obtain ⟨k, -⟩ := handleNoteOn_cases p last _ w l2 o2 hw
      obtain ⟨-, -, -, -, -, -, -, e8, -, e10, -, e12, -, -, -, e16, -⟩ :=
        outsideSelector_eq _ _ k
      simp only [registryFields, e8, e10, e12, e16]
    · simp only [Option.some.injEq, Prod.mk.injEq] at hr
      obtain ⟨rfl, -, -⟩ := hr; rfl
    · simp only [Option.some.injEq, Prod.mk.injEq] at hr
      obtain ⟨rfl, -, -⟩ := hr; rfl
  exact (show registryFields _ = registryFields u from rfl).trans (hu.trans hc)

theorem runSamples_registry (p : Ports) :
    ∀ (n : Nat) (last : Int) (s t : Arpeggiator) (l : Int)
      (outs : List (List LV2_Atom_MIDI)),
      runSamples p n last s = some (t, l, outs) → registryFields t = registryFields s
  | 0, last, s, t, l, outs, h => by
    simp only [runSamples, Option.some.injEq, Prod.mk.injEq] at h
    rw [h.1]
  | n + 1, last, s, t, l, outs, h => by
    rw [runSamples] at h
    simp only [Option.bind_eq_some] at h
    obtain ⟨⟨u, l1, o1⟩, h1, ⟨w, l2, o2⟩, h2, h3⟩ := h
    simp only [Option.some.injEq, Prod.mk.injEq] at h3
    obtain ⟨rfl, -, -⟩ := h3
    exact (runSamples_registry p n l1 u w l2 o2 h2).trans
      (sampleStep_registry p last s u l1 o1 h1)

theorem noteOnCase_latch (p : Ports) (q : Nat) (s : Arpeggiator)
    (hlatch : p.latch_mode = 1) (hact : s.active_notes = 0) :
    (noteOnCase p q s).midi_notes
        = findFreeVoice q NUM_VOICES 0 (List.replicate NUM_VOICES 0) ∧
      (noteOnCase p q s).latch_playing = true ∧
      (noteOnCase p q s).previous_latch = s.previous_latch := by
  unfold noteOnCase
  simp only []
  split_ifs with h1 h2 h3
  · exact ⟨rfl, rfl, rfl⟩
  · exact absurd ⟨hact, hlatch⟩ h2
  · exact ⟨rfl, rfl, rfl⟩
  · exact absurd ⟨hact, hlatch⟩ h3

theorem noteOffCase_latch (p : Ports) (q : Nat) (s : Arpeggiator)
    (hlatch : p.latch_mode = 1) :
    (noteOffCase p q s).midi_notes = s.midi_notes ∧
      (noteOffCase p q s).previous_latch = s.previous_latch := by
  unfold noteOffCase
  have : ¬ p.latch_mode = 0 := by rw [hlatch]; simp
  simp only [this, if_false, and_self]

/-! ## The registry invariant -/

theorem set_perm_cons_eraseIdx {α : Type} :
    ∀ (l : List α) (i : Nat) (v : α), i < l.length → (l.set i v).Perm (v :: l.eraseIdx i)
  | [], i, _, h => absurd h (Nat.not_lt_zero i)
  | a :: l, 0, v, _ => by simp
  | a :: l, i + 1, v, h => by
    simp only [List.set_cons_succ, List.eraseIdx_cons_succ]
    have ih := set_perm_cons_eraseIdx l i v (by simpa using h)
    exact (List.Perm.cons a ih).trans (List.Perm.swap v a _)

theorem perm_getD_cons_eraseIdx :
    ∀ (l : List Nat) (i : Nat), i < l.length → l.Perm (l.getD i 0 :: l.eraseIdx i)
  | [], i, h => absurd h (Nat.not_lt_zero i)
  | a :: l, 0, _ => by simp
  | a :: l, i + 1, h => by
    simp only [List.getD_cons_succ, List.eraseIdx_cons_succ]
    have ih := perm_getD_cons_eraseIdx l i (by simpa using h)
    exact (List.Perm.cons a ih).trans (List.Perm.swap _ a _)

theorem exists_first_index (P : Nat → Prop) [DecidablePred P] (n : Nat)
    (h : ∃ i, i < n ∧ P i) : ∃ i, i < n ∧ P i ∧ ∀ j, j < i → ¬ P j := by
  have h' : ∃ i, P i := h.elim fun i hi => ⟨i, hi.2⟩
  refine ⟨Nat.find h', ?_, Nat.find_spec h', fun j hj => Nat.find_min h' hj⟩
  obtain ⟨i, hi, hp⟩ := h
  exact lt_of_le_of_lt (Nat.find_min' h' hp) hi

theorem filter_set_zero_slot (notes : List Nat) (i q : Nat) (hi : i < notes.length)
    (h0 : notes.getD i 0 = 0) (hq : q ≠ 0) :
    ((notes.set i q).filter fun v => v ≠ 0).Perm (q :: notes.filter fun v => v ≠ 0) := by
  have h1 := (set_perm_cons_eraseIdx notes i q hi).filter (fun v => v ≠ 0)
  have h2 := (perm_getD_cons_eraseIdx notes i hi).filter (fun v => v ≠ 0)
  rw [h0] at h2
  simp only [ne_eq, hq, not_false_eq_true, decide_True, List.filter_cons_of_pos] at h1
  simp only [ne_eq, not_true_eq_false, decide_False, Bool.false_eq_true,
    not_false_eq_true, List.filter_cons_of_neg] at h2
  exact h1.trans (List.Perm.cons q h2.symm)

theorem filter_clear_slot (notes : List Nat) (i q : Nat) (hi : i < notes.length)
    (h0 : notes.getD i 0 = q) (hq : q ≠ 0) :
    (q :: (notes.set i 0).filter fun v => v ≠ 0).Perm (notes.filter fun v => v ≠ 0) := by
  have h1 := (set_perm_cons_eraseIdx notes i 0 hi).filter (fun v => v ≠ 0)
  have h2 := (perm_getD_cons_eraseIdx notes i hi).filter (fun v => v ≠ 0)
  rw [h0] at h2
  simp only [ne_eq, hq, not_false_eq_true, decide_True, List.filter_cons_of_pos] at h2
  simp only [ne_eq, not_true_eq_false, decide_False, Bool.false_eq_true,
    not_false_eq_true, List.filter_cons_of_neg] at h1
  exact (List.Perm.cons q h1).trans h2.symm

theorem set_same (notes : List Nat) (i : Nat) (h : notes.getD i 0 = 0) :
    notes.set i 0 = notes := by
  by_cases hi : i < notes.length
  · apply List.ext_getElem (by simp)
    intro n h1 h2
    by_cases e : i = n
    · subst e
      rw [List.getElem_set_self]
      rw [List.getD_eq_getElem _ _ hi] at h
      exact h.symm
    · rw [List.getElem_set_ne e]
  · exact List.set_eq_of_length_le (by omega)

theorem filter_erase_zero (held : List Nat) :
    ((held.erase 0).filter fun v => v ≠ 0) = held.filter fun v => v ≠ 0 := by
  induction held with
  | nil => rfl
  | cons a l ih =>
    by_cases ha : a = 0
    · subst ha; simp
    · rw [List.erase_cons_tail (by simpa using ha)]
      simp only [List.filter_cons, ih]

theorem findFreeVoice_length (q : Nat) :
    ∀ (fuel k : Nat) (notes : List Nat), (findFreeVoice q fuel k notes).length = notes.length
  | 0, _, _ => rfl
  | fuel + 1, k, notes => by
    rw [findFreeVoice]
    split_ifs
    · simp
    · exact findFreeVoice_length q fuel (k + 1) notes

theorem searchNote_length (q : Nat) :
    ∀ (fuel k : Nat) (notes : List Nat), (searchNote q fuel k notes).length = notes.length
  | 0, _, _ => rfl
  | fuel + 1, k, notes => by
    rw [searchNote]
    split_ifs
    · simp
    · exact searchNote_length q fuel (k + 1) notes

theorem noteOnCase_latch_off (p : Ports) (q : Nat) (s : Arpeggiator) (h : p.latch_mode = 0) :
    (noteOnCase p q s).midi_notes = findFreeVoice q NUM_VOICES 0 s.midi_notes ∧
      (noteOnCase p q s).active_notes = (s.active_notes + 1) % SIZE := by
  have hne : ¬ p.latch_mode = 1 := by rw [h]; simp
  unfold noteOnCase
  simp only [hne, and_false, if_false]
  split_ifs <;> exact ⟨rfl, rfl⟩

theorem RegInv_noteOn (p : Ports) (q : Nat) (held : List Nat) (s : Arpeggiator)
    (hl : p.latch_mode = 0) (hI : RegInv held s) (hcap : held.length + 1 ≤ NUM_VOICES) :
    RegInv (q :: held) (noteOnCase p q s) := by
  obtain ⟨ha, hlen, hperm⟩ := hI
  obtain ⟨e1, e2⟩ := noteOnCase_latch_off p q s hl
  refine ⟨?_, ?_, ?_⟩
  · rw [e2, ha, List.length_cons]
    exact Nat.mod_eq_of_lt (by unfold SIZE; unfold NUM_VOICES at hcap; omega)
  · rw [e1, findFreeVoice_length, hlen]
  · rw [e1]
    by_cases hex : ∃ i, i < NUM_VOICES ∧ s.midi_notes.getD i 0 = 0
    · obtain ⟨i, hi, h0, hmin⟩ := exists_first_index _ NUM_VOICES hex
      rw [findFreeVoice_first q NUM_VOICES 0 i s.midi_notes (Nat.zero_le _) (by omega) h0
        (fun j _ hj => hmin j hj)]
      by_cases hq : q = 0
      · subst hq
        rw [set_same _ _ h0]
        simpa using hperm
      · have := filter_set_zero_slot s.midi_notes i q (by omega) h0 hq
        refine this.trans ?_
        simp only [ne_eq, hq, not_false_eq_true, decide_True, List.filter_cons_of_pos]
        exact List.Perm.cons q hperm
    · exfalso
      have hall : ∀ v ∈ s.midi_notes, v ≠ 0 := by
        intro v hv h0
        obtain ⟨i, hi, rfl⟩ := List.getElem_of_mem hv
        exact hex ⟨i, by omega, by rw [List.getD_eq_getElem _ _ hi]; exact h0⟩
      have hf : (s.midi_notes.filter fun v => v ≠ 0) = s.midi_notes :=
        List.filter_eq_self.mpr (fun v hv => by simpa using hall v hv)
      have h1 := hperm.length_eq
      rw [hf, hlen] at h1
      have h2 := List.length_filter_le (fun v => decide (v ≠ 0)) held
      omega

theorem RegInv_noteOff (p : Ports) (q : Nat) (held : List Nat) (s : Arpeggiator)
    (hl : p.latch_mode = 0) (hI : RegInv held s) (hcap : held.length ≤ NUM_VOICES)
    (hq : q ∈ held) :
    RegInv (held.erase q) (noteOffCase p q s) := by
  obtain ⟨ha, hlen, hperm⟩ := hI
  obtain ⟨e1, -⟩ := noteOffCase_latch_off p q s hl
  have hpos : 0 < held.length := List.length_pos_of_mem hq
  refine ⟨?_, ?_, ?_⟩
  · have : (noteOffCase p q s).active_notes = (s.active_notes + SIZE - 1) % SIZE := by
      unfold noteOffCase; simp only [hl, if_true]
    rw [this, ha, List.length_erase_of_mem hq]
    have e : held.length + SIZE - 1 = (held.length - 1) + SIZE := by omega
    rw [e, Nat.add_mod_right]
    exact Nat.mod_eq_of_lt (by unfold SIZE; unfold NUM_VOICES at hcap; omega)
  · rw [e1, searchNote_length, hlen]
  · rw [e1]
    by_cases hq0 : q = 0
    · subst hq0
      rw [filter_erase_zero]
      by_cases hex : ∃ i, i < NUM_VOICES ∧ s.midi_notes.getD i 0 = 0
      · obtain ⟨i, hi, h0, hmin⟩ := exists_first_index _ NUM_VOICES hex
        rw [searchNote_first 0 NUM_VOICES 0 i s.midi_notes (Nat.zero_le _) (by omega) h0
          (fun j _ hj => hmin j hj), set_same _ _ h0]
        exact hperm
      · rw [searchNote_none 0 NUM_VOICES 0 s.midi_notes
          (fun j _ hj h0 => hex ⟨j, by omega, h0⟩)]
        exact hperm
    · have hmem : q ∈ s.midi_notes := by
        have : q ∈ held.filter fun v => v ≠ 0 := List.mem_filter.mpr ⟨hq, by simpa using hq0⟩
        exact (List.mem_filter.mp (hperm.symm.subset this)).1
      have hex : ∃ i, i < NUM_VOICES ∧ s.midi_notes.getD i 0 = q := by
        obtain ⟨i, hi, hv⟩ := List.getElem_of_mem hmem
        exact ⟨i, by omega, by rw [List.getD_eq_getElem _ _ hi]; exact hv⟩
      obtain ⟨i, hi, h0, hmin⟩ := exists_first_index _ NUM_VOICES hex
      rw [searchNote_first q NUM_VOICES 0 i s.midi_notes (Nat.zero_le _) (by omega) h0
        (fun j _ hj => hmin j hj)]
      have h1 := filter_clear_slot s.midi_notes i q (by omega) h0 hq0
      have h2 := (List.perm_cons_erase hq).filter (fun v => v ≠ 0)
      simp only [ne_eq, hq0, not_false_eq_true, decide_True, List.filter_cons_of_pos] at h2
      exact List.Perm.cons_inv (h1.trans (hperm.trans h2))

theorem RegInv_step (p : Ports) (held : List Nat) (s : Arpeggiator) (ev : InEvent)
    (hl : p.latch_mode = 0) (hI : RegInv held s)
    (hoff : ev.is_midi = true → ev.msg.status &&& 0xF0 = LV2_MIDI_MSG_NOTE_OFF →
      ev.msg.note % U8 ∈ held)
    (hcap0 : held.length ≤ NUM_VOICES)
    (hcap : (heldAfter held ev).length ≤ NUM_VOICES) :
    RegInv (heldAfter held ev) (midiInEvent p s ev) := by
  unfold heldAfter at hcap ⊢
  unfold midiInEvent
  simp only []
  by_cases hm : ev.is_midi = true
  · simp only [hm, if_true] at hcap ⊢
    by_cases h1 : ev.msg.status &&& 0xF0 = LV2_MIDI_MSG_NOTE_ON
    · simp only [h1, if_true] at hcap ⊢
      exact RegInv_noteOn p _ held s hl hI (by simpa using hcap)
    · simp only [h1, if_false] at hcap ⊢
      by_cases h2 : ev.msg.status &&& 0xF0 = LV2_MIDI_MSG_NOTE_OFF
      · simp only [h2, if_true] at hcap ⊢
        exact RegInv_noteOff p _ held s hl hI hcap0 (hoff hm h2)
      · simp only [h2, if_false]
        exact hI
  · simp only [hm]
    exact hI

theorem RegInv_le (held : List Nat) (s : Arpeggiator) (h : RegInv held s) :
    nonEmptySlots s.midi_notes ≤ s.active_notes := by
  obtain ⟨ha, -, hperm⟩ := h
  unfold nonEmptySlots
  rw [hperm.length_eq, ha]
  exact List.length_filter_le _ held

theorem RegInv_after_events (p : Ports) (hl : p.latch_mode = 0) :
    ∀ (pre post : List InEvent) (held : List Nat) (s : Arpeggiator),
      RegInv held s → held.length ≤ NUM_VOICES → Matched held (pre ++ post) →
      ∃ held2, RegInv held2 (pre.foldl (midiInEvent p) s)
  | [], _, held, s, hI, _, _ => ⟨held, hI⟩
  | ev :: pre, post, held, s, hI, hcap, hM => by
    obtain ⟨h1, h2, h3⟩ := hM
    exact RegInv_after_events p hl pre post (heldAfter held ev) (midiInEvent p s ev)
      (RegInv_step p held s ev hl hI h1 hcap h2) h2 h3

/-! ## The reset of the cursors by a note-on -/

theorem upView_eq (s t : Arpeggiator) (h : upView s = upView t) :
    s.midi_notes = t.midi_notes ∧ s.note_played = t.note_played ∧
    s.pattern_index = t.pattern_index ∧ s.octave_index = t.octave_index ∧
    s.previousOctaveMode = t.previousOctaveMode := by
  simpa only [upView, Prod.mk.injEq] using h

theorem advanceCursor_upView (p : Ports) (l1 l2 : Int) (s t : Arpeggiator)
    (hmode : p.arp_mode = 0) (h : upView s = upView t) :
    upView (advanceCursor p l1 s) = upView (advanceCursor p l2 t) := by
  obtain ⟨h1, h2, h3, h4, h5⟩ := upView_eq s t h
  unfold advanceCursor
  simp only [hmode, if_true, upView, h1, h2, h3, h4, h5]

theorem octaveHandler_upView (p : Ports) (s t : Arpeggiator)
    (hoct : toInt p.octaveModeParam = 0) (h : upView s = upView t) :
    (octaveHandler p s).map (fun r => (r.1, upView r.2))
      = (octaveHandler p t).map (fun r => (r.1, upView r.2)) := by
  obtain ⟨h1, h2, h3, h4, h5⟩ := upView_eq s t h
  unfold octaveHandler octaveModeChange octaveAdvance cMod
  simp only [hoct, h2, h5, if_true]
  by_cases hp : (0 : Int) ≠ t.previousOctaveMode <;>
  by_cases hs0 : toInt p.octaveSpreadParam = 0 <;>
  by_cases hs1 : p.octaveSpreadParam > 1 <;>
  simp [hp, hs0, hs1, upView, h1, h2, h3, h4, h5]

theorem emitNoteOn_upView (p : Ports) (slot : Nat) (s t : Arpeggiator)
    (hoct : toInt p.octaveModeParam = 0) (h : upView s = upView t) :
    (emitNoteOn p slot s).map (fun r => (upView r.1, r.2.1, r.2.2))
      = (emitNoteOn p slot t).map (fun r => (upView r.1, r.2.1, r.2.2)) := by
  have ho := octaveHandler_upView p s t hoct h
  unfold emitNoteOn
  cases hs : octaveHandler p s with
  | none =>
    cases ht : octaveHandler p t with
    | none => rfl
    | some b => rw [hs, ht] at ho; simp at ho
  | some a =>
    cases ht : octaveHandler p t with
    | none => rw [hs, ht] at ho; simp at ho
    | some b =>
      obtain ⟨oct, s1⟩ := a
      obtain ⟨oct2, t1⟩ := b
      rw [hs, ht] at ho
      simp only [Option.map_some', Option.some.injEq, Prod.mk.injEq] at ho
      obtain ⟨rfl, hv⟩ := ho
      obtain ⟨h1, h2, h3, h4, h5⟩ := upView_eq s1 t1 hv
      simp only [Option.some_bind, h3]
      cases velocity_pattern p t1.pattern_index with
      | none => rfl
      | some v =>
        simp only [Option.some_bind]
        split_ifs
        · rfl
        · simp only [Option.map_some', upView, h1, h2, h3, h4, h5]

theorem handleNoteOnLoop_upView (p : Ports) (hmode : p.arp_mode = 0)
    (hoct : toInt p.octaveModeParam = 0) :
    ∀ (fuel : Nat) (l1 l2 : Int) (s t : Arpeggiator), upView s = upView t →
      (handleNoteOnLoop p fuel l1 s).map (fun r => (upView r.1, r.2.2))
        = (handleNoteOnLoop p fuel l2 t).map (fun r => (upView r.1, r.2.2))
  | 0, l1, l2, s, t, h => by
    simp only [handleNoteOnLoop, Option.map_some', h]
  | fuel + 1, l1, l2, s, t, h => by
    obtain ⟨h1, h2, h3, h4, h5⟩ := upView_eq s t h
    rw [handleNoteOnLoop, handleNoteOnLoop, h1, h2]
    cases readNote t.midi_notes t.note_played with
    | none => rfl
    | some slot =>
      simp only [Option.some_bind]
      split_ifs
      · have he := emitNoteOn_upView p slot s t hoct h
        cases hs : emitNoteOn p slot s with
        | none =>
          cases ht : emitNoteOn p slot t with
          | none => rfl
          | some b => rw [hs, ht] at he; simp at he
        | some a =>
          cases ht : emitNoteOn p slot t with
          | none => rw [hs, ht] at he; simp at he
          | some b =>
            obtain ⟨s3, la, ma⟩ := a
            obtain ⟨t3, lb, mb⟩ := b
            rw [hs, ht] at he
            simp only [Option.map_some', Option.some.injEq, Prod.mk.injEq] at he
            obtain ⟨hv, -, rfl⟩ := he
            simp only [Option.some_bind, Option.map_some', Option.some.injEq,
              Prod.mk.injEq, and_true]
            exact advanceCursor_upView p la lb s3 t3 hmode hv
      · exact handleNoteOnLoop_upView p hmode hoct fuel l1 l2 _ _
          (advanceCursor_upView p l1 l2 s t hmode h)

theorem triggers_upView (p : Ports) (hmode : p.arp_mode = 0)
    (hoct : toInt p.octaveModeParam = 0) :
    ∀ (n : Nat) (l1 l2 : Int) (s t : Arpeggiator), upView s = upView t →
      (triggers p n l1 s).map (fun r => r.2.2) = (triggers p n l2 t).map (fun r => r.2.2)
  | 0, l1, l2, s, t, _ => rfl
  | n + 1, l1, l2, s, t, h => by
    have hl := handleNoteOnLoop_upView p hmode hoct NUM_VOICES l1 l2 s t h
    rw [triggers, triggers]
    unfold handleNoteOn
    cases hs : handleNoteOnLoop p NUM_VOICES l1 s with
    | none =>
      cases ht : handleNoteOnLoop p NUM_VOICES l2 t with
      | none => rfl
      | some b => rw [hs, ht] at hl; simp at hl
    | some a =>
      cases ht : handleNoteOnLoop p NUM_VOICES l2 t with
      | none => rw [hs, ht] at hl; simp at hl
      | some b =>
        obtain ⟨s3, la, oa⟩ := a
        obtain ⟨t3, lb, ob⟩ := b
        rw [hs, ht] at hl
        simp only [Option.map_some', Option.some.injEq, Prod.mk.injEq] at hl
        obtain ⟨hv, rfl⟩ := hl
        have ih := triggers_upView p hmode hoct n la lb s3 t3 hv
        simp only [Option.some_bind]
        cases h1 : triggers p n la s3 with
        | none =>
          cases h2 : triggers p n lb t3 with
          | none => rfl
          | some b => rw [h1, h2] at ih; simp at ih
        | some a =>
          cases h2 : triggers p n lb t3 with
          | none => rw [h1, h2] at ih; simp at ih
          | some b =>
            rw [h1, h2] at ih
            simp only [Option.map_some', Option.some.injEq] at ih
            simp only [Option.some_bind, Option.map_some', ih]

theorem noteOnCase_reset (p : Ports) (q : Nat) (self : Arpeggiator)
    (hact : self.active_notes = 0) (hsync : p.sync = 0) (hlp : self.latch_playing = false) :
    (noteOnCase p q self).pos = 0 ∧ (noteOnCase p q self).octave_index = 0 ∧
    (noteOnCase p q self).pattern_index = 0 ∧ (noteOnCase p q self).note_played = 0 ∧
    (noteOnCase p q self).triggered = false ∧
    (noteOnCase p q self).previousOctaveMode = self.previousOctaveMode := by
  unfold noteOnCase
  simp only [hact, hsync, hlp, and_self, if_true, true_and]
  split_ifs <;> exact ⟨rfl, rfl, rfl, rfl, rfl, rfl⟩

/-! ## The velocity sequencer -/

theorem handleNoteOn_velocity (p : Ports) (L : Nat) (last : Int) (s t : Arpeggiator) (l : Int)
    (out : List LV2_Atom_MIDI)
    (hL : toInt p.velocityPatternLengthParam = L) (hL1 : 1 ≤ L) (hL8 : L ≤ 8)
    (hpi : s.pattern_index < L)
    (h : handleNoteOn p last s = some (t, l, out)) :
    (out = [] ∧ t.pattern_index = s.pattern_index) ∨
    (∃ m, out = [m] ∧
      m.velocity = toU8 ((velocity_pattern p s.pattern_index).getD 0) ∧
      t.pattern_index = (s.pattern_index + 1) % L) := by
  obtain ⟨-, hc⟩ := handleNoteOn_cases p last s t l out h
  rcases hc with ⟨h1, -, h3⟩ | ⟨i, oct, v, -, -, hv, hout, hp, -, -⟩
  · exact Or.inl ⟨h1, congrArg (fun x => x.2.2.1) h3⟩
  · refine Or.inr ⟨_, hout, ?_, ?_⟩
    · rw [hv]; rfl
    · obtain ⟨e, -, -⟩ := intToSize_of_small (n := toInt p.velocityPatternLengthParam)
        (by omega) (by omega)
      rw [hp, e, hL, Int.toNat_natCast, Nat.mod_eq_of_lt (a := s.pattern_index + 1)]
      unfold SIZE; omega

theorem triggers_velocity (p : Ports) (L : Nat)
    (hL : toInt p.velocityPatternLengthParam = L) (hL1 : 1 ≤ L) (hL8 : L ≤ 8) :
    ∀ (n : Nat) (last : Int) (s t : Arpeggiator) (l : Int) (out : List LV2_Atom_MIDI),
      s.pattern_index < L → triggers p n last s = some (t, l, out) →
      out.map (fun m => m.velocity)
        = (List.range out.length).map
            (fun i => toU8 ((velocity_pattern p ((s.pattern_index + i) % L)).getD 0)) ∧
      t.pattern_index = (s.pattern_index + out.length) % L
  | 0, last, s, t, l, out, hpi, h => by
    simp only [triggers, Option.some.injEq, Prod.mk.injEq] at h
    obtain ⟨rfl, -, rfl⟩ := h
    exact ⟨rfl, (Nat.mod_eq_of_lt hpi).symm⟩
  | n + 1, last, s, t, l, out, hpi, h => by
    rw [triggers] at h
    simp only [Option.bind_eq_some] at h
    obtain ⟨⟨s1, l1, o1⟩, h1, ⟨t2, l2, o2⟩, h2, h3⟩ := h
    simp only [Option.some.injEq, Prod.mk.injEq] at h3
    obtain ⟨rfl, -, rfl⟩ := h3
    rcases handleNoteOn_velocity p L last s s1 l1 o1 hL hL1 hL8 hpi h1 with
      ⟨rfl, hp⟩ | ⟨m, rfl, hm, hp⟩
    · have ih := triggers_velocity p L hL hL1 hL8 n l1 s1 t2 l2 o2 (by rw [hp]; exact hpi) h2
      rw [hp] at ih
      simpa using ih
    · have hlt : s1.pattern_index < L := by rw [hp]; exact Nat.mod_lt _ (by omega)
      obtain ⟨ih1, ih2⟩ := triggers_velocity p L hL hL1 hL8 n l1 s1 t2 l2 o2 hlt h2
      have e : ∀ i, ((s.pattern_index + 1) % L + i) % L = (s.pattern_index + (i + 1)) % L := by
        intro i
        rw [Nat.mod_add_mod]; congr 1; omega
      constructor
      · simp only [List.singleton_append, List.map_cons, List.length_cons]
        rw [List.range_succ_eq_map, List.map_cons, List.map_map, ih1, hm, hp]
        congr 1
        · rw [Nat.add_zero, Nat.mod_eq_of_lt hpi]
        · apply List.map_congr_left
          intro i _
          simp only [Function.comp, e]
      · rw [ih2, hp, e]
        simp

theorem residue_count (L j : Nat) (hL1 : 1 ≤ L) (hj : j < L) :
    ((List.range (10 * L)).filter fun i => i % L = j).length = 10 := by
  have h := Nat.count_modEq_card (b := 10 * L) (r := L) (by omega) j
  rw [Nat.mul_mod_left, if_neg (Nat.not_lt_zero _), Nat.add_zero,
    Nat.mul_div_cancel _ (by omega : 0 < L)] at h
  have e : ((List.range (10 * L)).filter fun i => i % L = j)
      = (List.range (10 * L)).filter fun i => i ≡ j [MOD L] := by
    apply List.filter_congr
    intro i _
    simp only [Nat.ModEq, Nat.mod_eq_of_lt hj]
  rw [e, ← List.countP_eq_length_filter]
  exact h

theorem handleNoteOn_up_emits (p : Ports) (last : Int) (s : Arpeggiator) (c i : Nat)
    (hmode : p.arp_mode = 0) (hs : 1 ≤ toInt p.octaveSpreadParam)
    (hv1 : 1 ≤ toInt p.velocityPatternLengthParam)
    (hv8 : toInt p.velocityPatternLengthParam ≤ 8)
    (hc : s.note_played = c) (hc16 : c < NUM_VOICES) (hpi : s.pattern_index < 8)
    (hi : i < NUM_VOICES) (hpop : populated (s.midi_notes.getD i 0)) :
    ∃ t l m c2, handleNoteOn p last s = some (t, l, [m]) ∧ t.midi_notes = s.midi_notes ∧
      t.note_played = ((c2 : Nat) : Int) ∧ c2 < NUM_VOICES ∧ t.pattern_index < 8 := by
  have hex : ∃ k, k < NUM_VOICES ∧ populated (s.midi_notes.getD ((c + k) % NUM_VOICES) 0) := by
    refine ⟨(i + NUM_VOICES - c) % NUM_VOICES, Nat.mod_lt _ (by decide), ?_⟩
    have : (c + (i + NUM_VOICES - c) % NUM_VOICES) % NUM_VOICES = i := by
      unfold NUM_VOICES at *; omega
    rw [this]; exact hpop
  obtain ⟨k, hk, hp, hmin⟩ := exists_first_index _ NUM_VOICES hex
  obtain ⟨oct, s1, v, ho, -, hh⟩ :=
    handleNoteOn_up_found p last s c k hmode hc hc16 hk hmin hp hs hv1 hv8 hpi
  have hf := octaveHandler_frame p _ _ _ hs ho
  refine ⟨_, _, _, ((c + k) % NUM_VOICES + 1) % NUM_VOICES, hh, ?_, rfl,
    Nat.mod_lt _ (by decide), ?_⟩
  · show s1.midi_notes = s.midi_notes
    rw [hf]
  · show (s.pattern_index + 1) % (toInt p.velocityPatternLengthParam).toNat < 8
    exact lt_of_lt_of_le (Nat.mod_lt _ (by omega)) (by omega)

theorem triggers_up_total (p : Ports) (i : Nat)
    (hmode : p.arp_mode = 0) (hs : 1 ≤ toInt p.octaveSpreadParam)
    (hv1 : 1 ≤ toInt p.velocityPatternLengthParam)
    (hv8 : toInt p.velocityPatternLengthParam ≤ 8) (hi : i < NUM_VOICES) :
    ∀ (n : Nat) (last : Int) (s : Arpeggiator) (c : Nat), s.note_played = c →
      c < NUM_VOICES → s.pattern_index < 8 → populated (s.midi_notes.getD i 0) →
      ∃ t l out, triggers p n last s = some (t, l, out) ∧ out.length = n
  | 0, last, s, _, _, _, _, _ => ⟨s, last, [], rfl, rfl⟩
  | n + 1, last, s, c, hc, hc16, hpi, hpop => by
    obtain ⟨t, l, m, c2, h1, hm, hc2, hc2lt, hpi2⟩ :=
      handleNoteOn_up_emits p last s c i hmode hs hv1 hv8 hc hc16 hpi hi hpop
    obtain ⟨u, l2, out, h2, hlen⟩ := triggers_up_total p i hmode hs hv1 hv8 hi n l t c2 hc2
      hc2lt hpi2 (by rw [hm]; exact hpop)
    refine ⟨u, l2, m :: out, ?_, by simp [hlen]⟩
    rw [triggers, h1]
    simp only [Option.some_bind, h2, List.singleton_append]

theorem toU8_lt (x : ℚ) : toU8 x < 256 := by
  unfold toU8 U8
  have h : ((2 ^ 8 : Nat) : Int) = 256 := by norm_num
  rw [h]
  omega

theorem toU8_eq (x : ℚ) : toU8 x = (Int.tdiv x.num (x.den : Int) % 256).toNat := by
  unfold toU8 toInt U8
  have h : ((2 ^ 8 : Nat) : Int) = 256 := by norm_num
  rw [h]

theorem velocity_pattern_getD (p : Ports) (i : Nat) :
    (velocity_pattern p i).getD 0
      = [p.patternVel1Param, p.patternVel2Param, p.patternVel3Param, p.patternVel4Param,
          p.patternVel5Param, p.patternVel6Param, p.patternVel7Param,
          p.patternVel8Param].getD i 0 := by
  unfold velocity_pattern
  simp [List.getD_eq_getElem?_getD]

/-! ## The octave modulator -/

theorem le_of_le_toInt {x : ℚ} {n : Nat} (hn : 1 ≤ n) (h : (n : Int) ≤ toInt x) :
    (n : ℚ) ≤ x := by
  rcases le_or_lt 0 x with h0 | h0
  · rw [toInt_of_nonneg h0] at h
    exact_mod_cast (Int.le_floor.mp h)
  · have := toInt_nonpos h0.le
    omega

theorem spread_gt_one (p : Ports) (h : 2 ≤ toInt p.octaveSpreadParam) :
    p.octaveSpreadParam > 1 := by
  have := le_of_le_toInt (x := p.octaveSpreadParam) (n := 2) (by decide) (by exact_mod_cast h)
  have h2 : ((2 : Nat) : ℚ) = 2 := by norm_num
  rw [h2] at this
  linarith

theorem octaveHandler_same_mode (p : Ports) (s : Arpeggiator)
    (h : s.previousOctaveMode = toInt p.octaveModeParam) :
    octaveHandler p s = octaveAdvance p s := by
  unfold octaveHandler octaveModeChange
  simp only [h, ne_eq, not_true_eq_false, if_false, Option.some_bind]

theorem octaveAdvance_bounce_up (p : Ports) (s : Arpeggiator) (S : Int)
    (hS : toInt p.octaveSpreadParam = S) (h2 : 2 ≤ S)
    (hm : toInt p.octaveModeParam = 2 ∨ toInt p.octaveModeParam = 3)
    (hu : s.octave_up = true) (h0 : 0 ≤ s.octave_index) (h1 : s.octave_index + 1 < S) :
    octaveAdvance p s = some (intToU8 (12 * s.octave_index),
      { s with octave_index := s.octave_index + 1,
               octave_up := if s.octave_index + 1 ≥ S - 1 then false else true }) := by
  have hgt := spread_gt_one p (by rw [hS]; exact h2)
  have hS0 : S ≠ 0 := by omega
  have hmod : (s.octave_index + 1).tmod S = s.octave_index + 1 :=
    Int.tmod_eq_of_lt (by omega) (by omega)
  rcases hm with hm | hm <;>
    simp [octaveAdvance, cMod, hgt, hm, hu, hS, hS0, hmod]

theorem octaveAdvance_bounce_down (p : Ports) (s : Arpeggiator) (S : Int)
    (hS : toInt p.octaveSpreadParam = S) (h2 : 2 ≤ S)
    (hm : toInt p.octaveModeParam = 2 ∨ toInt p.octaveModeParam = 3)
    (hu : s.octave_up = false) :
    octaveAdvance p s = some (intToU8 (12 * s.octave_index),
      { s with octave_index := s.octave_index - 1,
               octave_up := if s.octave_index - 1 ≤ 0 then true else false }) := by
  have hgt := spread_gt_one p (by rw [hS]; exact h2)
  rcases hm with hm | hm <;>
    simp [octaveAdvance, cMod, hgt, hm, hu, hS]

theorem bounce_step (p : Ports) (s : Arpeggiator) (S : Int)
    (hS : toInt p.octaveSpreadParam = S) (h2 : 2 ≤ S)
    (hm : toInt p.octaveModeParam = 2 ∨ toInt p.octaveModeParam = 3)
    (hprev : s.previousOctaveMode = toInt p.octaveModeParam)
    (hI : BounceInv S s) :
    ∃ t, octaveHandler p s = some (intToU8 (12 * s.octave_index), t) ∧
      0 ≤ s.octave_index ∧ s.octave_index ≤ S - 1 ∧
      BounceInv S t ∧ t.previousOctaveMode = toInt p.octaveModeParam ∧
      FlipsAtBoundary S s t ∧
      (t.octave_index, t.octave_up) = bounceNext S (s.octave_index, s.octave_up) := by
  rw [octaveHandler_same_mode p s hprev]
  rcases hI with ⟨hu, h0, h1⟩ | ⟨hu, h0, h1⟩
  · rw [octaveAdvance_bounce_up p s S hS h2 hm hu h0 (by omega)]
    refine ⟨_, rfl, h0, by omega, ?_, hprev, ?_, by simp only [bounceNext, hu, if_true]⟩
    · by_cases hc : s.octave_index + 1 ≥ S - 1
      · right
        refine ⟨?_, ?_, ?_⟩
        · show (if s.octave_index + 1 ≥ S - 1 then false else true) = false
          rw [if_pos hc]
        · show 1 ≤ s.octave_index + 1
          omega
        · show s.octave_index + 1 ≤ S - 1
          omega
      · left
        refine ⟨?_, ?_, ?_⟩
        · show (if s.octave_index + 1 ≥ S - 1 then false else true) = true
          rw [if_neg hc]
        · show 0 ≤ s.octave_index + 1
          omega
        · show s.octave_index + 1 ≤ S - 2
          omega
    · show (if s.octave_index + 1 ≥ S - 1 then false else true) ≠ s.octave_up ↔
        (s.octave_index + 1 = 0 ∨ s.octave_index + 1 = S - 1)
      rw [hu]
      by_cases hc : s.octave_index + 1 ≥ S - 1
      · rw [if_pos hc]
        exact ⟨fun _ => Or.inr (by omega), fun _ => by decide⟩
      · rw [if_neg hc]
        exact ⟨fun h => absurd rfl h, fun h => by omega⟩
  · rw [octaveAdvance_bounce_down p s S hS h2 hm hu]
    refine ⟨_, rfl, by omega, h1, ?_, hprev, ?_, by simp [bounceNext, hu]⟩
    · by_cases hc : s.octave_index - 1 ≤ 0
      · left
        refine ⟨?_, ?_, ?_⟩
        · show (if s.octave_index - 1 ≤ 0 then true else false) = true
          rw [if_pos hc]
        · show 0 ≤ s.octave_index - 1
          omega
        · show s.octave_index - 1 ≤ S - 2
          omega
      · right
        refine ⟨?_, ?_, ?_⟩
        · show (if s.octave_index - 1 ≤ 0 then true else false) = false
          rw [if_neg hc]
        · show 1 ≤ s.octave_index - 1
          omega
        · show s.octave_index - 1 ≤ S - 1
          omega
    · show (if s.octave_index - 1 ≤ 0 then true else false) ≠ s.octave_up ↔
        (s.octave_index - 1 = 0 ∨ s.octave_index - 1 = S - 1)
      rw [hu]
      by_cases hc : s.octave_index - 1 ≤ 0
      · rw [if_pos hc]
        exact ⟨fun _ => Or.inl (by omega), fun _ => by decide⟩
      · rw [if_neg hc]
        exact ⟨fun h => absurd rfl h, fun h => by omega⟩

theorem octaveTrace_bounce (p : Ports) (S : Int)
    (hS : toInt p.octaveSpreadParam = S) (h2 : 2 ≤ S)
    (hm : toInt p.octaveModeParam = 2 ∨ toInt p.octaveModeParam = 3) :
    ∀ (cs : List Int) (s : Arpeggiator),
      s.previousOctaveMode = toInt p.octaveModeParam → BounceInv S s →
      ∃ tr, octaveTrace p cs s = some tr ∧
        (∀ x ∈ tr, ∃ k : Int, 0 ≤ k ∧ k ≤ S - 1 ∧ x.1 = intToU8 (12 * k)) ∧
        (∀ x ∈ tr, 0 ≤ x.2.octave_index ∧ x.2.octave_index ≤ S - 1) ∧
        List.Chain (FlipsAtBoundary S) s (tr.map Prod.snd) ∧
        tr.map (fun x => (x.1, x.2.octave_index, x.2.octave_up))
          = bounceModel S cs.length (s.octave_index, s.octave_up)
  | [], s, _, _ => ⟨[], rfl, by simp, by simp, List.Chain.nil, rfl⟩
  | c :: cs, s, hprev, hI => by
    obtain ⟨t, h1, h3, h4, h5, h6, h7, h8⟩ :=
      bounce_step p { s with note_played := c } S hS h2 hm hprev hI
    obtain ⟨tr, g1, g2, g3, g4, g5⟩ := octaveTrace_bounce p S hS h2 hm cs t h6 h5
    have hr : 0 ≤ t.octave_index ∧ t.octave_index ≤ S - 1 := by
      rcases h5 with ⟨-, a, b⟩ | ⟨-, a, b⟩ <;> exact ⟨by omega, by omega⟩
    refine ⟨(intToU8 (12 * s.octave_index), t) :: tr, ?_, ?_, ?_, ?_, ?_⟩
    · rw [octaveTrace, h1]
      simp only [Option.some_bind, g1]
    · intro x hx
      rcases List.mem_cons.mp hx with rfl | hx
      · exact ⟨s.octave_index, h3, h4, rfl⟩
      · exact g2 x hx
    · intro x hx
      rcases List.mem_cons.mp hx with rfl | hx
      · exact hr
      · exact g3 x hx
    · rw [List.map_cons]
      exact List.Chain.cons h7 g4
    · rw [List.map_cons, g5, List.length_cons, bounceModel]
      have h8' : (t.octave_index, t.octave_up) = bounceNext S (s.octave_index, s.octave_up) := h8
      rw [← h8']

theorem octaveHandler_select_mode2 (p : Ports) (s : Arpeggiator) (S : Int)
    (hS : toInt p.octaveSpreadParam = S) (h2 : 2 ≤ S)
    (hm : toInt p.octaveModeParam = 2)
    (hc : s.note_played = 0) (hup : s.octave_up = false) (hprev : s.previousOctaveMode ≠ 2) :
    ∃ t, octaveHandler p s = some (0, t) ∧ BounceInv S t ∧ t.previousOctaveMode = 2 ∧
      (t.octave_index, t.octave_up) = bounceNext S (0, true) := by
  have hgt := spread_gt_one p (by rw [hS]; exact h2)
  have h4 : toInt (p.octaveSpreadParam * 2) ≠ 0 := by
    have h1 : ((2 : Nat) : ℚ) ≤ p.octaveSpreadParam * 2 := by push_cast; linarith
    have := le_toInt_of_le h1
    omega
  have hne : (2 : Int) ≠ s.previousOctaveMode := fun h => hprev h.symm
  have hS' : ¬ (0 > S) := by omega
  have e : octaveModeChange p s =
      some { s with octave_index := 0, octave_up := true, previousOctaveMode := 2 } := by
    simp [octaveModeChange, cMod, hm, hne, hc, h4, hS, hS', hup]
  unfold octaveHandler
  rw [e, Option.some_bind,
    octaveAdvance_bounce_up p _ S hS h2 (Or.inl hm) rfl (le_refl _) (by show (0 : Int) + 1 < S; omega)]
  refine ⟨_, rfl, ?_, rfl, by simp [bounceNext]⟩
  by_cases hc2 : (0 : Int) + 1 ≥ S - 1
  · right
    exact ⟨by show (if (0 : Int) + 1 ≥ S - 1 then false else true) = false; rw [if_pos hc2],
      by show (1 : Int) ≤ 0 + 1; omega, by show (0 : Int) + 1 ≤ S - 1; omega⟩
  · left
    exact ⟨by show (if (0 : Int) + 1 ≥ S - 1 then false else true) = true; rw [if_neg hc2],
      by show (0 : Int) ≤ 0 + 1; omega, by show (0 : Int) + 1 ≤ S - 2; omega⟩

theorem octaveHandler_select_mode3 (p : Ports) (s : Arpeggiator) (S : Int)
    (hS : toInt p.octaveSpreadParam = S) (h2 : 2 ≤ S)
    (hm : toInt p.octaveModeParam = 3)
    (hup : s.octave_up = false) (hprev : s.previousOctaveMode ≠ 3) :
    ∃ t, octaveHandler p s = some (intToU8 (12 * S), t) ∧ BounceInv S t ∧
      t.previousOctaveMode = 3 := by
  have hgt := spread_gt_one p (by rw [hS]; exact h2)
  have hne : (3 : Int) ≠ s.previousOctaveMode := fun h => hprev h.symm
  have hS0 : S ≠ 0 := by omega
  have hmod : (S + 1).tmod S = 1 := by
    rw [Int.tmod_eq_emod (by omega) (by omega)]
    rw [Int.add_emod_self_left]
    exact Int.emod_eq_of_lt (by omega) (by omega)
  have e : octaveModeChange p s =
      some { s with octave_index := S, octave_up := true, previousOctaveMode := 3 } := by
    simp [octaveModeChange, hm, hne, hS, hup]
  have e2 : octaveAdvance p
      { s with octave_index := S, octave_up := true, previousOctaveMode := 3 } =
      some (intToU8 (12 * S),
        { s with octave_index := 1,
                 octave_up := if (1 : Int) ≥ S - 1 then false else true,
                 previousOctaveMode := 3 }) := by
    simp [octaveAdvance, cMod, hgt, hm, hS, hS0, hmod]
  unfold octaveHandler
  rw [e, Option.some_bind, e2]
  refine ⟨_, rfl, ?_, rfl⟩
  by_cases hc2 : (1 : Int) ≥ S - 1
  · right
    exact ⟨by show (if (1 : Int) ≥ S - 1 then false else true) = false; rw [if_pos hc2],
      by show (1 : Int) ≤ 1; omega, by show (1 : Int) ≤ S - 1; omega⟩
  · left
    exact ⟨by show (if (1 : Int) ≥ S - 1 then false else true) = true; rw [if_neg hc2],
      by show (0 : Int) ≤ 1; omega, by show (1 : Int) ≤ S - 2; omega⟩

theorem intToU8_of_small (k : Int) (h0 : 0 ≤ k) (h1 : k ≤ 21) :
    intToU8 (12 * k) = 12 * k.toNat := by
  unfold intToU8 U8
  have : ((2 ^ 8 : Nat) : Int) = 256 := by norm_num
  rw [this]
  omega

theorem octaveAdvance_ascending (p : Ports) (s : Arpeggiator) (S : Int)
    (hS : toInt p.octaveSpreadParam = S) (h2 : 2 ≤ S)
    (hm : toInt p.octaveModeParam = 0) (h0 : 0 ≤ s.octave_index) :
    octaveAdvance p s = some (intToU8 (12 * s.octave_index),
      { s with octave_index := (s.octave_index + 1) % S }) := by
  have hgt := spread_gt_one p (by rw [hS]; exact h2)
  have hS0 : S ≠ 0 := by omega
  have hmod : (s.octave_index + 1).tmod S = (s.octave_index + 1) % S :=
    Int.tmod_eq_emod (by omega) (by omega)
  simp [octaveAdvance, cMod, hgt, hm, hS, hS0, hmod]

theorem octaveTrace_ascending (p : Ports) (S : Int)
    (hS : toInt p.octaveSpreadParam = S) (h2 : 2 ≤ S)
    (hm : toInt p.octaveModeParam = 0) :
    ∀ (cs : List Int) (s : Arpeggiator),
      s.previousOctaveMode = 0 → 0 ≤ s.octave_index → s.octave_index < S →
      ∃ tr, octaveTrace p cs s = some tr ∧
        tr.map Prod.fst = (List.range cs.length).map
          (fun (j : Nat) => intToU8 (12 * ((s.octave_index + (j : Int)) % S))) ∧
        ((tr.map Prod.snd).getLastD s).octave_index
          = (s.octave_index + (cs.length : Int)) % S
  | [], s, _, h0, h1 => ⟨[], rfl, rfl, by
      show s.octave_index = (s.octave_index + 0) % S
      rw [add_zero, Int.emod_eq_of_lt h0 h1]⟩
  | c :: cs, s, hprev, h0, h1 => by
    have e := octaveAdvance_ascending p { s with note_played := c } S hS h2 hm h0
    have e0 := octaveHandler_same_mode p { s with note_played := c }
      (show s.previousOctaveMode = toInt p.octaveModeParam by rw [hprev, hm])
    obtain ⟨tr, g1, g2, g3⟩ := octaveTrace_ascending p S hS h2 hm cs
      { s with note_played := c, octave_index := (s.octave_index + 1) % S } hprev
      (Int.emod_nonneg _ (by omega)) (Int.emod_lt_of_pos _ (by omega))
    refine ⟨(intToU8 (12 * s.octave_index),
      { s with note_played := c, octave_index := (s.octave_index + 1) % S }) :: tr, ?_, ?_, ?_⟩
    · rw [octaveTrace, e0, e]
      simp only [Option.some_bind, g1]
    · rw [List.map_cons, g2, List.length_cons, List.range_succ_eq_map, List.map_cons,
        List.map_map]
      congr 1
      · show intToU8 (12 * s.octave_index) = intToU8 (12 * ((s.octave_index + ((0 : Nat) : Int)) % S))
        rw [Nat.cast_zero, add_zero, Int.emod_eq_of_lt h0 h1]
      · apply List.map_congr_left
        intro j _
        show intToU8 (12 * (((s.octave_index + 1) % S + (j : Int)) % S))
          = intToU8 (12 * ((s.octave_index + ((j + 1 : Nat) : Int)) % S))
        rw [Int.emod_add_emod, Nat.cast_add, Nat.cast_one]
        congr 3
        omega
    · rw [List.map_cons, List.getLastD_cons, g3, List.length_cons]
      show ((s.octave_index + 1) % S + (cs.length : Int)) % S
        = (s.octave_index + ((cs.length + 1 : Nat) : Int)) % S
      rw [Int.emod_add_emod, Nat.cast_add, Nat.cast_one]
      congr 1
      omega

theorem octaveHandler_select_mode1 (p : Ports) (s : Arpeggiator) (S : Int)
    (hS : toInt p.octaveSpreadParam = S) (h2 : 2 ≤ S)
    (hm : toInt p.octaveModeParam = 1) (hprev : s.previousOctaveMode ≠ 1) :
    octaveHandler p s = some (intToU8 (12 * S),
      { s with octave_index := S - 1, previousOctaveMode := 1 }) := by
  have hgt := spread_gt_one p (by rw [hS]; exact h2)
  have hne : (1 : Int) ≠ s.previousOctaveMode := fun h => hprev h.symm
  have hS0 : S ≠ 0 := by omega
  have hlt : ¬ (S - 1 < 0) := by omega
  simp [octaveHandler, octaveModeChange, octaveAdvance, cMod, hgt, hm, hne, hS, hS0, hlt]

theorem octaveHandler_descending (p : Ports) (s : Arpeggiator) (S : Int)
    (hS : toInt p.octaveSpreadParam = S) (h2 : 2 ≤ S)
    (hm : toInt p.octaveModeParam = 1) (hprev : s.previousOctaveMode = 1) :
    octaveHandler p s = some (intToU8 (12 * s.octave_index),
      { s with octave_index :=
          if s.octave_index - 1 < 0 then S - 1 else s.octave_index - 1 }) := by
  have hgt := spread_gt_one p (by rw [hS]; exact h2)
  rw [octaveHandler_same_mode p s (by rw [hprev, hm])]
  simp [octaveAdvance, hgt, hm, hS]

theorem octaveHandler_spread_one (p : Ports) (s : Arpeggiator)
    (hs : p.octaveSpreadParam = 1) :
    ∃ t, octaveHandler p s = some (0, t) ∧ t.octave_index = 0 := by
  have h1 : toInt p.octaveSpreadParam = 1 := by rw [hs]; exact toInt_one
  have h2 : toInt (p.octaveSpreadParam * 2) = 2 := by rw [hs]; decide!
  have hgt : ¬ p.octaveSpreadParam > 1 := by rw [hs]; exact lt_irrefl _
  obtain ⟨t1, e1, -⟩ := octaveModeChange_some p s (by rw [h1])
  refine ⟨{ t1 with octave_index := 0 }, ?_, rfl⟩
  unfold octaveHandler
  rw [e1, Option.some_bind]
  simp [octaveAdvance, hgt]

/-! ## Claims -/

/-- C1: in arpeggio mode 0, from a slot cursor `c` in `0..15`, one call of
`handleNoteOn` (a) emits exactly one note-on when a slot is populated, for the
first populated slot at or cyclically after the cursor (its pitch plus the
octave offset, as a byte), and leaves the cursor at that slot plus one modulo
16; (b) emits nothing and leaves the whole state unchanged when no slot is
populated; (c) with 60 and 64 in slots 0 and 1 and spread 1, `n` successive
triggers emit the note-ons 60, 64, 60, 64, ... -/
theorem C1_up_cyclic_trigger (p : Ports) (last : Int) (self : Arpeggiator) (c : Nat)
    (hmode : p.arp_mode = 0) (hc : self.note_played = c) (hc16 : c < NUM_VOICES)
    (hs : 1 ≤ toInt p.octaveSpreadParam)
    (hv1 : 1 ≤ toInt p.velocityPatternLengthParam)
    (hv8 : toInt p.velocityPatternLengthParam ≤ 8)
    (hpi : self.pattern_index < 8) :
    (∀ k, k < NUM_VOICES →
        populated (self.midi_notes.getD ((c + k) % NUM_VOICES) 0) →
        (∀ j, j < k → ¬ populated (self.midi_notes.getD ((c + j) % NUM_VOICES) 0)) →
        ∃ t last2 oct s1 vel,
          handleNoteOn p last self = some (t, last2,
            [createMidiEvent 144
              ((self.midi_notes.getD ((c + k) % NUM_VOICES) 0 + oct) % U8) vel]) ∧
          octaveHandler p { self with note_played := (((c + k) % NUM_VOICES : Nat) : Int) }
            = some (oct, s1) ∧
          t.note_played = ((((c + k) % NUM_VOICES + 1) % NUM_VOICES : Nat) : Int) ∧
          t.midi_notes = self.midi_notes) ∧
    ((∀ i, i < NUM_VOICES → ¬ populated (self.midi_notes.getD i 0)) →
        handleNoteOn p last self = some (self, last, [])) ∧
    (self.midi_notes = twoNotes → c = 0 → p.octaveSpreadParam = 1 →
        ∀ n, ∃ t last2 out, triggers p n last self = some (t, last2, out) ∧
          out.map (fun m => (m.status, m.note)) =
            (List.range n).map fun i => (144, if i % 2 = 0 then 60 else 64)) := by
  refine ⟨?_, ?_, ?_⟩
  · intro k hk hpop hskip
    obtain ⟨oct, s1, v, ho, -, hh⟩ :=
      handleNoteOn_up_found p last self c k hmode hc hc16 hk hskip hpop hs hv1 hv8 hpi
    have hf := octaveHandler_frame p _ _ _ hs ho
    refine ⟨_, _, oct, s1, _, hh, ho, rfl, ?_⟩
    show s1.midi_notes = self.midi_notes
    rw [hf]
  · exact handleNoteOn_up_none p last self c hmode hc hc16
  · intro hn h0 hsp n
    subst h0
    exact triggers_twoNotes p hmode hsp hv1 hv8 n last self 0 hn hpi hc (by decide)

/-- C1, at the scenario ports with 60 and 64 held: four triggers emit 60, 64, 60, 64. -/
theorem C1_up_cyclic_trigger_witness :
    scenarioPorts.arp_mode = 0 ∧ twoNotesState.note_played = ((0 : Nat) : Int) ∧
    ∃ t last2 out, triggers scenarioPorts 4 0 twoNotesState = some (t, last2, out) ∧
      out.map (fun m => (m.status, m.note)) = [(144, 60), (144, 64), (144, 60), (144, 64)] :=
  ⟨rfl, rfl,
   (C1_up_cyclic_trigger scenarioPorts 0 twoNotesState 0
      rfl rfl (by decide) (by decide!) (by decide!) (by decide!) (by decide)).2.2
      rfl rfl rfl 4⟩

/-- C2 (what the code does): at 48 kHz, 120 BPM, subdivision 4, sync off,
arpeggio mode 0, spread 1, with note 60 received while no note was active, the
period is 12000 samples and over any number of samples the per-sample loop of
`run` emits a note-on, for pitch 60, exactly in sample 0 and in the samples
12001, 24001, 36001, ...: sample 12000 has no note-on, sample 12001 has one. -/
theorem C2_next_note_on_in_sample_12001 :
    (∀ n, ∃ t l outs,
      runSamples scenarioPorts n 0 (runEvents scenarioPorts [] [noteOn60] scenarioState)
        = some (t, l, outs) ∧
      outs.length = n ∧ (0 < n → t.period = 12000) ∧
      ∀ j, j < n → (noteOns (outs.getD j [])).map (fun m => (m.status, m.note))
        = if firesAt 12000 j then [(144, 60)] else []) ∧
    firesAt 12000 0 = true ∧ (∀ j, 0 < j → j ≤ 12000 → firesAt 12000 j = false) ∧
    firesAt 12000 12001 = true ∧ firesAt 12000 24001 = true := by
  refine ⟨?_, by decide, ?_, by decide, by decide⟩
  · intro n
    obtain ⟨hI, hph⟩ := scenario_start
    obtain ⟨t, l, outs, h1, h2, h3, h4⟩ := runSamples_oneNote scenarioPorts 12000 60
      rfl rfl (by decide!) (by decide!) (by decide) (by decide) (by decide) n 0 0 _ hI hph
    refine ⟨t, l, outs, h1, h2, h3, ?_⟩
    intro j hj
    have := h4 j hj
    rwa [Nat.zero_add] at this
  · intro j h0 h1
    unfold firesAt
    apply decide_eq_false
    omega

/-- C4 (amended): with latch mode 0, for every event sequence from the freshly
instantiated state in which each note-off releases a held pitch and at most 16
notes are held at once, after every event (every prefix `pre`) the number of
non-empty slots is at most the active-note counter. -/
theorem C4_slots_le_active_latch_off (p : Ports) (rate : ℚ) (pre post : List InEvent)
    (hl : p.latch_mode = 0) (hM : Matched [] (pre ++ post)) :
    nonEmptySlots (pre.foldl (midiInEvent p) (instantiate rate)).midi_notes
      ≤ (pre.foldl (midiInEvent p) (instantiate rate)).active_notes := by
  have hz : ((instantiate rate).midi_notes.filter fun v => v ≠ 0) = [] := rfl
  have h0 : RegInv [] (instantiate rate) := ⟨rfl, rfl, by rw [hz]; exact List.Perm.refl _⟩
  obtain ⟨held2, h⟩ := RegInv_after_events p hl pre post [] (instantiate rate) h0
    (Nat.zero_le _) hM
  exact RegInv_le held2 _ h

/-- C4 at the scenario ports: note-on 60, note-on 67, note-off 60. -/
theorem C4_slots_le_active_latch_off_witness :
    Matched [] ([noteOn60, noteOn67, noteOff60] ++ []) ∧
    nonEmptySlots ([noteOn60, noteOn67, noteOff60].foldl (midiInEvent scenarioPorts)
        (instantiate 48000)).midi_notes
      ≤ ([noteOn60, noteOn67, noteOff60].foldl (midiInEvent scenarioPorts)
        (instantiate 48000)).active_notes :=
  ⟨by decide,
   C4_slots_le_active_latch_off scenarioPorts 48000 [noteOn60, noteOn67, noteOff60] []
     rfl (by decide)⟩

/-- C4, refuted as stated: under latch mode 1 the released note 60 keeps its
slot, so after note-on 60, note-off 60 one slot is non-empty while the
active-note counter is 0. -/
theorem C4_latch_keeps_released_slot :
    Matched [] [noteOn60, noteOff60] ∧
    nonEmptySlots ([noteOn60, noteOff60].foldl (midiInEvent latchPorts)
        (instantiate 48000)).midi_notes = 1 ∧
    ([noteOn60, noteOff60].foldl (midiInEvent latchPorts) (instantiate 48000)).active_notes
      = 0 := by
  refine ⟨by decide, ?_, ?_⟩
  · decide!
  · decide!

/-- C5: a note-on with pitch `q` in `1..127`, when the latch clear of the
zero-active-notes case does not apply, stores `q` in the lowest-indexed empty
slot and leaves every other slot as it was; with no empty slot the slot table
is unchanged. -/
theorem C5_note_on_first_empty_slot (p : Ports) (self : Arpeggiator) (ev : InEvent) (q : Nat)
    (hmidi : ev.is_midi = true) (hst : ev.msg.status &&& 0xF0 = 0x90)
    (hnote : ev.msg.note = q) (hq1 : 1 ≤ q) (hq127 : q ≤ 127)
    (hlen : self.midi_notes.length = NUM_VOICES)
    (hlatch : ¬ (self.active_notes = 0 ∧ p.latch_mode = 1)) :
    (∀ i, i < NUM_VOICES → self.midi_notes.getD i 0 = 0 →
        (∀ j, j < i → self.midi_notes.getD j 0 ≠ 0) →
        (midiInEvent p self ev).midi_notes = self.midi_notes.set i q ∧
        (midiInEvent p self ev).midi_notes.getD i 0 = q ∧
        ∀ j, j ≠ i →
          (midiInEvent p self ev).midi_notes.getD j 0 = self.midi_notes.getD j 0) ∧
    ((∀ i, i < NUM_VOICES → self.midi_notes.getD i 0 ≠ 0) →
        (midiInEvent p self ev).midi_notes = self.midi_notes) := by
  rw [midiInEvent_noteOn p self ev q hmidi hst hnote (by unfold U8; omega),
    noteOnCase_midi_notes p q self hlatch]
  constructor
  · intro i hi h0 hlow
    have e := findFreeVoice_first q NUM_VOICES 0 i self.midi_notes (Nat.zero_le _)
      (by omega) h0 (fun j _ hj => hlow j hj)
    rw [e]
    refine ⟨rfl, ?_, ?_⟩
    · rw [List.getD_eq_getElem?_getD, List.getElem?_set_self (by omega)]; rfl
    · intro j hj
      rw [List.getD_eq_getElem?_getD, List.getD_eq_getElem?_getD,
        List.getElem?_set_ne (Ne.symm hj)]
  · intro h
    exact findFreeVoice_none q NUM_VOICES 0 self.midi_notes (fun j _ hj => h j (by omega))

/-- C5 at the two-note state: note-on 67 goes to slot 2, the first empty slot. -/
theorem C5_note_on_first_empty_slot_witness :
    (midiInEvent scenarioPorts twoNotesState
        { is_midi := true, msg := { status := 0x90, note := 67, velocity := 100 } }).midi_notes
      = twoNotes.set 2 67 :=
  ((C5_note_on_first_empty_slot scenarioPorts twoNotesState
      { is_midi := true, msg := { status := 0x90, note := 67, velocity := 100 } } 67
      rfl (by decide) rfl (by decide) (by decide) (by decide) (by decide!)).1 2
      (by decide) (by decide) (by decide)).1

/-- C6: with latch mode 0, a note-off with pitch `q` in `1..127` empties the
lowest-indexed slot holding `q` and nothing else (later slots holding `q` and
all other slots are unchanged); if no slot holds `q` the table is unchanged;
latch-playing becomes false. -/
theorem C6_note_off_first_match (p : Ports) (self : Arpeggiator) (ev : InEvent) (q : Nat)
    (hmidi : ev.is_midi = true) (hst : ev.msg.status &&& 0xF0 = 0x80)
    (hnote : ev.msg.note = q) (hq1 : 1 ≤ q) (hq127 : q ≤ 127)
    (hlen : self.midi_notes.length = NUM_VOICES)
    (hlatch : p.latch_mode = 0) :
    (∀ i, i < NUM_VOICES → self.midi_notes.getD i 0 = q →
        (∀ j, j < i → self.midi_notes.getD j 0 ≠ q) →
        (midiInEvent p self ev).midi_notes = self.midi_notes.set i 0 ∧
        (midiInEvent p self ev).midi_notes.getD i 0 = 0 ∧
        ∀ j, j ≠ i →
          (midiInEvent p self ev).midi_notes.getD j 0 = self.midi_notes.getD j 0) ∧
    ((∀ i, i < NUM_VOICES → self.midi_notes.getD i 0 ≠ q) →
        (midiInEvent p self ev).midi_notes = self.midi_notes) ∧
    (midiInEvent p self ev).latch_playing = false := by
  rw [midiInEvent_noteOff p self ev q hmidi hst hnote (by unfold U8; omega)]
  obtain ⟨e1, e2⟩ := noteOffCase_latch_off p q self hlatch
  rw [e1]
  refine ⟨?_, ?_, e2⟩
  · intro i hi h0 hlow
    have e := searchNote_first q NUM_VOICES 0 i self.midi_notes (Nat.zero_le _)
      (by omega) h0 (fun j _ hj => hlow j hj)
    rw [e]
    refine ⟨rfl, ?_, ?_⟩
    · rw [List.getD_eq_getElem?_getD, List.getElem?_set_self (by omega)]; rfl
    · intro j hj
      rw [List.getD_eq_getElem?_getD, List.getD_eq_getElem?_getD,
        List.getElem?_set_ne (Ne.symm hj)]
  · intro h
    exact searchNote_none q NUM_VOICES 0 self.midi_notes (fun j _ hj => h j (by omega))

/-- C6 at the two-note state: note-off 64 empties slot 1 and clears latch-playing. -/
theorem C6_note_off_first_match_witness :
    (midiInEvent scenarioPorts twoNotesState
        { is_midi := true, msg := { status := 0x80, note := 64, velocity := 0 } }).midi_notes
      = twoNotes.set 1 0 ∧
    (midiInEvent scenarioPorts twoNotesState
        { is_midi := true, msg := { status := 0x80, note := 64, velocity := 0 } }).latch_playing
      = false :=
  ⟨((C6_note_off_first_match scenarioPorts twoNotesState
      { is_midi := true, msg := { status := 0x80, note := 64, velocity := 0 } } 64
      rfl (by decide) rfl (by decide) (by decide) (by decide) rfl).1 1
      (by decide) (by decide) (by decide)).1,
   (C6_note_off_first_match scenarioPorts twoNotesState
      { is_midi := true, msg := { status := 0x80, note := 64, velocity := 0 } } 64
      rfl (by decide) rfl (by decide) (by decide) (by decide) rfl).2.2⟩

/-- C7: with latch mode 1 in effect and no note active, whatever the slot
table held, a note-on 67 leaves 67 in slot 0 and every other slot empty and
sets latch-playing; a later note-off 67 under latch mode 1 (in the same block
or, for any state with the same registry, in a later one) leaves the slot
table as it is, so 67 stays populated. -/
theorem C7_latch_note_on_replaces (p : Ports) (self : Arpeggiator) (evOn evOff : InEvent)
    (hon1 : evOn.is_midi = true) (hon2 : evOn.msg.status &&& 0xF0 = 0x90)
    (hon3 : evOn.msg.note = 67)
    (hoff1 : evOff.is_midi = true) (hoff2 : evOff.msg.status &&& 0xF0 = 0x80)
    (hoff3 : evOff.msg.note = 67)
    (hlatch : p.latch_mode = 1) (hprev : self.previous_latch = 1)
    (hact : self.active_notes = 0) :
    (∀ control,
      (runEvents p control [evOn] self).midi_notes = 67 :: List.replicate 15 0 ∧
      (runEvents p control [evOn] self).latch_playing = true ∧
      (runEvents p control [evOn, evOff] self).midi_notes = 67 :: List.replicate 15 0 ∧
      populated ((runEvents p control [evOn, evOff] self).midi_notes.getD 0 0)) ∧
    (∀ control (t : Arpeggiator), t.previous_latch = 1 →
      (runEvents p control [evOff] t).midi_notes = t.midi_notes) := by
  constructor
  · intro control
    have hr := foldl_update_position_registry control self
    simp only [registryFields, Prod.mk.injEq] at hr
    obtain ⟨-, r2, -, r4⟩ := hr
    have e1 := midiInEvent_noteOn p (control.foldl update_position self) evOn 67 hon1 hon2
      hon3 (by decide)
    obtain ⟨n1, n2, n3⟩ := noteOnCase_latch p 67 (control.foldl update_position self) hlatch
      (r2.trans hact)
    have hp1 : (midiInEvent p (control.foldl update_position self) evOn).previous_latch
        = p.latch_mode := by rw [e1, n3, r4, hprev, hlatch]
    have e2 := midiInEvent_noteOff p (midiInEvent p (control.foldl update_position self) evOn)
      evOff 67 hoff1 hoff2 hoff3 (by decide)
    obtain ⟨f1, f2⟩ := noteOffCase_latch p 67
      (midiInEvent p (control.foldl update_position self) evOn) hlatch
    have hp2 : (midiInEvent p (midiInEvent p (control.foldl update_position self) evOn)
        evOff).previous_latch = p.latch_mode := by rw [e2, f2, hp1]
    have hm : (runEvents p control [evOn, evOff] self).midi_notes = 67 :: List.replicate 15 0 := by
      unfold runEvents
      rw [List.foldl_cons, List.foldl_cons, List.foldl_nil, latchChange_same p _ hp2, e2, f1,
        e1, n1]
      rfl
    refine ⟨?_, ?_, hm, ?_⟩
    · unfold runEvents
      rw [List.foldl_cons, List.foldl_nil, latchChange_same p _ hp1, e1, n1]
      rfl
    · unfold runEvents
      rw [List.foldl_cons, List.foldl_nil, latchChange_same p _ hp1, e1, n2]
    · rw [hm]; decide
  · intro control t ht
    have hr := foldl_update_position_registry control t
    simp only [registryFields, Prod.mk.injEq] at hr
    obtain ⟨r1, -, -, r4⟩ := hr
    have e2 := midiInEvent_noteOff p (control.foldl update_position t) evOff 67 hoff1 hoff2
      hoff3 (by decide)
    obtain ⟨f1, f2⟩ := noteOffCase_latch p 67 (control.foldl update_position t) hlatch
    have hp2 : (midiInEvent p (control.foldl update_position t) evOff).previous_latch
        = p.latch_mode := by rw [e2, f2, r4, ht, hlatch]
    unfold runEvents
    rw [List.foldl_cons, List.foldl_nil, latchChange_same p _ hp2, e2, f1, r1]

/-- C7 at the latch ports, from the two-note table with latch already observed. -/
theorem C7_latch_note_on_replaces_witness :
    (runEvents latchPorts [] [noteOn67] { twoNotesState with previous_latch := 1 }).midi_notes
      = 67 :: List.replicate 15 0 ∧
    (runEvents latchPorts [] [noteOn67] { twoNotesState with previous_latch := 1 }).latch_playing
      = true ∧
    (runEvents latchPorts [] [noteOn67, noteOff67]
      { twoNotesState with previous_latch := 1 }).midi_notes = 67 :: List.replicate 15 0 :=
  have h := (C7_latch_note_on_replaces latchPorts { twoNotesState with previous_latch := 1 }
    noteOn67 noteOff67 rfl (by decide) rfl rfl (by decide) rfl rfl rfl rfl).1 []
  ⟨h.1, h.2.1, h.2.2.1⟩

/-- C8: in a block whose latch-mode value differs from the value observed
before, the slot table is empty when the per-sample loop starts, whatever the
note-ons of the block stored; the step leaves the active-note counter alone;
the observed value becomes the current one, and after the block a block with
the same latch value does not clear again. -/
theorem C8_latch_change_clears (p : Ports) (self : Arpeggiator)
    (control : List TimePosition) (midi_in : List InEvent)
    (h : p.latch_mode ≠ self.previous_latch) :
    (runEvents p control midi_in self).midi_notes = List.replicate NUM_VOICES 0 ∧
    (∀ i, i < NUM_VOICES → (runEvents p control midi_in self).midi_notes.getD i 0 = 0) ∧
    (runEvents p control midi_in self).active_notes
      = (midi_in.foldl (midiInEvent p) (control.foldl update_position self)).active_notes ∧
    (runEvents p control midi_in self).previous_latch = p.latch_mode ∧
    (∀ n last t l out, run p control midi_in n last self = some (t, l, out) →
      t.previous_latch = p.latch_mode ∧
      ∀ (p2 : Ports) (c2 : List TimePosition) (m2 : List InEvent),
        p2.latch_mode = p.latch_mode →
        runEvents p2 c2 m2 t = m2.foldl (midiInEvent p2) (c2.foldl update_position t)) := by
  have hr := foldl_update_position_registry control self
  simp only [registryFields, Prod.mk.injEq] at hr
  have hp : (midi_in.foldl (midiInEvent p) (control.foldl update_position self)).previous_latch
      = self.previous_latch := by
    rw [foldl_midiInEvent_previous_latch, hr.2.2.2]
  have hne : p.latch_mode ≠
      (midi_in.foldl (midiInEvent p) (control.foldl update_position self)).previous_latch := by
    rw [hp]; exact h
  have e : runEvents p control midi_in self =
      { midi_in.foldl (midiInEvent p) (control.foldl update_position self) with
        midi_notes := List.replicate NUM_VOICES 0, previous_latch := p.latch_mode } := by
    unfold runEvents latchChange
    rw [if_pos hne]
  have hm : (runEvents p control midi_in self).midi_notes = List.replicate NUM_VOICES 0 := by
    rw [e]
  refine ⟨hm, ?_, by rw [e], by rw [e], ?_⟩
  · intro i hi
    rw [hm, List.getD_eq_getElem?_getD, List.getElem?_replicate, if_pos hi]
    rfl
  · intro n last t l out hrun
    unfold run at hrun
    simp only [Option.bind_eq_some] at hrun
    obtain ⟨⟨u, l1, o1⟩, h1, h2⟩ := hrun
    simp only [Option.some.injEq, Prod.mk.injEq] at h2
    obtain ⟨rfl, -, -⟩ := h2
    have hk := runSamples_registry p n last _ u l1 o1 h1
    simp only [registryFields, Prod.mk.injEq] at hk
    have ht : u.previous_latch = p.latch_mode := by rw [hk.2.2.2, e]
    refine ⟨ht, ?_⟩
    intro p2 c2 m2 h2
    unfold runEvents
    apply latchChange_same
    rw [foldl_midiInEvent_previous_latch]
    have hr2 := foldl_update_position_registry c2 u
    simp only [registryFields, Prod.mk.injEq] at hr2
    rw [hr2.2.2.2, ht, h2]

/-- C8 at the latch ports: latch mode 1 first seen in a block that also
receives note-on 60 for the two-note table; the table is empty at loop start. -/
theorem C8_latch_change_clears_witness :
    latchPorts.latch_mode ≠ twoNotesState.previous_latch ∧
    (runEvents latchPorts [] [noteOn60] twoNotesState).midi_notes
      = List.replicate NUM_VOICES 0 ∧
    (runEvents latchPorts [] [noteOn60] twoNotesState).previous_latch = 1 :=
  ⟨by decide!,
   (C8_latch_change_clears latchPorts twoNotesState [] [noteOn60] (by decide!)).1,
   (C8_latch_change_clears latchPorts twoNotesState [] [noteOn60] (by decide!)).2.2.2.1⟩

/-- C9 (amended): a note-on received while the active-note count is 0, sync is
0 and latch-playing is false sets the sample position, the octave index, the
velocity-pattern cursor and the slot cursor to their initial value 0 and clears
the trigger flag; in arpeggio mode 0 with octave mode 0 never changed (previous
octave mode 0) the following triggers then emit the same note-ons as a freshly
instantiated engine with the same slot table and ports. -/
theorem C9_note_on_resets_cursors (p : Ports) (self : Arpeggiator) (ev : InEvent) (q : Nat)
    (rate : ℚ)
    (hmidi : ev.is_midi = true) (hst : ev.msg.status &&& 0xF0 = 0x90)
    (hnote : ev.msg.note = q) (hq : q < U8)
    (hact : self.active_notes = 0) (hsync : p.sync = 0) (hlp : self.latch_playing = false) :
    ((midiInEvent p self ev).pos = (instantiate rate).pos ∧
      (midiInEvent p self ev).octave_index = (instantiate rate).octave_index ∧
      (midiInEvent p self ev).pattern_index = (instantiate rate).pattern_index ∧
      (midiInEvent p self ev).note_played = (instantiate rate).note_played ∧
      (midiInEvent p self ev).triggered = (instantiate rate).triggered) ∧
    (p.arp_mode = 0 → toInt p.octaveModeParam = 0 → self.previousOctaveMode = 0 →
      ∀ (n : Nat) (l1 l2 : Int),
        (triggers p n l1 (midiInEvent p self ev)).map (fun r => r.2.2)
          = (triggers p n l2
              { instantiate rate with midi_notes := (midiInEvent p self ev).midi_notes }).map
              (fun r => r.2.2)) := by
  rw [midiInEvent_noteOn p self ev q hmidi hst hnote hq]
  obtain ⟨h1, h2, h3, h4, h5, h6⟩ := noteOnCase_reset p q self hact hsync hlp
  refine ⟨⟨h1, h2, h3, h4, h5⟩, ?_⟩
  intro hmode hoct hprev n l1 l2
  apply triggers_upView p hmode hoct
  simp only [upView, h2, h3, h4, h6, hprev]
  rfl

/-- C9 at a state in which every cursor differs from its initial value (sample
position 2, octave index 1, velocity cursor 1, slot cursor 1, trigger flag set,
no note active): the note-on 67 sets them to 0 and clears the flag, and the four
following triggers emit what the fresh engine with that slot table emits. -/
theorem C9_note_on_resets_cursors_witness :
    (playedReleased.pos, playedReleased.octave_index, playedReleased.pattern_index,
      playedReleased.note_played, playedReleased.triggered) = (2, 1, 1, 1, true) ∧
    ((midiInEvent (octaveSetting 0 2) playedReleased (midiEvent 0x90 67)).pos = 0 ∧
      (midiInEvent (octaveSetting 0 2) playedReleased (midiEvent 0x90 67)).octave_index = 0 ∧
      (midiInEvent (octaveSetting 0 2) playedReleased (midiEvent 0x90 67)).pattern_index = 0 ∧
      (midiInEvent (octaveSetting 0 2) playedReleased (midiEvent 0x90 67)).note_played = 0 ∧
      (midiInEvent (octaveSetting 0 2) playedReleased (midiEvent 0x90 67)).triggered
        = false) ∧
    (triggers (octaveSetting 0 2) 4 0
        (midiInEvent (octaveSetting 0 2) playedReleased (midiEvent 0x90 67))).map
        (fun r => r.2.2)
      = (triggers (octaveSetting 0 2) 4 0
          { instantiate 16 with
            midi_notes :=
              (midiInEvent (octaveSetting 0 2) playedReleased (midiEvent 0x90 67)).midi_notes
          }).map (fun r => r.2.2) ∧
    (triggers (octaveSetting 0 2) 4 0
        (midiInEvent (octaveSetting 0 2) playedReleased (midiEvent 0x90 67))).map
        (fun r => r.2.2)
      = some [createMidiEvent 144 67 100, createMidiEvent 144 79 80,
          createMidiEvent 144 67 100, createMidiEvent 144 79 80] :=
  have h := C9_note_on_resets_cursors (octaveSetting 0 2) playedReleased (midiEvent 0x90 67)
    67 16 rfl (by decide) rfl (by decide) (by decide!) rfl (by decide!)
  ⟨by decide!, h.1, h.2 rfl (by decide!) (by decide!) 4 0 0, by decide!⟩

/-- C9, refuted as stated (the runs that build the two states are defined):
(a) in bounce mode the note-on that finds no note active leaves the direction
flag descending, not at its initial value; (b) in octave mode 1 with spread 2
the triggers after such a note-on emit 60, 72, 60 where the freshly
instantiated engine with the same slot table emits 84, 72, 60. -/
theorem C9_reset_keeps_direction_and_octave_mode :
    ((triggers bouncePorts 5 0 bounceHeld).isSome = true ∧
      (triggers octavePorts 1 0 (midiInEvent octavePorts scenarioState noteOn60)).isSome
        = true) ∧
    (bounceReleased.active_notes = 0 ∧ bouncePorts.sync = 0 ∧
      bounceReleased.latch_playing = false ∧
      (midiInEvent bouncePorts bounceReleased noteOn60).arp_up = false ∧
      (instantiate 48000).arp_up = true) ∧
    (octaveReleased.active_notes = 0 ∧ octavePorts.sync = 0 ∧
      octaveReleased.latch_playing = false ∧
      (triggers octavePorts 3 0 (midiInEvent octavePorts octaveReleased noteOn60)).map
          (fun r => r.2.2.map fun m => (m.status, m.note))
        = some [(144, 60), (144, 72), (144, 60)] ∧
      (triggers octavePorts 3 0
          { instantiate 48000 with
            midi_notes := (midiInEvent octavePorts octaveReleased noteOn60).midi_notes }).map
          (fun r => r.2.2.map fun m => (m.status, m.note))
        = some [(144, 84), (144, 72), (144, 60)]) := by
  refine ⟨⟨?_, ?_⟩, ⟨?_, ?_, ?_, ?_, ?_⟩, ⟨?_, ?_, ?_, ?_, ?_⟩⟩
  all_goals decide!

/-- C10: for a velocity pattern of length `L` in `1..8` and the cursor at 0,
whenever successive triggers emit `10 L` notes, the velocity byte of note `i` is
the value of velocity port `i mod L` (ports 1 to `L`, in order, cyclically),
truncated toward zero to an integer and reduced modulo 256, so every velocity
byte is below 256; the cursor is back at 0; every position `j < L` is used by
exactly 10 of the notes; and in arpeggio mode 0 with a populated slot `10 L`
triggers do emit `10 L` notes. -/
theorem C10_velocity_pattern_cycle (p : Ports) (L : Nat) (last : Int) (self : Arpeggiator)
    (hL : toInt p.velocityPatternLengthParam = L) (hL1 : 1 ≤ L) (hL8 : L ≤ 8)
    (hpi : self.pattern_index = 0) :
    (∀ (n : Nat) (t : Arpeggiator) (l : Int) (out : List LV2_Atom_MIDI),
      triggers p n last self = some (t, l, out) → out.length = 10 * L →
      out.map (fun m => m.velocity)
        = (List.range (10 * L)).map (fun i =>
            (Int.tdiv
              ([p.patternVel1Param, p.patternVel2Param, p.patternVel3Param,
                p.patternVel4Param, p.patternVel5Param, p.patternVel6Param,
                p.patternVel7Param, p.patternVel8Param].getD (i % L) 0).num
              ([p.patternVel1Param, p.patternVel2Param, p.patternVel3Param,
                p.patternVel4Param, p.patternVel5Param, p.patternVel6Param,
                p.patternVel7Param, p.patternVel8Param].getD (i % L) 0).den % 256).toNat) ∧
      (∀ m ∈ out, m.velocity < 256) ∧
      t.pattern_index = 0) ∧
    (∀ j, j < L → ((List.range (10 * L)).filter fun i => i % L = j).length = 10) ∧
    (p.arp_mode = 0 → 1 ≤ toInt p.octaveSpreadParam →
      (∃ c : Nat, self.note_played = c ∧ c < NUM_VOICES) →
      (∃ i, i < NUM_VOICES ∧ populated (self.midi_notes.getD i 0)) →
      ∃ t l out, triggers p (10 * L) last self = some (t, l, out) ∧
        out.length = 10 * L) := by
  refine ⟨?_, fun j hj => residue_count L j hL1 hj, ?_⟩
  · intro n t l out hrun hlen
    obtain ⟨h1, h2⟩ := triggers_velocity p L hL hL1 hL8 n last self t l out
      (by rw [hpi]; omega) hrun
    rw [hpi, hlen] at h1 h2
    refine ⟨?_, ?_, ?_⟩
    · rw [h1]
      apply List.map_congr_left
      intro i _
      rw [Nat.zero_add, toU8_eq, velocity_pattern_getD]
    · intro m hm
      have hmem : m.velocity ∈ out.map (fun m => m.velocity) := List.mem_map_of_mem _ hm
      rw [h1] at hmem
      obtain ⟨i, -, hi⟩ := List.mem_map.mp hmem
      rw [← hi]
      exact toU8_lt _
    · rw [h2, Nat.zero_add, Nat.mul_mod_left]
  · intro hmode hs ⟨c, hc, hc16⟩ ⟨i, hi, hpop⟩
    exact triggers_up_total p i hmode hs (by omega) (by omega) hi (10 * L) last self c hc hc16
      (by rw [hpi]; decide) hpop

/-- C10 with pattern length 2 and the velocity ports 300 and 80, 60 and 64
held: twenty triggers emit twenty notes with the velocity bytes 44 (300 modulo
256) and 80 in turn. -/
theorem C10_velocity_pattern_cycle_witness :
    ∃ t l out, triggers loudPorts (10 * 2) 0 twoNotesState = some (t, l, out) ∧
      out.length = 10 * 2 ∧
      out.map (fun m => m.velocity)
        = [44, 80, 44, 80, 44, 80, 44, 80, 44, 80, 44, 80, 44, 80, 44, 80, 44, 80, 44, 80] ∧
      (∀ m ∈ out, m.velocity < 256) ∧
      t.pattern_index = 0 :=
  have h := C10_velocity_pattern_cycle loudPorts 2 0 twoNotesState (by decide!)
    (by decide) (by decide) rfl
  have ⟨t, l, out, hrun, hlen⟩ := h.2.2 rfl (by decide!) ⟨0, rfl, by decide⟩
    ⟨0, by decide, by decide⟩
  ⟨t, l, out, hrun, hlen, (h.1 (10 * 2) t l out hrun hlen).1.trans (by decide!),
    (h.1 (10 * 2) t l out hrun hlen).2.1, (h.1 (10 * 2) t l out hrun hlen).2.2⟩

/-- C11: in octave mode 2 with spread 3, from the freshly instantiated octave
state (index 0, direction flag false, previous mode 0) and with the slot cursor
at 0 on the first call, six consecutive calls of `octaveHandler` return the
offsets 0, 12, 24, 12, 0, 12, whatever the slot cursor is at the later calls
(the index before the first call is overwritten, so every index is covered). -/
theorem C11_bounce_spread_three (p : Ports) (s : Arpeggiator) (c1 c2 c3 c4 c5 : Int)
    (hm : toInt p.octaveModeParam = 2) (hS : toInt p.octaveSpreadParam = 3)
    (hu : s.octave_up = false) (hp : s.previousOctaveMode = 0) :
    (octaveTrace p [0, c1, c2, c3, c4, c5] s).map (fun tr => tr.map Prod.fst)
      = some [0, 12, 24, 12, 0, 12] := by
  obtain ⟨t, h1, hI, hprev, hnext⟩ :=
    octaveHandler_select_mode2 p { s with note_played := 0 } 3 hS (by norm_num) hm rfl hu
      (by show s.previousOctaveMode ≠ 2; rw [hp]; decide)
  obtain ⟨tr, g1, -, -, -, g5⟩ :=
    octaveTrace_bounce p 3 hS (by norm_num) (Or.inl hm) [c1, c2, c3, c4, c5] t
      (hprev.trans hm.symm) hI
  have e : tr.map Prod.fst
      = (bounceModel 3 5 (t.octave_index, t.octave_up)).map Prod.fst := by
    have := congrArg (List.map Prod.fst) g5
    rw [List.map_map] at this
    exact this
  rw [hnext] at e
  rw [octaveTrace, h1]
  simp only [Option.some_bind, g1, Option.map_some', List.map_cons, e]
  decide

theorem C11_bounce_spread_three_witness :
    (octaveTrace (octaveSetting 2 3) [0, 1, 0, 1, 0, 1] scenarioState).map
      (fun tr => tr.map Prod.fst) = some [0, 12, 24, 12, 0, 12] :=
  C11_bounce_spread_three (octaveSetting 2 3) scenarioState 1 0 1 0 1
    (by decide!) (by decide!) rfl rfl

/-- C12 (amended): for every spread with integer part `S >= 2`, from a state
with the direction flag false and previous mode 0 (the freshly instantiated
octave state), octave mode 2 selected with the slot cursor at 0 returns 0 on the
selecting call and octave mode 3 returns `12 * S` (as a `uint8_t`) on the
selecting call; every later call returns `12 * k` (as a `uint8_t`, `12 * k`
itself when `S <= 22`) with `0 <= k <= S - 1`, the index after every call lies in
`0 .. S - 1`, and from the selecting call on the direction flag changes across a
call exactly when the index after the call is 0 or `S - 1`. -/
theorem C12_bounce_offsets_in_range (p : Ports) (s : Arpeggiator) (S c : Int)
    (cs : List Int) (hS : toInt p.octaveSpreadParam = S) (h2 : 2 ≤ S)
    (hm : (toInt p.octaveModeParam = 2 ∧ c = 0) ∨ toInt p.octaveModeParam = 3)
    (hu : s.octave_up = false) (hp : s.previousOctaveMode = 0) :
    ∃ t tr, octaveTrace p (c :: cs) s =
        some ((intToU8 (12 * (if toInt p.octaveModeParam = 3 then S else 0)), t) :: tr) ∧
      (∀ x ∈ tr, ∃ k : Int, 0 ≤ k ∧ k ≤ S - 1 ∧ x.1 = intToU8 (12 * k) ∧
        (S ≤ 22 → x.1 = 12 * k.toNat)) ∧
      (∀ x ∈ (0, t) :: tr, 0 ≤ x.2.octave_index ∧ x.2.octave_index ≤ S - 1) ∧
      List.Chain (FlipsAtBoundary S) t (tr.map Prod.snd) := by
  have key : ∃ t, octaveHandler p { s with note_played := c } =
        some (intToU8 (12 * (if toInt p.octaveModeParam = 3 then S else 0)), t) ∧
      BounceInv S t ∧ t.previousOctaveMode = toInt p.octaveModeParam := by
    rcases hm with ⟨hm, hc⟩ | hm
    · obtain ⟨t, h1, hI, hprev, -⟩ :=
        octaveHandler_select_mode2 p { s with note_played := c } S hS h2 hm hc hu
          (by show s.previousOctaveMode ≠ 2; rw [hp]; decide)
      refine ⟨t, ?_, hI, hprev.trans hm.symm⟩
      rw [h1, hm]
      rfl
    · obtain ⟨t, h1, hI, hprev⟩ :=
        octaveHandler_select_mode3 p { s with note_played := c } S hS h2 hm hu
          (by show s.previousOctaveMode ≠ 3; rw [hp]; decide)
      refine ⟨t, ?_, hI, hprev.trans hm.symm⟩
      rw [h1, if_pos hm]
  obtain ⟨t, h1, hI, hprev⟩ := key
  have hmm : toInt p.octaveModeParam = 2 ∨ toInt p.octaveModeParam = 3 := by
    rcases hm with ⟨hm, -⟩ | hm
    · exact Or.inl hm
    · exact Or.inr hm
  obtain ⟨tr, g1, g2, g3, g4, -⟩ := octaveTrace_bounce p S hS h2 hmm cs t hprev hI
  refine ⟨t, tr, ?_, ?_, ?_, g4⟩
  · rw [octaveTrace, h1]
    simp only [Option.some_bind, g1]
  · intro x hx
    obtain ⟨k, k0, k1, hk⟩ := g2 x hx
    exact ⟨k, k0, k1, hk, fun h22 => by rw [hk]; exact intToU8_of_small k k0 (by omega)⟩
  · intro x hx
    rcases List.mem_cons.mp hx with rfl | hx
    · show 0 ≤ t.octave_index ∧ t.octave_index ≤ S - 1
      rcases hI with ⟨-, a, b⟩ | ⟨-, a, b⟩ <;> exact ⟨by omega, by omega⟩
    · exact g3 x hx

theorem C12_bounce_offsets_in_range_witness :
    ∃ t tr, octaveTrace (octaveSetting 3 3) [0, 0, 0, 0] scenarioState =
        some ((intToU8 (12 * (if toInt (octaveSetting 3 3).octaveModeParam = 3 then 3 else 0)),
          t) :: tr) ∧
      (∀ x ∈ tr, ∃ k : Int, 0 ≤ k ∧ k ≤ 3 - 1 ∧ x.1 = intToU8 (12 * k) ∧
        ((3 : Int) ≤ 22 → x.1 = 12 * k.toNat)) ∧
      (∀ x ∈ (0, t) :: tr, 0 ≤ x.2.octave_index ∧ x.2.octave_index ≤ 3 - 1) ∧
      List.Chain (FlipsAtBoundary 3) t (tr.map Prod.snd) :=
  C12_bounce_offsets_in_range (octaveSetting 3 3) scenarioState 3 0 [0, 0, 0]
    (by decide!) (by decide) (Or.inr (by decide!)) rfl rfl

/-- C12 (counterexample): octave mode 3 with spread 3, selected from the freshly
instantiated state: the first call returns 36 = 12 * 3, above 12 * (spread - 1);
and octave mode 2 selected with the slot cursor at 3 returns 36 and then 48. -/
theorem C12_selecting_call_above_range :
    (octaveHandler (octaveSetting 3 3) scenarioState).map Prod.fst = some 36 ∧
    (octaveTrace (octaveSetting 2 3) [3, 3] scenarioState).map (fun tr => tr.map Prod.fst)
      = some [36, 48] := by
  decide!

/-- C13 (amended): in octave mode 0 with the mode unchanged (previous mode 0),
for every spread with integer part `S >= 2`, every starting octave index in
`[0, S)` and every `N`, `N * S` calls of `octaveHandler` all return, the octave
index after them equals its starting value, and call `j` (from 0) returns
`12 * i` reduced to 8 bits for `i = (start + j) mod S`; when `S <= 22` no
reduction occurs and the offset is `12 * i` itself. -/
theorem C13_ascending_cycle (p : Ports) (s : Arpeggiator) (S : Int) (N : Nat)
    (cs : List Int) (hS : toInt p.octaveSpreadParam = S) (h2 : 2 ≤ S)
    (hm : toInt p.octaveModeParam = 0) (hprev : s.previousOctaveMode = 0)
    (h0 : 0 ≤ s.octave_index) (h1 : s.octave_index < S)
    (hlen : (cs.length : Int) = N * S) :
    ∃ tr, octaveTrace p cs s = some tr ∧
      ((tr.map Prod.snd).getLastD s).octave_index = s.octave_index ∧
      tr.map Prod.fst = (List.range cs.length).map
        (fun (j : Nat) => intToU8 (12 * ((s.octave_index + (j : Int)) % S))) ∧
      (S ≤ 22 → tr.map Prod.fst = (List.range cs.length).map
        (fun (j : Nat) => 12 * ((s.octave_index + (j : Int)) % S).toNat)) := by
  obtain ⟨tr, g1, g2, g3⟩ := octaveTrace_ascending p S hS h2 hm cs s hprev h0 h1
  refine ⟨tr, g1, ?_, g2, ?_⟩
  · rw [g3, hlen, Int.add_mul_emod_self, Int.emod_eq_of_lt h0 h1]
  · intro h22
    rw [g2]
    apply List.map_congr_left
    intro j _
    exact intToU8_of_small _ (Int.emod_nonneg _ (by omega))
      (by have := Int.emod_lt_of_pos (s.octave_index + (j : Int)) (show 0 < S by omega); omega)

theorem C13_ascending_cycle_witness :
    ∃ tr, octaveTrace (octaveSetting 0 3) [0, 0, 0, 0, 0, 0]
        { scenarioState with octave_index := 1 } = some tr ∧
      ((tr.map Prod.snd).getLastD { scenarioState with octave_index := 1 }).octave_index = 1 ∧
      tr.map Prod.fst = (List.range 6).map
        (fun (j : Nat) => intToU8 (12 * (((1 : Int) + (j : Int)) % 3))) ∧
      ((3 : Int) ≤ 22 → tr.map Prod.fst = (List.range 6).map
        (fun (j : Nat) => 12 * (((1 : Int) + (j : Int)) % 3).toNat)) :=
  C13_ascending_cycle (octaveSetting 0 3) { scenarioState with octave_index := 1 } 3 2
    [0, 0, 0, 0, 0, 0] (by decide!) (by decide) (by decide!) rfl (by decide) (by decide)
    (by decide)

/-- C13 (counterexample): octave mode 0 with spread 23, previous mode 0, from
the freshly instantiated state: the calls for the indices 21 and 22 return 252
and 8, and 8 is not 12 * 22 = 264. -/
theorem C13_offset_wraps_at_256 :
    (octaveTrace (octaveSetting 0 23) (List.replicate 23 0) scenarioState).map
      (fun tr => (tr.map Prod.fst).drop 21) = some [252, 8] := by
  decide!

/-- C14: with spread 1, for every octave mode, every prior octave index,
direction flag and previous mode, and every slot cursor, `octaveHandler` returns
offset 0 and leaves the octave index at 0. -/
theorem C14_spread_one_offset_zero (p : Ports) (s : Arpeggiator)
    (hs : p.octaveSpreadParam = 1) :
    ∃ t, octaveHandler p s = some (0, t) ∧ t.octave_index = 0 :=
  octaveHandler_spread_one p s hs

theorem C14_spread_one_offset_zero_witness :
    (octaveSetting 3 1).octaveSpreadParam = 1 ∧
    ∃ t, octaveHandler (octaveSetting 3 1)
        { scenarioState with octave_index := 2, octave_up := true, note_played := 5 }
          = some (0, t) ∧ t.octave_index = 0 :=
  ⟨rfl, C14_spread_one_offset_zero (octaveSetting 3 1)
    { scenarioState with octave_index := 2, octave_up := true, note_played := 5 } rfl⟩

/-- C15: no clamp exists.  With a velocity-pattern length of 0 the divisor of the
velocity-cursor advance is 0: the octave offset and the velocity are computed,
then `handleNoteOn` evaluates `(pattern_index + 1) % 0`.  With an octave spread
of 0 the call of `octaveHandler` on which octave mode 1 is selected evaluates
`note_played % 0`.  With length 2 and spread 1 both calls are defined. -/
theorem C15_zero_divisor_not_clamped :
    intToSize (toInt zeroLengthPorts.velocityPatternLengthParam) = 0 ∧
    (∃ oct t v, octaveHandler zeroLengthPorts twoNotesState = some (oct, t) ∧
      velocity_pattern zeroLengthPorts t.pattern_index = some v) ∧
    emitNoteOn zeroLengthPorts 60 twoNotesState = none ∧
    handleNoteOn zeroLengthPorts 0 twoNotesState = none ∧
    toInt (octaveSetting 1 0).octaveSpreadParam = 0 ∧
    cMod scenarioState.note_played (toInt (octaveSetting 1 0).octaveSpreadParam) = none ∧
    octaveHandler (octaveSetting 1 0) scenarioState = none ∧
    (handleNoteOn scenarioPorts 0 twoNotesState).isSome = true ∧
    (octaveHandler (octaveSetting 1 1) scenarioState).isSome = true := by
  refine ⟨by decide!, ⟨0, { twoNotesState with octave_index := 0 }, 100, by decide!, by decide!⟩,
    by decide!, by decide!, by decide!, by decide!, by decide!, by decide!, by decide!⟩

/-- C16 (amended): when `handleNoteOn` emits a note-on, it writes the pitch byte
of that note-on into the pending note-off entry at the circular cursor
`active_notes_index`, whether or not that entry is free, keeps the elapsed count
that entry had, leaves every other entry unchanged, and advances the cursor by
one modulo 16. -/
theorem C16_pending_entry_at_cursor (p : Ports) (last : Int) (s t : Arpeggiator) (l : Int)
    (out : List LV2_Atom_MIDI) (h : handleNoteOn p last s = some (t, l, out))
    (hne : out ≠ []) (hc : s.active_notes_index < s.noteoff_buffer.length) :
    ∃ m, out = [m] ∧ m.status = 144 ∧
      t.noteoff_buffer[s.active_notes_index]? =
        some (m.note, (s.noteoff_buffer.getD s.active_notes_index (0, 0)).2) ∧
      (∀ j, j ≠ s.active_notes_index → t.noteoff_buffer[j]? = s.noteoff_buffer[j]?) ∧
      t.noteoff_buffer.length = s.noteoff_buffer.length ∧
      t.active_notes_index = (s.active_notes_index + 1) % NUM_VOICES := by
  obtain ⟨-, hcase⟩ := handleNoteOn_cases p last s t l out h
  rcases hcase with ⟨he, -, -⟩ | ⟨i, oct, v, -, -, -, hout, -, hbuf, hidx⟩
  · exact absurd he hne
  · refine ⟨_, hout, rfl, ?_, ?_, ?_, hidx⟩
    · rw [hbuf, List.getElem?_set_self hc]
      rfl
    · intro j hj
      rw [hbuf, List.getElem?_set_ne (Ne.symm hj)]
    · rw [hbuf, List.length_set]

theorem C16_pending_entry_at_cursor_witness :
    ∃ m, fullPendingNext.2.2 = [m] ∧ m.status = 144 ∧
      fullPendingNext.1.noteoff_buffer[fullPending.active_notes_index]? =
        some (m.note,
          (fullPending.noteoff_buffer.getD fullPending.active_notes_index (0, 0)).2) ∧
      (∀ j, j ≠ fullPending.active_notes_index →
        fullPendingNext.1.noteoff_buffer[j]? = fullPending.noteoff_buffer[j]?) ∧
      fullPendingNext.1.noteoff_buffer.length = fullPending.noteoff_buffer.length ∧
      fullPendingNext.1.active_notes_index
        = (fullPending.active_notes_index + 1) % NUM_VOICES :=
  C16_pending_entry_at_cursor scenarioPorts 0 fullPending fullPendingNext.1
    fullPendingNext.2.1 fullPendingNext.2.2 (by decide!) (by decide!) (by decide!)

/-- C16 (counterexample): at a sample rate of 16, note 60 received: the first
note-on is recorded in entry 0 and its note-off frees entry 0 in sample 2; after
5 samples all 16 entries are free, and the note-on of sample 5 is recorded in
entry 1, not in the free entry 0.  And with 60, 64, 67 held, after 16 triggers
with no note-off call in between all 16 entries are pending, and the 17th
trigger overwrites entry 0 (60 becomes 64). -/
theorem C16_cursor_entry_not_lowest_free :
    (run scenarioPorts [] [noteOn60] 5 0 slowState).map (fun r => r.1.noteoff_buffer)
      = some (List.replicate 16 (0, 0)) ∧
    (run scenarioPorts [] [noteOn60] 6 0 slowState).map
      (fun r => (r.2.2, r.1.noteoff_buffer.take 3))
      = some ([createMidiEvent 144 60 100, createMidiEvent 128 60 0,
          createMidiEvent 144 60 80], [(0, 0), (60, 1), (0, 0)]) ∧
    (∀ e ∈ fullPending.noteoff_buffer, e.1 > 0) ∧
    fullPending.noteoff_buffer.head? = some (60, 0) ∧
    fullPendingNext.2.2 = [createMidiEvent 144 64 100] ∧
    fullPendingNext.1.noteoff_buffer.head? = some (64, 0) := by
  refine ⟨by decide!, by decide!, by decide!, by decide!, by decide!, by decide!⟩

/-- C17: bounce mode, the notes 60..75 received and 60..74 released in one
block: slot 15 holds 75 and one note is active, yet the trigger (the call of
`handleNoteOn` in the first sample) emits no note-on: the ascending scan turns
round before slot 15 (`note_played >= NUM_VOICES - 1`), and the slot cursor is
left at -1. -/
theorem C17_bounce_skips_last_slot :
    lastSlotOnly.midi_notes = List.replicate 15 0 ++ [75] ∧
    lastSlotOnly.active_notes = 1 ∧
    populated (lastSlotOnly.midi_notes.getD 15 0) ∧
    (handleNoteOn bouncePorts 0 lastSlotOnly).map (fun r => (r.2.2, r.1.note_played))
      = some ([], -1) ∧
    (run bouncePorts [] lastSlotEvents 1 0 scenarioState).map (fun r => r.2.2) = some [] := by
  refine ⟨by decide!, by decide!, by decide!, by decide!, by decide!⟩

/-- C18: the memo `last_note_played` is a function-static variable, one for all
instances.  Instance A holds 60, 64, 67 in bounce mode and B holds 72, 76, 79.
Four triggers of A alone emit 60, 64, 67, 64 and leave the cursor of A at 0; with
two triggers of B between the third and the fourth trigger of A, A emits
60, 64, 67, 60 and its cursor is left at -1. -/
theorem C18_static_memo_shared :
    (interleaved bouncePorts [true, true, true, true] 0
        (bounceThree 60 64 67, bounceThree 72 76 79)).map
      (fun r => (r.2.2.1.map (fun (m : LV2_Atom_MIDI) => m.note), r.1.1.note_played))
      = some ([60, 64, 67, 64], 0) ∧
    (interleaved bouncePorts [true, true, true, false, false, true] 0
        (bounceThree 60 64 67, bounceThree 72 76 79)).map
      (fun r => (r.2.2.1.map (fun (m : LV2_Atom_MIDI) => m.note), r.1.1.note_played))
      = some ([60, 64, 67, 60], -1) := by
  refine ⟨by decide!, by decide!⟩

/-- C19 (amended): in octave mode 1 with a spread of integer part `S >= 2`: on
the call where the mode changes to 1 the octave index is set to `S`, that call
returns `12 * S` reduced to 8 bits (`12 * S` itself when `S <= 21`) and leaves
the index at `S - 1`; on every later call the returned offset is 12 times the
current index (reduced to 8 bits) and the index then decrements, wrapping to
`S - 1` when it would go below 0; with `S = 3` from the initial state the calls
return 36, 24, 12, 0, 24, 12, 0. -/
theorem C19_descending_octaves (p : Ports) (s : Arpeggiator) (S : Int)
    (hS : toInt p.octaveSpreadParam = S) (h2 : 2 ≤ S)
    (hm : toInt p.octaveModeParam = 1) :
    (s.previousOctaveMode ≠ 1 →
      octaveHandler p s = some (intToU8 (12 * S),
        { s with octave_index := S - 1, previousOctaveMode := 1 }) ∧
      (S ≤ 21 → intToU8 (12 * S) = 12 * S.toNat)) ∧
    (s.previousOctaveMode = 1 →
      octaveHandler p s = some (intToU8 (12 * s.octave_index),
        { s with octave_index :=
            if s.octave_index - 1 < 0 then S - 1 else s.octave_index - 1 })) ∧
    (S = 3 → s.previousOctaveMode = 0 →
      (octaveTrace p [s.note_played, s.note_played, s.note_played, s.note_played,
          s.note_played, s.note_played, s.note_played] s).map (fun tr => tr.map Prod.fst)
        = some [36, 24, 12, 0, 24, 12, 0]) := by
  refine ⟨fun hprev => ⟨octaveHandler_select_mode1 p s S hS h2 hm hprev,
    fun h21 => intToU8_of_small S (by omega) h21⟩,
    fun hprev => octaveHandler_descending p s S hS h2 hm hprev, ?_⟩
  intro h3 hprev
  subst h3
  have hne : ∀ t : Arpeggiator, t.previousOctaveMode = 0 → t.previousOctaveMode ≠ 1 := by
    intro t ht; rw [ht]; decide
  simp only [octaveTrace]
  rw [octaveHandler_select_mode1 p _ 3 hS h2 hm (hne _ hprev)]
  simp only [Option.some_bind]
  rw [octaveHandler_descending p _ 3 hS h2 hm rfl]
  simp only [Option.some_bind]
  rw [octaveHandler_descending p _ 3 hS h2 hm rfl]
  simp only [Option.some_bind]
  rw [octaveHandler_descending p _ 3 hS h2 hm rfl]
  simp only [Option.some_bind]
  rw [octaveHandler_descending p _ 3 hS h2 hm rfl]
  simp only [Option.some_bind]
  rw [octaveHandler_descending p _ 3 hS h2 hm rfl]
  simp only [Option.some_bind]
  rw [octaveHandler_descending p _ 3 hS h2 hm rfl]
  simp only [Option.some_bind, Option.map_some', List.map_cons, List.map_nil]
  decide

theorem C19_descending_octaves_witness :
    octaveHandler (octaveSetting 1 3) scenarioState = some (intToU8 (12 * 3),
      { scenarioState with octave_index := 3 - 1, previousOctaveMode := 1 }) ∧
    (octaveTrace (octaveSetting 1 3) [0, 0, 0, 0, 0, 0, 0] scenarioState).map
      (fun tr => tr.map Prod.fst) = some [36, 24, 12, 0, 24, 12, 0] :=
  ⟨((C19_descending_octaves (octaveSetting 1 3) scenarioState 3 (by decide!) (by decide)
      (by decide!)).1 (by decide)).1,
    (C19_descending_octaves (octaveSetting 1 3) scenarioState 3 (by decide!) (by decide)
      (by decide!)).2.2 rfl rfl⟩

/-- C19 (counterexample): octave mode 1 with spread 22 selected from the freshly
instantiated state: the index is set to 22 and the call returns 8, the low 8
bits of 12 * 22 = 264. -/
theorem C19_offset_wraps_at_spread_22 :
    octaveHandler (octaveSetting 1 22) scenarioState = some (8,
      { scenarioState with octave_index := 21, previousOctaveMode := 1 }) := by
  decide!

/-- C20: bounce mode, note 60 received by the freshly activated plugin: after
two triggers the slot cursor `note_played` is -1, and the third trigger reads
`midi_notes[-1]`, outside the table.  In `run` at a sample rate of 16 (a period
of 4 samples) the cursor is -1 after 6 samples and the read outside the table
happens in sample 9. -/
theorem C20_bounce_cursor_below_zero :
    (triggers bouncePorts 2 0 bounceOne).map
      (fun r => (r.1.note_played, r.2.2.map (fun (m : LV2_Atom_MIDI) => m.note)))
      = some (-1, [60, 60]) ∧
    readNote bounceOne.midi_notes (-1) = none ∧
    triggers bouncePorts 3 0 bounceOne = none ∧
    (run bouncePorts [] [noteOn60] 6 0 slowState).map (fun r => r.1.note_played)
      = some (-1) ∧
    (run bouncePorts [] [noteOn60] 9 0 slowState).isSome = true ∧
    run bouncePorts [] [noteOn60] 10 0 slowState = none := by
  refine ⟨by decide!, by decide!, by decide!, by decide!, by decide!, by decide!⟩

/-- C21: the pitch byte is `slot pitch + octave offset` kept to 8 bits, with no
check against 127.  With pitch 127 held, octave mode 0 and spread 2, the second
trigger emits the note-on with pitch byte 139, and its note-off carries 139 too
(sample rate 16: note-ons in samples 0 and 5).  With pitch 124 held, octave mode
1 and spread 11, the first trigger adds the offset 132: the pitch byte wraps to
0, the pending entry then reads as free, and no note-off follows (with spread 1
the same five samples give note-on 124 and note-off 124). -/
theorem C21_pitch_byte_above_127 :
    (triggers (octaveSetting 0 2) 2 0
        (midiInEvent (octaveSetting 0 2) scenarioState (midiEvent 0x90 127))).map
      (fun r => r.2.2.map (fun (m : LV2_Atom_MIDI) => m.note)) = some [127, 139] ∧
    (run (octaveSetting 0 2) [] [midiEvent 0x90 127] 8 0 slowState).map (fun r => r.2.2)
      = some [createMidiEvent 144 127 100, createMidiEvent 128 127 0,
          createMidiEvent 144 139 80, createMidiEvent 128 139 0] ∧
    (octaveHandler (octaveSetting 1 11)
        (midiInEvent (octaveSetting 1 11) scenarioState (midiEvent 0x90 124))).map Prod.fst
      = some 132 ∧
    (run (octaveSetting 1 11) [] [midiEvent 0x90 124] 5 0 slowState).map
      (fun r => (r.2.2, r.1.noteoff_buffer))
      = some ([createMidiEvent 144 0 100], List.replicate 16 (0, 0)) ∧
    (run (octaveSetting 0 1) [] [midiEvent 0x90 124] 5 0 slowState).map (fun r => r.2.2)
      = some [createMidiEvent 144 124 100, createMidiEvent 128 124 0] := by
  refine ⟨by decide!, by decide!, by decide!, by decide!, by decide!⟩

end ArpLV2
